import Mathlib

/-!
# wallet-service: ledger store, balance cache and wallet engine

A shallow embedding of `internal/wallet/repository.go`,
`internal/wallet/service.go` and the handlers of
`internal/endpoint/transaction.go` and `internal/endpoint/view.go`.

* Amounts and balances are exact integers (minor units). The Go code uses
  `float64`: the section "The same code with Go's `float64`" repeats the
  repository and the engine with the conversions as parameters, for the places
  where the rounding matters.
* The PostgreSQL database is a pair of tables (`wallets`, `transactions`).
  A `sql.Tx` works on a private copy that replaces the committed tables only
  when `Commit` succeeds.
* The Redis cache maps a user id (the key `wallet_balance:<id>`) to the value
  stored under it.
* Every call to the store or the cache can fail: the environment of an
  operation says, call by call, whether the driver reports an error.
* Every operation returns, next to its Go results, the calls it issued to the
  store and to the cache.
* An HTTP handler maps what it reads from the request (the parsed path
  parameter, the bound JSON body) to the status code and JSON body it writes;
  logging is not modelled.
-/

namespace Wallet

/-! ## Go error values -/

/-- Go `error` values that occur in the wallet package. -/
inductive GoError where
  /-- The error `errors.New("insufficient funds")` of `errorFactory`. -/
  | insufficientFunds
  /-- The error `errors.New("recipient not found")` of `errorFactory`. -/
  | recipientNotFound
  /-- The error `sql.ErrNoRows`: `Scan` on a query that returned no row. -/
  | errNoRows
  /-- The error `redis.Nil`: the key is not in the cache. -/
  | redisNil
  /-- The error of `strconv.ParseFloat` on a string that is no number. -/
  | parseFloat
  /-- The error of `rows.Scan` converting SQL NULL into a Go `int`. -/
  | scanNull
  /-- An error reported by the SQL driver or the Redis client. -/
  | driver (code : Nat)
  /-- The value of `fmt.Errorf(format, args..., cause)` with a `%w` verb. -/
  | wrapped (format : String) (args : List Int) (cause : GoError)
  deriving DecidableEq, Repr

/-- Go `fmt.Errorf` with integer arguments followed by one wrapped error. -/
def Errorf (format : String) (args : List Int) (cause : GoError) : GoError :=
  GoError.wrapped format args cause

/-- Go `errors.Is(err, target)`: `err` or an error it wraps is `target`. -/
def GoError.Is : GoError → GoError → Bool
  | .wrapped format args cause, target =>
    decide (GoError.wrapped format args cause = target) || cause.Is target
  | e, target => decide (e = target)

/-! ## The ledger store -/

/-- A row of table `wallets`. -/
structure WalletRow where
  user_id : Int
  balance : Int
  deriving DecidableEq, Repr

/-- A row of table `transactions`. -/
structure TransactionRow where
  transaction_id : Nat
  from_user_id : Option Int
  to_user_id : Option Int
  amount : Int
  transaction_type : String
  timestamp : Nat
  deriving DecidableEq, Repr

/-- The committed content of the database. -/
structure DB where
  wallets : List WalletRow
  transactions : List TransactionRow
  deriving DecidableEq, Repr

/-- The two balance statements of the repository:
`UPDATE wallets SET balance = balance + $1 WHERE user_id = $2 RETURNING balance`
and the same with `balance - $1`. -/
inductive BalanceQuery where
  | add
  | sub
  deriving DecidableEq, Repr

/-- The right-hand side of `SET balance = ...`. -/
def BalanceQuery.eval : BalanceQuery → Int → Int → Int
  | .add, balance, amount => balance + amount
  | .sub, balance, amount => balance - amount

/-- The calls the repository issues to the database. -/
inductive StoreCall where
  | beginTx
  | updateBalance (query : BalanceQuery) (amount userID : Int)
  | insertTransaction (src dst : Option Int) (amount : Int) (transactionType : String)
  | commit
  | rollback
  | selectBalance (userID : Int)
  | selectTransactions (userID : Int)
  deriving DecidableEq, Repr

/-- The table `wallets` after `UPDATE ... WHERE user_id = userID`. -/
def updateWallets (query : BalanceQuery) (amount userID : Int) (ws : List WalletRow) :
    List WalletRow :=
  ws.map fun w =>
    if w.user_id = userID then { w with balance := query.eval w.balance amount } else w

/-- The result of `SELECT balance FROM wallets WHERE user_id = userID`, also the
`RETURNING balance` rows of an update once it has been applied. -/
def selectBalance (userID : Int) (ws : List WalletRow) : List Int :=
  (ws.filter fun w => w.user_id = userID).map fun w => w.balance

/-- Go `QueryRow(...).Scan(&balance)`: the first row, `sql.ErrNoRows` when there is
none, the driver error when the statement fails. -/
def scanBalance (fault : Option GoError) (rows : List Int) : Except GoError Int :=
  match fault with
  | some e => .error e
  | none =>
    match rows with
    | [] => .error .errNoRows
    | b :: _ => .ok b

/-- An open `sql.Tx`: the tables as committed when it began, the tables as the
transaction sees them, and the calls issued so far. -/
structure Tx where
  base : DB
  work : DB
  calls : List StoreCall
  deriving DecidableEq, Repr

/-- Go `db.BeginTx`. -/
def BeginTx (db : DB) (fault : Option GoError) : Except GoError Tx :=
  match fault with
  | some e => .error e
  | none => .ok { base := db, work := db, calls := [.beginTx] }

/-- Go `tx.QueryRowContext(ctx, query, amount, userID).Scan(&newBalance)`. -/
def Tx.queryRowScan (tx : Tx) (fault : Option GoError) (query : BalanceQuery)
    (amount userID : Int) : Tx × Except GoError Int :=
  let calls := tx.calls ++ [.updateBalance query amount userID]
  match fault with
  | some e => ({ tx with calls := calls }, .error e)
  | none =>
    let ws := updateWallets query amount userID tx.work.wallets
    ({ tx with work := { tx.work with wallets := ws }, calls := calls },
      scanBalance none (selectBalance userID ws))

/-- Modelled from the spec: the columns the store assigns on INSERT (the table
definition is not part of the sources): `transaction_id` is store-assigned and
increasing, `timestamp` is the store's clock. -/
def newTransactionRow (rows : List TransactionRow) (now : Nat) (src dst : Option Int)
    (amount : Int) (transactionType : String) : TransactionRow :=
  { transaction_id := rows.length + 1, from_user_id := src, to_user_id := dst,
    amount := amount, transaction_type := transactionType, timestamp := now }

/-- Go `tx.ExecContext(ctx, "INSERT INTO transactions (from_user_id, to_user_id,
amount, transaction_type) VALUES ($1, $2, $3, $4)", ...)`. -/
def Tx.execInsert (tx : Tx) (fault : Option GoError) (now : Nat) (src dst : Option Int)
    (amount : Int) (transactionType : String) : Tx × Option GoError :=
  let calls := tx.calls ++ [.insertTransaction src dst amount transactionType]
  match fault with
  | some e => ({ tx with calls := calls }, some e)
  | none =>
    let row := newTransactionRow tx.work.transactions now src dst amount transactionType
    ({ tx with work := { tx.work with transactions := tx.work.transactions ++ [row] },
               calls := calls }, none)

/-- Go `tx.Commit()`: on success the transaction's tables become the committed
ones; when the commit fails nothing of the transaction is kept. -/
def Tx.commit (tx : Tx) (fault : Option GoError) : DB × List StoreCall × Option GoError :=
  match fault with
  | some e => (tx.base, tx.calls ++ [.commit], some e)
  | none => (tx.work, tx.calls ++ [.commit], none)

/-- Go `tx.Rollback()`: the committed tables are those from before the
transaction. (After a failed `Commit` the library answers `ErrTxDone`, which
the repository only logs.) -/
def rollback (base : DB) (calls : List StoreCall) : DB × List StoreCall :=
  (base, calls ++ [.rollback])

/-- What a repository method returns, with the database it leaves and the
calls it made. `err = none` is Go's `nil`. -/
structure RepoResult (α : Type) where
  value : α
  err : Option GoError
  db : DB
  calls : List StoreCall

/-- The deferred function of `handleTransaction` and `Transfer`:
`if *errptr != nil { tx.Rollback() }`, run when the method returns. `raw` is the
error `errptr` points to, `db` and `calls` the store as the body left it. -/
def deferredRollback {α : Type} (base : DB) (raw : Option GoError) (value : α)
    (ret : Option GoError) (db : DB) (calls : List StoreCall) : RepoResult α :=
  match raw with
  | some _ =>
    let r := rollback base calls
    { value := value, err := ret, db := r.1, calls := r.2 }
  | none => { value := value, err := ret, db := db, calls := calls }

/-- What the store does during one `handleTransaction`: for each call the
error the driver reports (`none`: the call succeeds), and the store's clock. -/
structure TxEnv where
  beginErr : Option GoError
  updateErr : Option GoError
  insertErr : Option GoError
  commitErr : Option GoError
  now : Nat
  deriving DecidableEq, Repr

/-- What the store does during one repository `Transfer`. -/
structure TransferTxEnv where
  beginErr : Option GoError
  updateFromErr : Option GoError
  updateToErr : Option GoError
  insertErr : Option GoError
  commitErr : Option GoError
  now : Nat
  deriving DecidableEq, Repr

namespace walletRepository

/-- The method `walletRepository.LogTransaction`. -/
def LogTransaction (tx : Tx) (fault : Option GoError) (now : Nat)
    (fromUserID toUserID : Option Int) (amount : Int) (transactionType : String) :
    Tx × Option GoError :=
  match tx.execInsert fault now fromUserID toUserID amount transactionType with
  | (tx1, some e) => (tx1, some (Errorf "failed to insert database: %w" [] e))
  | (tx1, none) => (tx1, none)

/-- The method `walletRepository.handleTransaction`. -/
def handleTransaction (db : DB) (env : TxEnv) (userID amount : Int) (query : BalanceQuery)
    (transactionType : String) : RepoResult Int :=
  match BeginTx db env.beginErr with
  | .error e =>
    { value := 0, db := db, calls := [.beginTx],
      err := some (Errorf "failed to begin transaction for user %d: %w" [userID] e) }
  | .ok tx =>
    match tx.queryRowScan env.updateErr query amount userID with
    | (tx1, .error e) =>
      deferredRollback tx1.base (some e) 0
        (some (Errorf "failed to query database for user %d: %w" [userID] e)) tx1.base tx1.calls
    | (tx1, .ok newBalance) =>
      match LogTransaction tx1 env.insertErr env.now (some userID) none amount
          transactionType with
      | (tx2, some e) =>
        deferredRollback tx2.base (some e) 0
          (some (Errorf "failed to log transaction for user %d: %w" [userID] e)) tx2.base
          tx2.calls
      | (tx2, none) =>
        match tx2.commit env.commitErr with
        | (db1, calls, some e) =>
          deferredRollback tx2.base (some e) 0
            (some (Errorf "failed to commit transaction for user %d: %w" [userID] e)) db1 calls
        | (db1, calls, none) => deferredRollback tx2.base none newBalance none db1 calls

/-- The method `walletRepository.Deposit`. -/
def Deposit (db : DB) (env : TxEnv) (userID amount : Int) : RepoResult Int :=
  handleTransaction db env userID amount .add "deposit"

/-- The method `walletRepository.Withdraw`. -/
def Withdraw (db : DB) (env : TxEnv) (userID amount : Int) : RepoResult Int :=
  handleTransaction db env userID amount .sub "withdraw"

/-- The method `walletRepository.Transfer`. -/
def Transfer (db : DB) (env : TransferTxEnv) (fromUserID toUserID amount : Int) :
    RepoResult (Int × Int) :=
  match BeginTx db env.beginErr with
  | .error e =>
    { value := (0, 0), db := db, calls := [.beginTx],
      err := some (Errorf
        "failed to begin transaction for from user %d and to user %d: %w"
        [fromUserID, toUserID] e) }
  | .ok tx =>
    match tx.queryRowScan env.updateFromErr .sub amount fromUserID with
    | (tx1, .error e) =>
      deferredRollback tx1.base (some e) (0, 0)
        (some (Errorf "failed to query database for user %d: %w" [fromUserID] e))
        tx1.base tx1.calls
    | (tx1, .ok fromBalance) =>
      match tx1.queryRowScan env.updateToErr .add amount toUserID with
      | (tx2, .error e) =>
        deferredRollback tx2.base (some e) (0, 0)
          (some (Errorf "failed to query database for user %d: %w" [toUserID] e))
          tx2.base tx2.calls
      | (tx2, .ok toBalance) =>
        match LogTransaction tx2 env.insertErr env.now (some fromUserID) (some toUserID)
            amount "transfer" with
        | (tx3, some e) =>
          deferredRollback tx3.base (some e) (0, 0)
            (some (Errorf "failed to log transaction for from user %d and to %d: %w"
              [fromUserID, toUserID] e)) tx3.base tx3.calls
        | (tx3, none) =>
          match tx3.commit env.commitErr with
          | (db1, calls, some e) =>
            deferredRollback tx3.base (some e) (0, 0)
              (some (Errorf "failed to commit transaction: %w" [] e)) db1 calls
          | (db1, calls, none) =>
            deferredRollback tx3.base none (fromBalance, toBalance) none db1 calls

/-- The method `walletRepository.GetBalance`. -/
def GetBalance (db : DB) (fault : Option GoError) (userID : Int) : RepoResult Int :=
  match scanBalance fault (selectBalance userID db.wallets) with
  | .error e =>
    { value := 0, db := db, calls := [.selectBalance userID],
      err := some (Errorf "failed to query database for user %d: %w" [userID] e) }
  | .ok balance => { value := balance, err := none, db := db, calls := [.selectBalance userID] }

end walletRepository

/-- The Go struct `Transaction` of `model.go`: both user ids are plain `int`. -/
structure Transaction where
  TransactionID : Nat
  FromUserID : Int
  ToUserID : Int
  Amount : Int
  TransactionType : String
  Timestamp : Nat
  deriving DecidableEq, Repr

/-- Go `rows.Scan(&t.TransactionID, &t.FromUserID, &t.ToUserID, ...)`: a NULL
column cannot be stored into an `int` field. -/
def scanTransaction (r : TransactionRow) : Except GoError Transaction :=
  match r.from_user_id, r.to_user_id with
  | some f, some t =>
    .ok { TransactionID := r.transaction_id, FromUserID := f, ToUserID := t,
          Amount := r.amount, TransactionType := r.transaction_type,
          Timestamp := r.timestamp }
  | _, _ => .error .scanNull

/-- The rows of `SELECT ... FROM transactions WHERE from_user_id = $1 OR
to_user_id = $1 ORDER BY timestamp DESC`. -/
def selectTransactions (userID : Int) (rows : List TransactionRow) : List TransactionRow :=
  (rows.filter fun r => r.from_user_id = some userID ∨ r.to_user_id = some userID).insertionSort
    fun a b => b.timestamp ≤ a.timestamp

/-- What the store does during one `GetTransactionHistory`. -/
structure HistoryEnv where
  queryErr : Option GoError
  rowsErr : Option GoError
  deriving DecidableEq, Repr

namespace walletRepository

/-- The `for rows.Next()` loop of `GetTransactionHistory`. -/
def scanAll (userID : Int) : List TransactionRow → Except GoError (List Transaction)
  | [] => .ok []
  | r :: rest =>
    match scanTransaction r with
    | .error e =>
      .error (Errorf "failed to scan certain transaction for user %d: %w" [userID] e)
    | .ok t =>
      match scanAll userID rest with
      | .error e => .error e
      | .ok ts => .ok (t :: ts)

/-- The method `walletRepository.GetTransactionHistory`. -/
def GetTransactionHistory (db : DB) (env : HistoryEnv) (userID : Int) :
    RepoResult (List Transaction) :=
  match env.queryErr with
  | some e =>
    { value := [], db := db, calls := [.selectTransactions userID],
      err := some (Errorf "failed to query database for user %d: %w" [userID] e) }
  | none =>
    match scanAll userID (selectTransactions userID db.transactions) with
    | .error e => { value := [], err := some e, db := db, calls := [.selectTransactions userID] }
    | .ok txs =>
      match env.rowsErr with
      | some e =>
        { value := [], db := db, calls := [.selectTransactions userID],
          err := some (Errorf "error arises during rows intertation for user %d: %w"
            [userID] e) }
      | none => { value := txs, err := none, db := db, calls := [.selectTransactions userID] }

end walletRepository

/-! ## The balance cache -/

/-- The string stored under a cache key, by what `strconv.ParseFloat` makes of
it: the number it reads (`Set` writes a balance in this form; other spellings
of a number, such as `5e1`, read as that number too), or a string it rejects.
Strings that read as NaN or an infinity have no counterpart here. -/
inductive CacheValue where
  | number (v : Int)
  | malformed
  deriving DecidableEq, Repr

/-- The Redis cache, by user id: the key is `wallet_balance:<userID>`. -/
abbrev Cache := Int → Option CacheValue

/-- The calls the service issues to the cache. -/
inductive CacheCall where
  | get (userID : Int)
  | set (userID : Int) (value : Int)
  deriving DecidableEq, Repr

/-- Go `cache.Get(ctx, key).Result()`: `redis.Nil` when the key is absent. -/
def cacheGet (cache : Cache) (fault : Option GoError) (userID : Int) :
    Except GoError CacheValue :=
  match fault with
  | some e => .error e
  | none =>
    match cache userID with
    | none => .error .redisNil
    | some v => .ok v

/-- Go `cache.Set(ctx, key, balance, 0).Err()`. -/
def cacheSet (cache : Cache) (fault : Option GoError) (userID : Int) (balance : Int) :
    Cache × Option GoError :=
  match fault with
  | some e => (cache, some e)
  | none => (Function.update cache userID (some (.number balance)), none)

/-- Go `strconv.ParseFloat(cachedBalance, 64)`. -/
def ParseFloat : CacheValue → Except GoError Int
  | .number v => .ok v
  | .malformed => .error .parseFloat

/-! ## The wallet engine -/

/-- The store and the cache between two calls of the service. -/
structure World where
  db : DB
  cache : Cache

/-- What a service method returns, with the store and cache it leaves and the
calls it made to each. -/
structure SvcResult (α : Type) where
  value : α
  err : Option GoError
  db : DB
  cache : Cache
  storeCalls : List StoreCall
  cacheCalls : List CacheCall

/-- What store and cache do during one `GetBalance` of the service. -/
structure GetBalanceEnv where
  cacheGetErr : Option GoError
  selectErr : Option GoError
  cacheSetErr : Option GoError
  deriving DecidableEq, Repr

/-- What store and cache do during one `Deposit` of the service. -/
structure DepositEnv where
  tx : TxEnv
  cacheSetErr : Option GoError
  deriving DecidableEq, Repr

/-- What store and cache do during one `Withdraw` of the service. -/
structure WithdrawEnv where
  read : GetBalanceEnv
  tx : TxEnv
  cacheSetErr : Option GoError
  deriving DecidableEq, Repr

/-- What store and cache do during one `Transfer` of the service. -/
structure TransferEnv where
  readFrom : GetBalanceEnv
  readTo : GetBalanceEnv
  tx : TransferTxEnv
  setFromErr : Option GoError
  setToErr : Option GoError
  deriving DecidableEq, Repr

namespace walletService

/-- The part of `GetBalance` after the cache lookup: "Fallback to Postgres",
then "Update cache for next time". -/
def getBalanceFallback (s : World) (env : GetBalanceEnv) (userID : Int) : SvcResult Int :=
  let r := walletRepository.GetBalance s.db env.selectErr userID
  match r.err with
  | some e =>
    { value := 0, db := r.db, cache := s.cache, storeCalls := r.calls,
      cacheCalls := [.get userID],
      err := some (Errorf "failed to get balance to get balance for user %d: %w" [userID] e) }
  | none =>
    match cacheSet s.cache env.cacheSetErr userID r.value with
    | (cache, some e) =>
      { value := 0, db := r.db, cache := cache, storeCalls := r.calls,
        cacheCalls := [.get userID, .set userID r.value],
        err := some (Errorf "failed to update redis for user %d: %w" [userID] e) }
    | (cache, none) =>
      { value := r.value, err := none, db := r.db, cache := cache, storeCalls := r.calls,
        cacheCalls := [.get userID, .set userID r.value] }

/-- The method `walletService.GetBalance`. -/
def GetBalance (s : World) (env : GetBalanceEnv) (userID : Int) : SvcResult Int :=
  match cacheGet s.cache env.cacheGetErr userID with
  | .ok cachedBalance =>
    match ParseFloat cachedBalance with
    | .ok balance =>
      { value := balance, err := none, db := s.db, cache := s.cache, storeCalls := [],
        cacheCalls := [.get userID] }
    | .error _ => getBalanceFallback s env userID
  | .error _ => getBalanceFallback s env userID

/-- The method `walletService.Deposit`. -/
def Deposit (s : World) (env : DepositEnv) (userID amount : Int) : SvcResult Int :=
  let r := walletRepository.Deposit s.db env.tx userID amount
  match r.err with
  | some e =>
    { value := 0, db := r.db, cache := s.cache, storeCalls := r.calls, cacheCalls := [],
      err := some (Errorf "failed to deposit to database for user %d: %w" [userID] e) }
  | none =>
    match cacheSet s.cache env.cacheSetErr userID r.value with
    | (cache, some e) =>
      { value := 0, db := r.db, cache := cache, storeCalls := r.calls,
        cacheCalls := [.set userID r.value],
        err := some (Errorf "failed to update redis for user %d: %w" [userID] e) }
    | (cache, none) =>
      { value := r.value, err := none, db := r.db, cache := cache, storeCalls := r.calls,
        cacheCalls := [.set userID r.value] }

/-- The method `walletService.Withdraw`. -/
def Withdraw (s : World) (env : WithdrawEnv) (userID amount : Int) : SvcResult Int :=
  let g := GetBalance s env.read userID
  match g.err with
  | some e =>
    { value := 0, err := some e, db := g.db, cache := g.cache, storeCalls := g.storeCalls,
      cacheCalls := g.cacheCalls }
  | none =>
    if g.value < amount then
      { value := 0, err := some .insufficientFunds, db := g.db, cache := g.cache,
        storeCalls := g.storeCalls, cacheCalls := g.cacheCalls }
    else
      let r := walletRepository.Withdraw g.db env.tx userID amount
      match r.err with
      | some e =>
        { value := 0, db := r.db, cache := g.cache, storeCalls := g.storeCalls ++ r.calls,
          cacheCalls := g.cacheCalls,
          err := some (Errorf "failed to update database for user %d: %w" [userID] e) }
      | none =>
        match cacheSet g.cache env.cacheSetErr userID r.value with
        | (cache, some e) =>
          { value := 0, db := r.db, cache := cache, storeCalls := g.storeCalls ++ r.calls,
            cacheCalls := g.cacheCalls ++ [.set userID r.value],
            err := some (Errorf "failed to update redis for user %d: %w" [userID] e) }
        | (cache, none) =>
          { value := r.value, err := none, db := r.db, cache := cache,
            storeCalls := g.storeCalls ++ r.calls,
            cacheCalls := g.cacheCalls ++ [.set userID r.value] }

/-- The part of `Transfer` after both balance reads: the repository call and
the two cache writes. `calls` and `gets` are the calls made by the reads. -/
def transferCommit (db : DB) (cache : Cache) (env : TransferEnv)
    (fromUserID toUserID amount : Int) (calls : List StoreCall) (gets : List CacheCall) :
    SvcResult (Int × Int) :=
  let r := walletRepository.Transfer db env.tx fromUserID toUserID amount
  match r.err with
  | some e =>
    { value := (0, 0), db := r.db, cache := cache, storeCalls := calls ++ r.calls,
      cacheCalls := gets, err := some (Errorf "failed to update database: %w" [] e) }
  | none =>
    match cacheSet cache env.setFromErr fromUserID r.value.1 with
    | (cache1, some e) =>
      { value := (0, 0), db := r.db, cache := cache1, storeCalls := calls ++ r.calls,
        cacheCalls := gets ++ [.set fromUserID r.value.1],
        err := some (Errorf "failed to update redis: %w" [] e) }
    | (cache1, none) =>
      match cacheSet cache1 env.setToErr toUserID r.value.2 with
      | (cache2, some e) =>
        { value := (0, 0), db := r.db, cache := cache2, storeCalls := calls ++ r.calls,
          cacheCalls := gets ++ [.set fromUserID r.value.1, .set toUserID r.value.2],
          err := some (Errorf "failed to update redis: %w" [] e) }
      | (cache2, none) =>
        { value := r.value, err := none, db := r.db, cache := cache2,
          storeCalls := calls ++ r.calls,
          cacheCalls := gets ++ [.set fromUserID r.value.1, .set toUserID r.value.2] }

/-- The method `walletService.Transfer`. -/
def Transfer (s : World) (env : TransferEnv) (fromUserID toUserID amount : Int) :
    SvcResult (Int × Int) :=
  let g := GetBalance s env.readFrom fromUserID
  match g.err with
  | some e =>
    { value := (0, 0), err := some e, db := g.db, cache := g.cache,
      storeCalls := g.storeCalls, cacheCalls := g.cacheCalls }
  | none =>
    if g.value < amount then
      { value := (0, 0), err := some .insufficientFunds, db := g.db, cache := g.cache,
        storeCalls := g.storeCalls, cacheCalls := g.cacheCalls }
    else
      let h := GetBalance { db := g.db, cache := g.cache } env.readTo toUserID
      match h.err with
      | some _ =>
        { value := (0, 0), err := some .recipientNotFound, db := h.db, cache := h.cache,
          storeCalls := g.storeCalls ++ h.storeCalls,
          cacheCalls := g.cacheCalls ++ h.cacheCalls }
      | none =>
        transferCommit h.db h.cache env fromUserID toUserID amount
          (g.storeCalls ++ h.storeCalls) (g.cacheCalls ++ h.cacheCalls)

/-- The method `walletService.GetTransactionHistory`. -/
def GetTransactionHistory (s : World) (env : HistoryEnv) (userID : Int) :
    SvcResult (List Transaction) :=
  let r := walletRepository.GetTransactionHistory s.db env userID
  match r.err with
  | some e =>
    { value := [], db := r.db, cache := s.cache, storeCalls := r.calls, cacheCalls := [],
      err := some (Errorf "failed to get transaction history for user %d: %w" [userID] e) }
  | none =>
    { value := r.value, err := none, db := r.db, cache := s.cache, storeCalls := r.calls,
      cacheCalls := [] }

end walletService

/-! ## Vocabulary of the properties -/

/-- The store balance of a user: what `SELECT balance FROM wallets WHERE
user_id = userID` yields first, `none` when the user has no wallet row. -/
def balanceOf (db : DB) (userID : Int) : Option Int :=
  (selectBalance userID db.wallets).head?

/-- The sum of all store balances. -/
def totalBalance (db : DB) : Int :=
  (db.wallets.map fun w => w.balance).sum

/-- Modelled from the spec: a wallet is identified by its user identifier (the
table definition is not part of the sources), so no two rows of `wallets` have
the same `user_id`. -/
def KeyUnique (db : DB) : Prop :=
  (db.wallets.map fun w => w.user_id).Nodup

instance (db : DB) : Decidable (KeyUnique db) := by
  unfold KeyUnique; infer_instance

/-- Every store balance is non-negative. -/
def NonNegative (db : DB) : Prop :=
  ∀ w ∈ db.wallets, 0 ≤ w.balance

instance (db : DB) : Decidable (NonNegative db) := by
  unfold NonNegative; infer_instance

/-- The cache with no entry. -/
def emptyCache : Cache := fun _ => none

/-- A transaction of the store in which no call fails. -/
def TxEnv.ok (now : Nat) : TxEnv :=
  { beginErr := none, updateErr := none, insertErr := none, commitErr := none, now := now }

/-- A transfer transaction of the store in which no call fails. -/
def TransferTxEnv.ok (now : Nat) : TransferTxEnv :=
  { beginErr := none, updateFromErr := none, updateToErr := none, insertErr := none,
    commitErr := none, now := now }

/-- A balance read in which neither store nor cache fails. -/
def GetBalanceEnv.ok : GetBalanceEnv :=
  { cacheGetErr := none, selectErr := none, cacheSetErr := none }

/-- A deposit in which neither store nor cache fails. -/
def DepositEnv.ok (now : Nat) : DepositEnv :=
  { tx := TxEnv.ok now, cacheSetErr := none }

/-- A withdrawal in which neither store nor cache fails. -/
def WithdrawEnv.ok (now : Nat) : WithdrawEnv :=
  { read := GetBalanceEnv.ok, tx := TxEnv.ok now, cacheSetErr := none }

/-- A transfer in which neither store nor cache fails. -/
def TransferEnv.ok (now : Nat) : TransferEnv :=
  { readFrom := GetBalanceEnv.ok, readTo := GetBalanceEnv.ok, tx := TransferTxEnv.ok now,
    setFromErr := none, setToErr := none }

/-- One call of the service, with what store and cache do during it. -/
inductive Op where
  | deposit (env : DepositEnv) (userID amount : Int)
  | withdraw (env : WithdrawEnv) (userID amount : Int)
  | transfer (env : TransferEnv) (fromUserID toUserID amount : Int)
  | getBalance (env : GetBalanceEnv) (userID : Int)
  | getTransactionHistory (env : HistoryEnv) (userID : Int)

/-- The store and cache a call leaves, and the error it returns. -/
def Op.exec (s : World) : Op → World × Option GoError
  | .deposit env u a =>
    let r := walletService.Deposit s env u a
    ({ db := r.db, cache := r.cache }, r.err)
  | .withdraw env u a =>
    let r := walletService.Withdraw s env u a
    ({ db := r.db, cache := r.cache }, r.err)
  | .transfer env f t a =>
    let r := walletService.Transfer s env f t a
    ({ db := r.db, cache := r.cache }, r.err)
  | .getBalance env u =>
    let r := walletService.GetBalance s env u
    ({ db := r.db, cache := r.cache }, r.err)
  | .getTransactionHistory env u =>
    let r := walletService.GetTransactionHistory s env u
    ({ db := r.db, cache := r.cache }, r.err)

/-- Sequential execution of a list of calls. -/
def run (s : World) : List Op → World
  | [] => s
  | op :: ops => run (op.exec s).1 ops

/-- The amount of an operation is positive (reads carry no amount). -/
def Op.positive : Op → Prop
  | .deposit _ _ a => 0 < a
  | .withdraw _ _ a => 0 < a
  | .transfer _ _ _ a => 0 < a
  | .getBalance _ _ => True
  | .getTransactionHistory _ _ => True

/-- The database a committed `handleTransaction` leaves. -/
def committedDB (db : DB) (now : Nat) (u a : Int) (q : BalanceQuery) (ty : String) : DB :=
  { wallets := updateWallets q a u db.wallets,
    transactions := db.transactions ++ [newTransactionRow db.transactions now (some u) none a ty] }

/-- The database a committed repository `Transfer` leaves. -/
def transferredDB (db : DB) (now : Nat) (f t a : Int) : DB :=
  { wallets := updateWallets .add a t (updateWallets .sub a f db.wallets),
    transactions :=
      db.transactions ++ [newTransactionRow db.transactions now (some f) (some t) a "transfer"] }

/-- Every balance the cache holds is the store balance of its user. -/
def CacheConsistent (db : DB) (cache : Cache) : Prop :=
  ∀ u v, cache u = some (.number v) → balanceOf db u = some v

/-- A database with two wallets and no transaction record. -/
def sampleDB : DB := { wallets := [⟨1, 100⟩, ⟨2, 5⟩], transactions := [] }

/-- A transaction whose commit fails. -/
def commitFails : TxEnv := { TxEnv.ok 7 with commitErr := some (.driver 1) }

/-- The store with two wallets and an empty cache. -/
def sampleWorld : World := { db := sampleDB, cache := emptyCache }

/-- No cached balance exceeds the store balance of its user. -/
def CacheBelow (db : DB) (cache : Cache) : Prop :=
  ∀ u v b, cache u = some (.number v) → balanceOf db u = some b → v ≤ b

/-- Every balance the store answers is non-negative. -/
def BalancesNonNegative (db : DB) : Prop :=
  ∀ u b, balanceOf db u = some b → 0 ≤ b

/-- The cache write that follows a committed debit does not fail: the write of
`Withdraw`, and the write for `fromUserID` of `Transfer`. -/
def Op.debitWriteOk : Op → Prop
  | .withdraw env _ _ => env.cacheSetErr = none
  | .transfer env _ _ _ => env.setFromErr = none
  | _ => True

/-- No call to the cache fails during the operation. -/
def Op.noCacheFault : Op → Prop
  | .deposit env _ _ => env.cacheSetErr = none
  | .withdraw env _ _ =>
    env.read.cacheGetErr = none ∧ env.read.cacheSetErr = none ∧ env.cacheSetErr = none
  | .transfer env _ _ _ =>
    env.readFrom.cacheGetErr = none ∧ env.readFrom.cacheSetErr = none ∧
      env.readTo.cacheGetErr = none ∧ env.readTo.cacheSetErr = none ∧
      env.setFromErr = none ∧ env.setToErr = none
  | .getBalance env _ => env.cacheGetErr = none ∧ env.cacheSetErr = none
  | .getTransactionHistory _ _ => True

/-- What a call contributes to the sum of the balances: the amount of a
deposit that succeeded, minus the amount of a withdrawal that succeeded, and
zero for every transfer, every read and every failed call. -/
def Op.net (s : World) : Op → Int
  | .deposit env u a => if (walletService.Deposit s env u a).err.isNone then a else 0
  | .withdraw env u a => if (walletService.Withdraw s env u a).err.isNone then -a else 0
  | _ => 0

/-- The contributions of a sequence of calls, each taken in the state in which
the call is made. -/
def netFlow (s : World) : List Op → Int
  | [] => 0
  | op :: ops => op.net s + netFlow (op.exec s).1 ops

/-- A withdrawal whose cache write fails after the store committed. -/
def cacheWriteFails : WithdrawEnv :=
  { WithdrawEnv.ok 0 with cacheSetErr := some (.driver 1) }

/-- Two withdrawals of 100 from account 1; the cache write of the first fails. -/
def staleCacheCalls : List Op :=
  [.withdraw cacheWriteFails 1 100, .withdraw (WithdrawEnv.ok 1) 1 100]

/-- A deposit, a withdrawal, a refused withdrawal and two transfers. -/
def sampleCalls : List Op :=
  [.deposit (DepositEnv.ok 0) 1 40, .withdraw (WithdrawEnv.ok 1) 2 5,
    .withdraw (WithdrawEnv.ok 2) 2 5, .transfer (TransferEnv.ok 3) 1 2 60,
    .transfer (TransferEnv.ok 4) 1 1 10]

/-- A repository call `r`, made on database `db`, reports success exactly when
its transaction committed; it then appended exactly one transaction record,
with the given source, destination, amount and kind, and otherwise none. -/
def AppendsOneRecord {α : Type} (r : RepoResult α) (db : DB) (src dst : Option Int)
    (amount : Int) (kind : String) : Prop :=
  (r.err = none ↔ r.calls.getLast? = some .commit) ∧
  (r.err = none →
    ∃ row, r.db.transactions = db.transactions ++ [row] ∧ row.from_user_id = src ∧
      row.to_user_id = dst ∧ row.amount = amount ∧ row.transaction_type = kind) ∧
  (r.err ≠ none → r.db.transactions = db.transactions)

/-- A deposit whose cache write fails after the store committed. -/
def depositCacheWriteFails : DepositEnv :=
  { tx := TxEnv.ok 0, cacheSetErr := some (.driver 1) }

/-- The store of `sampleWorld` with a stale cache: account 1 holds 100 in the
store, its cache entry says 50. -/
def staleLowWorld : World :=
  { db := sampleDB, cache := Function.update emptyCache 1 (some (.number 50)) }

/-- A balance read whose cache write fails. -/
def cacheFillFails : GetBalanceEnv :=
  { GetBalanceEnv.ok with cacheSetErr := some (.driver 3) }

/-- The error with which the balance query of the repository `GetBalance`
fails, if it does: the driver's error, or `sql.ErrNoRows` when the user has no
wallet row. -/
def selectFailure (db : DB) (fault : Option GoError) (u : Int) : Option GoError :=
  match fault with
  | some e => some e
  | none => if balanceOf db u = none then some .errNoRows else none

/-- The error of the store call that fails during `handleTransaction`, if one
does: `BeginTx`, the UPDATE (driver error, or `sql.ErrNoRows` when the user has
no wallet row), the INSERT or the commit, in this order. -/
def txFailure (db : DB) (env : TxEnv) (u : Int) : Option GoError :=
  match env.beginErr, env.updateErr, balanceOf db u, env.insertErr with
  | some e, _, _, _ => some e
  | none, some e, _, _ => some e
  | none, none, none, _ => some .errNoRows
  | none, none, some _, some e => some e
  | none, none, some _, none => env.commitErr

/-- The error of the store call that fails during the repository `Transfer`,
if one does: `BeginTx`, the debit, the credit, the INSERT or the commit. -/
def transferFailure (db : DB) (env : TransferTxEnv) (f t : Int) : Option GoError :=
  match env.beginErr, env.updateFromErr, balanceOf db f with
  | some e, _, _ => some e
  | none, some e, _ => some e
  | none, none, none => some .errNoRows
  | none, none, some _ =>
    match env.updateToErr, balanceOf db t, env.insertErr with
    | some e, _, _ => some e
    | none, none, _ => some .errNoRows
    | none, some _, some e => some e
    | none, some _, none => env.commitErr

/-- The error of the store call that fails during `GetTransactionHistory`, if
one does: the query, a `rows.Scan` that meets a NULL user id, or `rows.Err`. -/
def historyFailure (db : DB) (env : HistoryEnv) (u : Int) : Option GoError :=
  match env.queryErr with
  | some e => some e
  | none =>
    if (selectTransactions u db.transactions).any
        (fun r => r.from_user_id.isNone || r.to_user_id.isNone) then some .scanNull
    else env.rowsErr

/-- A transfer during which the store's balance query for the recipient fails
with a driver error. -/
def recipientQueryFails : TransferEnv :=
  { TransferEnv.ok 0 with readTo := { GetBalanceEnv.ok with selectErr := some (.driver 5) } }

/-- The state `sampleWorld` after a committed `Deposit(1, 25)` at time 7. -/
def afterDeposit : World :=
  (Op.exec sampleWorld (.deposit (DepositEnv.ok 7) 1 25)).1

/-- A history query during which no store call is made to fail. -/
def HistoryEnv.ok : HistoryEnv :=
  { queryErr := none, rowsErr := none }

/-- The start of the scenario: account 1 with balance 0, account 2 with
balance `x`, no transaction record and an empty cache. -/
def scenarioWorld (x : Int) : World :=
  { db := { wallets := [⟨1, 0⟩, ⟨2, x⟩], transactions := [] }, cache := emptyCache }

/-- Every cache entry is the store balance of its user. -/
def CacheExact (db : DB) (cache : Cache) : Prop :=
  ∀ u c, cache u = some c → ∃ v, c = .number v ∧ balanceOf db u = some v

/-- The state `sampleWorld` after `Transfer(1, 2, 30)` at time 3 and
`Transfer(2, 1, 5)` at time 9, both committed. -/
def afterTransfers : World :=
  run sampleWorld [.transfer (TransferEnv.ok 3) 1 2 30, .transfer (TransferEnv.ok 9) 2 1 5]

/-! ## The HTTP handlers -/

/-- The Go interface `wallet.Service` as the handlers use it. Each method
takes the store and cache at the time of the call and returns what it leaves;
the handlers work with any implementation, the tests with a mock. -/
structure Service where
  Deposit : World → Int → Int → SvcResult Int
  Withdraw : World → Int → Int → SvcResult Int
  Transfer : World → Int → Int → Int → SvcResult (Int × Int)
  GetBalance : World → Int → SvcResult Int
  GetTransactionHistory : World → Int → SvcResult (List Transaction)

/-- Go `newWalletService`: the `walletService` behind the interface, with what
store and cache do during a call of each method. -/
def newWalletService (d : DepositEnv) (w : WithdrawEnv) (t : TransferEnv) (g : GetBalanceEnv)
    (h : HistoryEnv) : Service :=
  { Deposit := fun s userID amount => walletService.Deposit s d userID amount
    Withdraw := fun s userID amount => walletService.Withdraw s w userID amount
    Transfer := fun s fromUserID toUserID amount =>
      walletService.Transfer s t fromUserID toUserID amount
    GetBalance := fun s userID => walletService.GetBalance s g userID
    GetTransactionHistory := fun s userID => walletService.GetTransactionHistory s h userID }

namespace endpoints

/-- Go `http.StatusOK`. -/
def StatusOK : Nat := 200

/-- Go `http.StatusBadRequest`. -/
def StatusBadRequest : Nat := 400

/-- Go `http.StatusInternalServerError`. -/
def StatusInternalServerError : Nat := 500

/-- The Go struct `Endpoint`. Its logger is left out: the log calls of the
handlers change neither the response nor store and cache. -/
structure Endpoint where
  Svc : Service

/-- The Go struct `TransferRequest` of `model.go`. -/
structure TransferRequest where
  FromUserID : Int
  ToUserID : Int
  Amount : Int
  deriving DecidableEq, Repr

/-- What a handler reads from its `*gin.Context`: the value stored under the
key `endpoint`, the result of `strconv.Atoi(c.Param("user_id"))` (`none` when
`Atoi` returns an error: the path segment is not an integer), and the result
of `c.ShouldBindJSON` into a `DepositRequest` or `WithdrawRequest` (its
amount) and into a `TransferRequest` (`none` when binding returns an error). -/
structure Context where
  endpoint : Option Endpoint
  user_id : Option Int
  amount : Option Int
  transfer : Option TransferRequest

/-- A value of a field of `gin.H`. -/
inductive Value where
  | str (s : String)
  | num (v : Int)
  deriving DecidableEq, Repr

/-- The JSON body a handler writes: a `gin.H` map, or the list of
transactions. -/
inductive Body where
  | H (fields : List (String × Value))
  | transactions (history : List Transaction)
  deriving DecidableEq, Repr

/-- The calls a handler makes to the service. -/
inductive ServiceCall where
  | Deposit (userID amount : Int)
  | Withdraw (userID amount : Int)
  | Transfer (fromUserID toUserID amount : Int)
  | GetBalance (userID : Int)
  | GetTransactionHistory (userID : Int)
  deriving DecidableEq, Repr

/-- What `c.JSON(code, body)` wrote, the store and cache the handler leaves,
and the calls it made to the service. -/
structure Response where
  code : Nat
  body : Body
  world : World
  calls : List ServiceCall

/-- Go `epInstance`, for `epLogger` and `epSvc`: the endpoint stored in the
context. When there is none, `epLogger` calls `logrus.Fatal`, which ends the
process: the handlers below then return `none`. The routes store the endpoint
before they call a handler. -/
def epInstance (c : Context) : Option Endpoint :=
  c.endpoint

/-- Go `handleTransactionRequest`. `Error` is the method `Error()` of Go
errors. The type assertions on `req` cannot fail, since `req` was assigned in
the `switch` on the same `requestType`. -/
def handleTransactionRequest (Error : GoError → String) (c : Context) (s : World)
    (requestType : String) : Option Response :=
  match epInstance c with
  | none => none
  | some ep =>
    match c.user_id with
    | none =>
      some { code := StatusBadRequest, body := .H [("error", .str "invalid user_id")],
             world := s, calls := [] }
    | some userID =>
      let serviceMethod : Option ((World → Int → Int → SvcResult Int) ×
          (Int → Int → ServiceCall)) :=
        if requestType = "deposit" then some (ep.Svc.Deposit, ServiceCall.Deposit)
        else if requestType = "withdraw" then some (ep.Svc.Withdraw, ServiceCall.Withdraw)
        else none
      match serviceMethod with
      | none =>
        some { code := StatusBadRequest, body := .H [("error", .str "invalid request type")],
               world := s, calls := [] }
      | some (method, call) =>
        match c.amount with
        | none =>
          some { code := StatusBadRequest,
                 body := .H [("error", .str "invalid request body")], world := s, calls := [] }
        | some amount =>
          let r := method s userID amount
          match r.err with
          | some err =>
            some { code := StatusInternalServerError, body := .H [("error", .str (Error err))],
                   world := { db := r.db, cache := r.cache }, calls := [call userID amount] }
          | none =>
            some { code := StatusOK,
                   body := .H [("status", .str "success"), ("new_balance", .num r.value)],
                   world := { db := r.db, cache := r.cache }, calls := [call userID amount] }

/-- Go `depositHandler`. -/
def depositHandler (Error : GoError → String) (c : Context) (s : World) : Option Response :=
  handleTransactionRequest Error c s "deposit"

/-- Go `withdrawHandler`. -/
def withdrawHandler (Error : GoError → String) (c : Context) (s : World) : Option Response :=
  handleTransactionRequest Error c s "withdraw"

/-- Go `transferHandler`. -/
def transferHandler (Error : GoError → String) (c : Context) (s : World) : Option Response :=
  match epInstance c with
  | none => none
  | some ep =>
    match c.transfer with
    | none =>
      some { code := StatusBadRequest, body := .H [("error", .str "invalid request body")],
             world := s, calls := [] }
    | some req =>
      let r := ep.Svc.Transfer s req.FromUserID req.ToUserID req.Amount
      match r.err with
      | some err =>
        some { code := StatusInternalServerError, body := .H [("error", .str (Error err))],
               world := { db := r.db, cache := r.cache },
               calls := [.Transfer req.FromUserID req.ToUserID req.Amount] }
      | none =>
        some { code := StatusOK,
               body := .H [("status", .str "success"), ("from_balance", .num r.value.1)],
               world := { db := r.db, cache := r.cache },
               calls := [.Transfer req.FromUserID req.ToUserID req.Amount] }

/-- Go `balanceHandler`. -/
def balanceHandler (Error : GoError → String) (c : Context) (s : World) : Option Response :=
  match epInstance c with
  | none => none
  | some ep =>
    match c.user_id with
    | none =>
      some { code := StatusBadRequest, body := .H [("error", .str "invalid user_id")],
             world := s, calls := [] }
    | some userID =>
      let r := ep.Svc.GetBalance s userID
      match r.err with
      | some err =>
        some { code := StatusInternalServerError, body := .H [("error", .str (Error err))],
               world := { db := r.db, cache := r.cache }, calls := [.GetBalance userID] }
      | none =>
        some { code := StatusOK, body := .H [("balance", .num r.value)],
               world := { db := r.db, cache := r.cache }, calls := [.GetBalance userID] }

/-- Go `transactionsHandler`. -/
def transactionsHandler (Error : GoError → String) (c : Context) (s : World) :
    Option Response :=
  match epInstance c with
  | none => none
  | some ep =>
    match c.user_id with
    | none =>
      some { code := StatusBadRequest, body := .H [("error", .str "invalid user_id")],
             world := s, calls := [] }
    | some userID =>
      let r := ep.Svc.GetTransactionHistory s userID
      match r.err with
      | some err =>
        some { code := StatusInternalServerError, body := .H [("error", .str (Error err))],
               world := { db := r.db, cache := r.cache },
               calls := [.GetTransactionHistory userID] }
      | none =>
        some { code := StatusOK, body := .transactions r.value,
               world := { db := r.db, cache := r.cache },
               calls := [.GetTransactionHistory userID] }

end endpoints

/-- The messages of the two errors of `errorFactory`, as their `Error()`
returns them; the messages of other errors are made by the libraries and left
empty here. -/
def factoryMessage : GoError → String
  | .insufficientFunds => "insufficient funds"
  | .recipientNotFound => "recipient not found"
  | _ => ""

/-- The wallet service with no failure during any call, all at time 0. -/
def sampleService : Service :=
  newWalletService (DepositEnv.ok 0) (WithdrawEnv.ok 0) (TransferEnv.ok 0) GetBalanceEnv.ok
    HistoryEnv.ok

/-- A request to `/wallet/1/...` for the amount 500, served by `sampleService`. -/
def sampleContext : endpoints.Context :=
  { endpoint := some { Svc := sampleService }, user_id := some 1, amount := some 500,
    transfer := none }

/-- A request to `/wallet/abc/...`: the path segment is not an integer. -/
def badPathContext : endpoints.Context :=
  { sampleContext with user_id := none }

/-! ## The same code with Go's `float64`

The definitions above treat amounts as exact numbers. The Go code holds every
amount and balance in a `float64`, and the store keeps balances in a column
whose type is not part of the sources. The definitions of this section repeat
the repository and the engine with both conversions as parameters; with no
conversion they are the definitions above. Amounts are taken as the caller
passes them: a Go caller holds them in a `float64` already.
-/

/-- The spacing of the `float64` numbers around `n`: 1 below `2^53`, doubled
each time `n` doubles from there. -/
def ulpFloat64 : Nat → Nat → Nat
  | 0, _ => 1
  | fuel + 1, n => if n < 9007199254740992 then 1 else 2 * ulpFloat64 fuel (n / 2)

/-- Go `float64(x)` for an integer `x`: the nearest number with a 53-bit
significand, ties to the even significand. The exponent range of `float64` is
not modelled. -/
def roundFloat64 (x : Int) : Int :=
  let n := x.natAbs
  let ulp := ulpFloat64 1024 n
  let q := n / ulp
  let r := n % ulp
  let m := if 2 * r < ulp then q else if ulp < 2 * r then q + 1 else q + q % 2
  if x < 0 then -((m * ulp : Nat) : Int) else ((m * ulp : Nat) : Int)

/-- How numbers are kept: `float64` is what a Go `float64` variable holds
after `Scan` or `strconv.ParseFloat` has read a number into it, `column` is
what the column `balance` keeps of the exact result of `balance + $1` or
`balance - $1`. -/
structure Numbers where
  float64 : Int → Int
  column : Int → Int

/-- Amounts treated as exact numbers. -/
def Numbers.exact : Numbers :=
  { float64 := id, column := id }

/-- Go's `float64` over a store that keeps balances exactly (a `NUMERIC`
column). -/
def Numbers.numericColumn : Numbers :=
  { float64 := roundFloat64, column := id }

/-- Go's `float64` over a store that keeps balances as `float64` (a `DOUBLE
PRECISION` column). -/
def Numbers.doubleColumn : Numbers :=
  { float64 := roundFloat64, column := roundFloat64 }

namespace Rounded

/-- The table `wallets` after `UPDATE ... WHERE user_id = userID`. -/
def updateWallets (n : Numbers) (query : BalanceQuery) (amount userID : Int)
    (ws : List WalletRow) : List WalletRow :=
  ws.map fun w =>
    if w.user_id = userID then { w with balance := n.column (query.eval w.balance amount) }
    else w

/-- Go `QueryRow(...).Scan(&balance)` with `balance` a `float64`. -/
def scanBalance (n : Numbers) (fault : Option GoError) (rows : List Int) :
    Except GoError Int :=
  match fault with
  | some e => .error e
  | none =>
    match rows with
    | [] => .error .errNoRows
    | b :: _ => .ok (n.float64 b)

/-- Go `tx.QueryRowContext(ctx, query, amount, userID).Scan(&newBalance)`. -/
def queryRowScan (n : Numbers) (tx : Tx) (fault : Option GoError) (query : BalanceQuery)
    (amount userID : Int) : Tx × Except GoError Int :=
  let calls := tx.calls ++ [.updateBalance query amount userID]
  match fault with
  | some e => ({ tx with calls := calls }, .error e)
  | none =>
    let ws := updateWallets n query amount userID tx.work.wallets
    ({ tx with work := { tx.work with wallets := ws }, calls := calls },
      scanBalance n none (selectBalance userID ws))

/-- Go `strconv.ParseFloat(cachedBalance, 64)`. -/
def ParseFloat (n : Numbers) : CacheValue → Except GoError Int
  | .number v => .ok (n.float64 v)
  | .malformed => .error .parseFloat

namespace walletRepository

/-- The method `walletRepository.handleTransaction`. -/
def handleTransaction (n : Numbers) (db : DB) (env : TxEnv) (userID amount : Int)
    (query : BalanceQuery) (transactionType : String) : RepoResult Int :=
  match BeginTx db env.beginErr with
  | .error e =>
    { value := 0, db := db, calls := [.beginTx],
      err := some (Errorf "failed to begin transaction for user %d: %w" [userID] e) }
  | .ok tx =>
    match queryRowScan n tx env.updateErr query amount userID with
    | (tx1, .error e) =>
      deferredRollback tx1.base (some e) 0
        (some (Errorf "failed to query database for user %d: %w" [userID] e)) tx1.base tx1.calls
    | (tx1, .ok newBalance) =>
      match Wallet.walletRepository.LogTransaction tx1 env.insertErr env.now (some userID) none
          amount transactionType with
      | (tx2, some e) =>
        deferredRollback tx2.base (some e) 0
          (some (Errorf "failed to log transaction for user %d: %w" [userID] e)) tx2.base
          tx2.calls
      | (tx2, none) =>
        match tx2.commit env.commitErr with
        | (db1, calls, some e) =>
          deferredRollback tx2.base (some e) 0
            (some (Errorf "failed to commit transaction for user %d: %w" [userID] e)) db1 calls
        | (db1, calls, none) => deferredRollback tx2.base none newBalance none db1 calls

/-- The method `walletRepository.Deposit`. -/
def Deposit (n : Numbers) (db : DB) (env : TxEnv) (userID amount : Int) : RepoResult Int :=
  handleTransaction n db env userID amount .add "deposit"

/-- The method `walletRepository.Withdraw`. -/
def Withdraw (n : Numbers) (db : DB) (env : TxEnv) (userID amount : Int) : RepoResult Int :=
  handleTransaction n db env userID amount .sub "withdraw"

/-- The method `walletRepository.Transfer`. -/
def Transfer (n : Numbers) (db : DB) (env : TransferTxEnv) (fromUserID toUserID amount : Int) :
    RepoResult (Int × Int) :=
  match BeginTx db env.beginErr with
  | .error e =>
    { value := (0, 0), db := db, calls := [.beginTx],
      err := some (Errorf
        "failed to begin transaction for from user %d and to user %d: %w"
        [fromUserID, toUserID] e) }
  | .ok tx =>
    match queryRowScan n tx env.updateFromErr .sub amount fromUserID with
    | (tx1, .error e) =>
      deferredRollback tx1.base (some e) (0, 0)
        (some (Errorf "failed to query database for user %d: %w" [fromUserID] e))
        tx1.base tx1.calls
    | (tx1, .ok fromBalance) =>
      match queryRowScan n tx1 env.updateToErr .add amount toUserID with
      | (tx2, .error e) =>
        deferredRollback tx2.base (some e) (0, 0)
          (some (Errorf "failed to query database for user %d: %w" [toUserID] e))
          tx2.base tx2.calls
      | (tx2, .ok toBalance) =>
        match Wallet.walletRepository.LogTransaction tx2 env.insertErr env.now
            (some fromUserID) (some toUserID) amount "transfer" with
        | (tx3, some e) =>
          deferredRollback tx3.base (some e) (0, 0)
            (some (Errorf "failed to log transaction for from user %d and to %d: %w"
              [fromUserID, toUserID] e)) tx3.base tx3.calls
        | (tx3, none) =>
          match tx3.commit env.commitErr with
          | (db1, calls, some e) =>
            deferredRollback tx3.base (some e) (0, 0)
              (some (Errorf "failed to commit transaction: %w" [] e)) db1 calls
          | (db1, calls, none) =>
            deferredRollback tx3.base none (fromBalance, toBalance) none db1 calls

/-- The method `walletRepository.GetBalance`. -/
def GetBalance (n : Numbers) (db : DB) (fault : Option GoError) (userID : Int) :
    RepoResult Int :=
  match scanBalance n fault (selectBalance userID db.wallets) with
  | .error e =>
    { value := 0, db := db, calls := [.selectBalance userID],
      err := some (Errorf "failed to query database for user %d: %w" [userID] e) }
  | .ok balance => { value := balance, err := none, db := db, calls := [.selectBalance userID] }

end walletRepository

namespace walletService

/-- The part of `GetBalance` after the cache lookup. -/
def getBalanceFallback (n : Numbers) (s : World) (env : GetBalanceEnv) (userID : Int) :
    SvcResult Int :=
  let r := walletRepository.GetBalance n s.db env.selectErr userID
  match r.err with
  | some e =>
    { value := 0, db := r.db, cache := s.cache, storeCalls := r.calls,
      cacheCalls := [.get userID],
      err := some (Errorf "failed to get balance to get balance for user %d: %w" [userID] e) }
  | none =>
    match cacheSet s.cache env.cacheSetErr userID r.value with
    | (cache, some e) =>
      { value := 0, db := r.db, cache := cache, storeCalls := r.calls,
        cacheCalls := [.get userID, .set userID r.value],
        err := some (Errorf "failed to update redis for user %d: %w" [userID] e) }
    | (cache, none) =>
      { value := r.value, err := none, db := r.db, cache := cache, storeCalls := r.calls,
        cacheCalls := [.get userID, .set userID r.value] }

/-- The method `walletService.GetBalance`. -/
def GetBalance (n : Numbers) (s : World) (env : GetBalanceEnv) (userID : Int) :
    SvcResult Int :=
  match cacheGet s.cache env.cacheGetErr userID with
  | .ok cachedBalance =>
    match ParseFloat n cachedBalance with
    | .ok balance =>
      { value := balance, err := none, db := s.db, cache := s.cache, storeCalls := [],
        cacheCalls := [.get userID] }
    | .error _ => getBalanceFallback n s env userID
  | .error _ => getBalanceFallback n s env userID

/-- The method `walletService.Deposit`. -/
def Deposit (n : Numbers) (s : World) (env : DepositEnv) (userID amount : Int) :
    SvcResult Int :=
  let r := walletRepository.Deposit n s.db env.tx userID amount
  match r.err with
  | some e =>
    { value := 0, db := r.db, cache := s.cache, storeCalls := r.calls, cacheCalls := [],
      err := some (Errorf "failed to deposit to database for user %d: %w" [userID] e) }
  | none =>
    match cacheSet s.cache env.cacheSetErr userID r.value with
    | (cache, some e) =>
      { value := 0, db := r.db, cache := cache, storeCalls := r.calls,
        cacheCalls := [.set userID r.value],
        err := some (Errorf "failed to update redis for user %d: %w" [userID] e) }
    | (cache, none) =>
      { value := r.value, err := none, db := r.db, cache := cache, storeCalls := r.calls,
        cacheCalls := [.set userID r.value] }

/-- The method `walletService.Withdraw`. -/
def Withdraw (n : Numbers) (s : World) (env : WithdrawEnv) (userID amount : Int) :
    SvcResult Int :=
  let g := GetBalance n s env.read userID
  match g.err with
  | some e =>
    { value := 0, err := some e, db := g.db, cache := g.cache, storeCalls := g.storeCalls,
      cacheCalls := g.cacheCalls }
  | none =>
    if g.value < amount then
      { value := 0, err := some .insufficientFunds, db := g.db, cache := g.cache,
        storeCalls := g.storeCalls, cacheCalls := g.cacheCalls }
    else
      let r := walletRepository.Withdraw n g.db env.tx userID amount
      match r.err with
      | some e =>
        { value := 0, db := r.db, cache := g.cache, storeCalls := g.storeCalls ++ r.calls,
          cacheCalls := g.cacheCalls,
          err := some (Errorf "failed to update database for user %d: %w" [userID] e) }
      | none =>
        match cacheSet g.cache env.cacheSetErr userID r.value with
        | (cache, some e) =>
          { value := 0, db := r.db, cache := cache, storeCalls := g.storeCalls ++ r.calls,
            cacheCalls := g.cacheCalls ++ [.set userID r.value],
            err := some (Errorf "failed to update redis for user %d: %w" [userID] e) }
        | (cache, none) =>
          { value := r.value, err := none, db := r.db, cache := cache,
            storeCalls := g.storeCalls ++ r.calls,
            cacheCalls := g.cacheCalls ++ [.set userID r.value] }

/-- The part of `Transfer` after both balance reads. -/
def transferCommit (n : Numbers) (db : DB) (cache : Cache) (env : TransferEnv)
    (fromUserID toUserID amount : Int) (calls : List StoreCall) (gets : List CacheCall) :
    SvcResult (Int × Int) :=
  let r := walletRepository.Transfer n db env.tx fromUserID toUserID amount
  match r.err with
  | some e =>
    { value := (0, 0), db := r.db, cache := cache, storeCalls := calls ++ r.calls,
      cacheCalls := gets, err := some (Errorf "failed to update database: %w" [] e) }
  | none =>
    match cacheSet cache env.setFromErr fromUserID r.value.1 with
    | (cache1, some e) =>
      { value := (0, 0), db := r.db, cache := cache1, storeCalls := calls ++ r.calls,
        cacheCalls := gets ++ [.set fromUserID r.value.1],
        err := some (Errorf "failed to update redis: %w" [] e) }
    | (cache1, none) =>
      match cacheSet cache1 env.setToErr toUserID r.value.2 with
      | (cache2, some e) =>
        { value := (0, 0), db := r.db, cache := cache2, storeCalls := calls ++ r.calls,
          cacheCalls := gets ++ [.set fromUserID r.value.1, .set toUserID r.value.2],
          err := some (Errorf "failed to update redis: %w" [] e) }
      | (cache2, none) =>
        { value := r.value, err := none, db := r.db, cache := cache2,
          storeCalls := calls ++ r.calls,
          cacheCalls := gets ++ [.set fromUserID r.value.1, .set toUserID r.value.2] }

/-- The method `walletService.Transfer`. -/
def Transfer (n : Numbers) (s : World) (env : TransferEnv) (fromUserID toUserID amount : Int) :
    SvcResult (Int × Int) :=
  let g := GetBalance n s env.readFrom fromUserID
  match g.err with
  | some e =>
    { value := (0, 0), err := some e, db := g.db, cache := g.cache,
      storeCalls := g.storeCalls, cacheCalls := g.cacheCalls }
  | none =>
    if g.value < amount then
      { value := (0, 0), err := some .insufficientFunds, db := g.db, cache := g.cache,
        storeCalls := g.storeCalls, cacheCalls := g.cacheCalls }
    else
      let h := GetBalance n { db := g.db, cache := g.cache } env.readTo toUserID
      match h.err with
      | some _ =>
        { value := (0, 0), err := some .recipientNotFound, db := h.db, cache := h.cache,
          storeCalls := g.storeCalls ++ h.storeCalls,
          cacheCalls := g.cacheCalls ++ h.cacheCalls }
      | none =>
        transferCommit n h.db h.cache env fromUserID toUserID amount
          (g.storeCalls ++ h.storeCalls) (g.cacheCalls ++ h.cacheCalls)

end walletService

end Rounded

/-- A store in which account 1 holds `2^53` and account 2 holds `2^53 + 2`,
both of them `float64` numbers, with no transaction record and an empty
cache. -/
def largeWorld : World :=
  { db := { wallets := [⟨1, 9007199254740992⟩, ⟨2, 9007199254740994⟩], transactions := [] },
    cache := emptyCache }

/-- The third call of the scenario with Go's numbers: `Transfer(1, 2, 70)`
after `Deposit(1, 100)` and `Withdraw(1, 30)`, started from `scenarioWorld x`
with no failure. -/
def Rounded.scenarioTransfer (n : Numbers) (x : Int) : SvcResult (Int × Int) :=
  let d := Rounded.walletService.Deposit n (scenarioWorld x) (DepositEnv.ok 1) 1 100
  let w := Rounded.walletService.Withdraw n { db := d.db, cache := d.cache } (WithdrawEnv.ok 2)
    1 30
  Rounded.walletService.Transfer n { db := w.db, cache := w.cache } (TransferEnv.ok 3) 1 2 70

/-- The store of `sampleWorld` with a warm cache: the entry of account 1 is its
store balance 100. -/
def warmWorld : World :=
  { db := sampleDB, cache := Function.update emptyCache 1 (some (.number 100)) }

/-- The number `x` is kept as it is both by a Go `float64` and by the column
`balance`. -/
def Numbers.Keeps (n : Numbers) (x : Int) : Prop :=
  n.float64 x = x ∧ n.column x = x

/-! ## Facts about the store -/

theorem selectBalance_cons (u : Int) (w : WalletRow) (ws : List WalletRow) :
    selectBalance u (w :: ws) =
      if w.user_id = u then w.balance :: selectBalance u ws else selectBalance u ws := by
  unfold selectBalance
  by_cases h : w.user_id = u <;> simp [List.filter_cons, h]

theorem updateWallets_cons (q : BalanceQuery) (a v : Int) (w : WalletRow) (ws : List WalletRow) :
    updateWallets q a v (w :: ws) =
      (if w.user_id = v then { w with balance := q.eval w.balance a } else w) ::
        updateWallets q a v ws := by
  simp [updateWallets]

theorem selectBalance_updateWallets (q : BalanceQuery) (a u v : Int) (ws : List WalletRow) :
    selectBalance u (updateWallets q a v ws) =
      if u = v then (selectBalance u ws).map (fun b => q.eval b a) else selectBalance u ws := by
  induction ws with
  | nil => simp [selectBalance, updateWallets]
  | cons w ws ih =>
    rw [updateWallets_cons, selectBalance_cons, selectBalance_cons, ih]
    by_cases hv : w.user_id = v <;> by_cases hu : u = v <;> by_cases hw : w.user_id = u <;>
      simp_all

theorem balanceOf_update (q : BalanceQuery) (a u v : Int) (db : DB) (ts : List TransactionRow) :
    balanceOf { wallets := updateWallets q a v db.wallets, transactions := ts } u =
      if u = v then (balanceOf db u).map (fun b => q.eval b a) else balanceOf db u := by
  unfold balanceOf
  simp only [selectBalance_updateWallets]
  split
  · cases selectBalance u db.wallets <;> simp
  · rfl

/-- The outcome of the `RETURNING balance` scan in terms of the balance before. -/
theorem scanBalance_update (q : BalanceQuery) (a u : Int) (ws : List WalletRow) :
    scanBalance none (selectBalance u (updateWallets q a u ws)) =
      match (selectBalance u ws).head? with
      | some b => .ok (q.eval b a)
      | none => .error .errNoRows := by
  rw [selectBalance_updateWallets]
  cases selectBalance u ws <;> simp [scanBalance]

theorem handleTransaction_commit (db : DB) (env : TxEnv) (u a b : Int) (q : BalanceQuery)
    (ty : String) (hb : env.beginErr = none) (hu : env.updateErr = none)
    (hi : env.insertErr = none) (hc : env.commitErr = none) (hbal : balanceOf db u = some b) :
    walletRepository.handleTransaction db env u a q ty =
      { value := q.eval b a, err := none, db := committedDB db env.now u a q ty,
        calls := [.beginTx, .updateBalance q a u, .insertTransaction (some u) none a ty,
          .commit] } := by
  unfold balanceOf at hbal
  simp [walletRepository.handleTransaction, BeginTx, Tx.queryRowScan, hb, hu, hi, hc,
    scanBalance_update, hbal, walletRepository.LogTransaction, Tx.execInsert, Tx.commit,
    deferredRollback, committedDB]

theorem handleTransaction_abort (db : DB) (env : TxEnv) (u a : Int) (q : BalanceQuery)
    (ty : String)
    (h : env.beginErr ≠ none ∨ env.updateErr ≠ none ∨ env.insertErr ≠ none ∨
      env.commitErr ≠ none ∨ balanceOf db u = none) :
    (walletRepository.handleTransaction db env u a q ty).err ≠ none ∧
    (walletRepository.handleTransaction db env u a q ty).value = 0 ∧
    (walletRepository.handleTransaction db env u a q ty).db = db ∧
    (walletRepository.handleTransaction db env u a q ty).calls.getLast? ≠ some .commit ∧
    (env.beginErr = none →
      (walletRepository.handleTransaction db env u a q ty).calls.getLast? = some .rollback) := by
  unfold balanceOf at h
  have hscan := scanBalance_update q a u db.wallets
  rcases env with ⟨be, ue, ie, ce, now⟩
  cases hsel : (selectBalance u db.wallets).head? <;> rw [hsel] at hscan <;>
    simp only [] at hscan <;>
    cases be <;> cases ue <;> cases ie <;> cases ce <;>
    simp_all [walletRepository.handleTransaction, BeginTx, Tx.queryRowScan,
      walletRepository.LogTransaction, Tx.execInsert, Tx.commit,
      deferredRollback, rollback, Errorf]

theorem head_selectBalance_update (q : BalanceQuery) (a u v : Int) (ws : List WalletRow) :
    (selectBalance u (updateWallets q a v ws)).head? =
      if u = v then ((selectBalance u ws).head?).map (fun b => q.eval b a)
      else (selectBalance u ws).head? := by
  rw [selectBalance_updateWallets]
  split
  · cases selectBalance u ws <;> simp
  · rfl

theorem Transfer_commit (db : DB) (env : TransferTxEnv) (f t a bf bt : Int)
    (hb : env.beginErr = none) (hf : env.updateFromErr = none) (ht : env.updateToErr = none)
    (hi : env.insertErr = none) (hc : env.commitErr = none)
    (hbf : balanceOf db f = some bf) (hbt : balanceOf db t = some bt) :
    walletRepository.Transfer db env f t a =
      { value := (bf - a, (if t = f then bf - a else bt) + a), err := none,
        db := transferredDB db env.now f t a,
        calls := [.beginTx, .updateBalance .sub a f, .updateBalance .add a t,
          .insertTransaction (some f) (some t) a "transfer", .commit] } := by
  unfold balanceOf at hbf hbt
  have h1 := scanBalance_update .sub a f db.wallets
  rw [hbf] at h1
  have h2 := scanBalance_update .add a t (updateWallets .sub a f db.wallets)
  rw [head_selectBalance_update, hbt] at h2
  by_cases htf : t = f
  · subst htf
    have hbb : bt = bf := by rw [hbf] at hbt; exact (Option.some.inj hbt).symm
    subst hbb
    simp only [if_true, hbf, Option.map_some'] at h2
    simp [walletRepository.Transfer, BeginTx, Tx.queryRowScan, hb, hf, ht, hi, hc, h1, h2,
      walletRepository.LogTransaction, Tx.execInsert, Tx.commit, deferredRollback,
      transferredDB, BalanceQuery.eval]
  · simp only [htf, if_false] at h2
    simp [walletRepository.Transfer, BeginTx, Tx.queryRowScan, hb, hf, ht, hi, hc, h1, h2,
      walletRepository.LogTransaction, Tx.execInsert, Tx.commit, deferredRollback,
      transferredDB, BalanceQuery.eval, htf]

theorem Transfer_abort (db : DB) (env : TransferTxEnv) (f t a : Int)
    (h : env.beginErr ≠ none ∨ env.updateFromErr ≠ none ∨ env.updateToErr ≠ none ∨
      env.insertErr ≠ none ∨ env.commitErr ≠ none ∨ balanceOf db f = none ∨
      balanceOf db t = none) :
    (walletRepository.Transfer db env f t a).err ≠ none ∧
    (walletRepository.Transfer db env f t a).value = (0, 0) ∧
    (walletRepository.Transfer db env f t a).db = db ∧
    (walletRepository.Transfer db env f t a).calls.getLast? ≠ some .commit ∧
    (env.beginErr = none →
      (walletRepository.Transfer db env f t a).calls.getLast? = some .rollback) := by
  unfold balanceOf at h
  have h1 := scanBalance_update .sub a f db.wallets
  have h2 := scanBalance_update .add a t (updateWallets .sub a f db.wallets)
  rw [head_selectBalance_update] at h2
  rcases env with ⟨be, fe, te, ie, ce, now⟩
  cases hsf : (selectBalance f db.wallets).head? <;>
    cases hst : (selectBalance t db.wallets).head? <;>
    rw [hsf] at h1 <;> rw [hst] at h2 <;> simp only [] at h1 <;>
    by_cases htf : t = f <;>
    cases be <;> cases fe <;> cases te <;> cases ie <;> cases ce <;>
    simp_all [walletRepository.Transfer, BeginTx, Tx.queryRowScan,
      walletRepository.LogTransaction, Tx.execInsert, Tx.commit,
      deferredRollback, rollback, Errorf]

/-- The method `handleTransaction` either commits, with the result spelled out, or aborts. -/
theorem handleTransaction_cases (db : DB) (env : TxEnv) (u a : Int) (q : BalanceQuery)
    (ty : String) :
    (∃ b, balanceOf db u = some b ∧ env.beginErr = none ∧ env.updateErr = none ∧
        env.insertErr = none ∧ env.commitErr = none ∧
        walletRepository.handleTransaction db env u a q ty =
          { value := q.eval b a, err := none, db := committedDB db env.now u a q ty,
            calls := [.beginTx, .updateBalance q a u, .insertTransaction (some u) none a ty,
              .commit] }) ∨
    ((walletRepository.handleTransaction db env u a q ty).err ≠ none ∧
      (walletRepository.handleTransaction db env u a q ty).value = 0 ∧
      (walletRepository.handleTransaction db env u a q ty).db = db ∧
      (walletRepository.handleTransaction db env u a q ty).calls.getLast? ≠ some .commit) := by
  by_cases h : env.beginErr ≠ none ∨ env.updateErr ≠ none ∨ env.insertErr ≠ none ∨
      env.commitErr ≠ none ∨ balanceOf db u = none
  · obtain ⟨h1, h2, h3, h4, _⟩ := handleTransaction_abort db env u a q ty h
    exact Or.inr ⟨h1, h2, h3, h4⟩
  · simp only [not_or, not_not] at h
    obtain ⟨hb, hu, hi, hc, hbal⟩ := h
    obtain ⟨b, hb'⟩ := Option.ne_none_iff_exists'.mp hbal
    exact Or.inl ⟨b, hb', hb, hu, hi, hc, handleTransaction_commit db env u a b q ty hb hu hi hc hb'⟩

/-- The repository `Transfer` either commits, with the result spelled out, or
aborts. -/
theorem Transfer_cases (db : DB) (env : TransferTxEnv) (f t a : Int) :
    (∃ bf bt, balanceOf db f = some bf ∧ balanceOf db t = some bt ∧
        walletRepository.Transfer db env f t a =
          { value := (bf - a, (if t = f then bf - a else bt) + a), err := none,
            db := transferredDB db env.now f t a,
            calls := [.beginTx, .updateBalance .sub a f, .updateBalance .add a t,
              .insertTransaction (some f) (some t) a "transfer", .commit] }) ∨
    ((walletRepository.Transfer db env f t a).err ≠ none ∧
      (walletRepository.Transfer db env f t a).value = (0, 0) ∧
      (walletRepository.Transfer db env f t a).db = db ∧
      (walletRepository.Transfer db env f t a).calls.getLast? ≠ some .commit) := by
  by_cases h : env.beginErr ≠ none ∨ env.updateFromErr ≠ none ∨ env.updateToErr ≠ none ∨
      env.insertErr ≠ none ∨ env.commitErr ≠ none ∨ balanceOf db f = none ∨
      balanceOf db t = none
  · obtain ⟨h1, h2, h3, h4, _⟩ := Transfer_abort db env f t a h
    exact Or.inr ⟨h1, h2, h3, h4⟩
  · simp only [not_or, not_not] at h
    obtain ⟨hb, hf, ht, hi, hc, hbf, hbt⟩ := h
    obtain ⟨bf, hbf'⟩ := Option.ne_none_iff_exists'.mp hbf
    obtain ⟨bt, hbt'⟩ := Option.ne_none_iff_exists'.mp hbt
    exact Or.inl ⟨bf, bt, hbf', hbt',
      Transfer_commit db env f t a bf bt hb hf ht hi hc hbf' hbt'⟩

/-! ## Facts about the engine -/

theorem repoGetBalance_db (db : DB) (fault : Option GoError) (u : Int) :
    (walletRepository.GetBalance db fault u).db = db := by
  unfold walletRepository.GetBalance
  split <;> rfl

theorem repoGetBalance_ok (db : DB) (u b : Int) (hb : balanceOf db u = some b) :
    walletRepository.GetBalance db none u =
      { value := b, err := none, db := db, calls := [.selectBalance u] } := by
  unfold balanceOf at hb
  unfold walletRepository.GetBalance scanBalance
  cases hs : selectBalance u db.wallets with
  | nil => simp [hs] at hb
  | cons x xs => simp [hs] at hb; simp [hb]

theorem repoGetBalance_value (db : DB) (fault : Option GoError) (u : Int)
    (h : (walletRepository.GetBalance db fault u).err = none) :
    fault = none ∧ balanceOf db u = some (walletRepository.GetBalance db fault u).value := by
  unfold walletRepository.GetBalance scanBalance balanceOf at *
  cases fault <;> cases hs : selectBalance u db.wallets <;> simp_all

theorem getBalanceFallback_db (s : World) (env : GetBalanceEnv) (u : Int) :
    (walletService.getBalanceFallback s env u).db = s.db := by
  simp only [walletService.getBalanceFallback]
  split
  · exact repoGetBalance_db _ _ _
  · split <;> exact repoGetBalance_db _ _ _

theorem GetBalance_db (s : World) (env : GetBalanceEnv) (u : Int) :
    (walletService.GetBalance s env u).db = s.db := by
  unfold walletService.GetBalance
  split
  · split
    · rfl
    · exact getBalanceFallback_db s env u
  · exact getBalanceFallback_db s env u

/-- A cache hit: the cached number is returned and nothing else happens. -/
theorem GetBalance_hit (s : World) (env : GetBalanceEnv) (u v : Int)
    (hg : env.cacheGetErr = none) (hc : s.cache u = some (.number v)) :
    walletService.GetBalance s env u =
      { value := v, err := none, db := s.db, cache := s.cache, storeCalls := [],
        cacheCalls := [.get u] } := by
  simp [walletService.GetBalance, cacheGet, hg, hc, ParseFloat]

/-- Whenever the lookup does not yield a number, `GetBalance` is its fallback. -/
theorem GetBalance_miss (s : World) (env : GetBalanceEnv) (u : Int)
    (h : env.cacheGetErr ≠ none ∨ ∀ v, s.cache u ≠ some (.number v)) :
    walletService.GetBalance s env u = walletService.getBalanceFallback s env u := by
  unfold walletService.GetBalance cacheGet
  rcases henv : env.cacheGetErr with _ | e
  · rcases hc : s.cache u with _ | c
    · simp
    · cases c with
      | number v => rcases h with h | h
                    · exact absurd henv h
                    · exact absurd hc (h v)
      | malformed => simp [ParseFloat]
  · simp

/-- The three ways a `GetBalance` can end: a cache hit, a failure that changes
nothing, or a store read that fills the cache. -/
theorem GetBalance_cases (s : World) (env : GetBalanceEnv) (u : Int) :
    (∃ v, env.cacheGetErr = none ∧ s.cache u = some (.number v) ∧
        walletService.GetBalance s env u =
          { value := v, err := none, db := s.db, cache := s.cache, storeCalls := [],
            cacheCalls := [.get u] }) ∨
    ((walletService.GetBalance s env u).err ≠ none ∧
        (walletService.GetBalance s env u).value = 0 ∧
        (walletService.GetBalance s env u).cache = s.cache ∧
        (env.cacheGetErr ≠ none ∨ ∀ v, s.cache u ≠ some (.number v))) ∨
    (∃ b, balanceOf s.db u = some b ∧ env.selectErr = none ∧ env.cacheSetErr = none ∧
        (env.cacheGetErr ≠ none ∨ ∀ v, s.cache u ≠ some (.number v)) ∧
        walletService.GetBalance s env u =
          { value := b, err := none, db := s.db,
            cache := Function.update s.cache u (some (.number b)),
            storeCalls := [.selectBalance u], cacheCalls := [.get u, .set u b] }) := by
  by_cases hhit : env.cacheGetErr = none ∧ ∃ v, s.cache u = some (.number v)
  · obtain ⟨hg, v, hc⟩ := hhit
    exact Or.inl ⟨v, hg, hc, GetBalance_hit s env u v hg hc⟩
  · have hmiss : env.cacheGetErr ≠ none ∨ ∀ v, s.cache u ≠ some (.number v) := by
      by_cases hg : env.cacheGetErr = none
      · right; intro v hv; exact hhit ⟨hg, v, hv⟩
      · left; exact hg
    right
    rw [GetBalance_miss s env u hmiss]
    rcases hr : (walletRepository.GetBalance s.db env.selectErr u).err with _ | e
    · obtain ⟨hsel, hbal⟩ := repoGetBalance_value s.db env.selectErr u hr
      rcases hset : env.cacheSetErr with _ | e
      · right
        generalize (walletRepository.GetBalance s.db env.selectErr u).value = b at hbal
        refine ⟨b, hbal, hsel, rfl, hmiss, ?_⟩
        simp [walletService.getBalanceFallback, hsel, repoGetBalance_ok _ _ _ hbal, cacheSet,
          hset]
      · left
        simp [walletService.getBalanceFallback, hr, cacheSet, hset, hmiss]
    · left
      simp [walletService.getBalanceFallback, hr, hmiss]

/-- With no failure, a balance read of an existing account whose cache entry
is not a different number returns the store balance and at most fills the
cache entry of that account with it. -/
theorem GetBalance_ok (s : World) (u b : Int) (hb : balanceOf s.db u = some b)
    (hc : ∀ v, s.cache u = some (.number v) → v = b) :
    ∃ cache calls gets,
      walletService.GetBalance s GetBalanceEnv.ok u =
        { value := b, err := none, db := s.db, cache := cache, storeCalls := calls,
          cacheCalls := gets } ∧
      (cache = s.cache ∨ cache = Function.update s.cache u (some (.number b))) ∧
      (calls = [] ∨ calls = [.selectBalance u]) := by
  rcases GetBalance_cases s GetBalanceEnv.ok u with ⟨v, _, hv, heq⟩ | ⟨herr, _, _, hmiss⟩ |
      ⟨b', hb', _, _, _, heq⟩
  · have := hc v hv
    subst this
    exact ⟨_, _, _, heq, Or.inl rfl, Or.inl rfl⟩
  · exfalso
    apply herr
    have hmiss' : ∀ v, s.cache u ≠ some (.number v) := by
      rcases hmiss with h | h
      · exact absurd rfl h
      · exact h
    rw [GetBalance_miss s _ u (Or.inr hmiss')]
    simp [walletService.getBalanceFallback, GetBalanceEnv.ok, repoGetBalance_ok _ _ _ hb,
      cacheSet]
  · have : b' = b := by rw [hb] at hb'; exact (Option.some.inj hb').symm
    subst this
    exact ⟨_, _, _, heq, Or.inr rfl, Or.inr rfl⟩

/-- A service `Deposit` on an existing account in which nothing fails. -/
theorem svcDeposit_commit (s : World) (now : Nat) (u a b : Int)
    (hb : balanceOf s.db u = some b) :
    walletService.Deposit s (DepositEnv.ok now) u a =
      { value := b + a, err := none, db := committedDB s.db now u a .add "deposit",
        cache := Function.update s.cache u (some (.number (b + a))),
        storeCalls := [.beginTx, .updateBalance .add a u,
          .insertTransaction (some u) none a "deposit", .commit],
        cacheCalls := [.set u (b + a)] } := by
  have h := handleTransaction_commit s.db (TxEnv.ok now) u a b .add "deposit" rfl rfl rfl rfl hb
  simp only [walletService.Deposit, walletRepository.Deposit, DepositEnv.ok, h]
  simp [cacheSet, BalanceQuery.eval, TxEnv.ok]

/-- A service `Withdraw` on an existing account in which nothing fails, the
cache entry of the account is not a different number, and the funds suffice. -/
theorem svcWithdraw_commit (s : World) (now : Nat) (u a b : Int)
    (hb : balanceOf s.db u = some b) (hc : ∀ v, s.cache u = some (.number v) → v = b)
    (ha : a ≤ b) :
    ∃ calls gets,
      walletService.Withdraw s (WithdrawEnv.ok now) u a =
        { value := b - a, err := none, db := committedDB s.db now u a .sub "withdraw",
          cache := Function.update s.cache u (some (.number (b - a))),
          storeCalls := calls, cacheCalls := gets } := by
  obtain ⟨cache, calls, gets, hg, hcache, _⟩ := GetBalance_ok s u b hb hc
  have hg' : walletService.GetBalance s (WithdrawEnv.ok now).read u = _ := hg
  have h := handleTransaction_commit s.db (TxEnv.ok now) u a b .sub "withdraw" rfl rfl rfl rfl hb
  have hlt : ¬ b < a := not_lt.mpr ha
  have hupd : Function.update cache u (some (CacheValue.number (b - a))) =
      Function.update s.cache u (some (CacheValue.number (b - a))) := by
    rcases hcache with h | h <;> rw [h]
    exact Function.update_idem _ _ _
  refine ⟨calls ++ [.beginTx, .updateBalance .sub a u,
    .insertTransaction (some u) none a "withdraw", .commit], gets ++ [.set u (b - a)], ?_⟩
  have hr : walletRepository.handleTransaction s.db (WithdrawEnv.ok now).tx u a .sub
      "withdraw" = _ := h
  simp only [walletService.Withdraw, hg', walletRepository.Withdraw, hr]
  simp [WithdrawEnv.ok, hlt, cacheSet, BalanceQuery.eval, TxEnv.ok, hupd]

/-- Two writes to the keys `f` and `t` hide what the cache held there. -/
theorem update_update_congr (c c' : Cache) (f t : Int) (x y : Option CacheValue)
    (h : ∀ k, k ≠ f → k ≠ t → c k = c' k) :
    Function.update (Function.update c f x) t y = Function.update (Function.update c' f x) t y := by
  funext k
  by_cases hkt : k = t
  · subst hkt; simp
  · by_cases hkf : k = f
    · subst hkf; simp [Function.update_noteq hkt]
    · simp [Function.update_noteq hkt, Function.update_noteq hkf, h k hkf hkt]

/-- A service `Transfer` between existing accounts in which nothing fails, the
cache entries of both accounts are not different numbers, and the funds
suffice. -/
theorem svcTransfer_commit (s : World) (now : Nat) (f t a bf bt : Int)
    (hbf : balanceOf s.db f = some bf) (hbt : balanceOf s.db t = some bt)
    (hcf : ∀ v, s.cache f = some (.number v) → v = bf)
    (hct : ∀ v, s.cache t = some (.number v) → v = bt) (ha : a ≤ bf) :
    ∃ calls gets,
      walletService.Transfer s (TransferEnv.ok now) f t a =
        { value := (bf - a, (if t = f then bf - a else bt) + a), err := none,
          db := transferredDB s.db now f t a,
          cache := Function.update (Function.update s.cache f (some (.number (bf - a)))) t
            (some (.number ((if t = f then bf - a else bt) + a))),
          storeCalls := calls, cacheCalls := gets } := by
  obtain ⟨c1, calls1, gets1, hg, hc1, _⟩ := GetBalance_ok s f bf hbf hcf
  have hct1 : ∀ v, c1 t = some (.number v) → v = bt := by
    intro v hv
    rcases hc1 with h | h
    · rw [h] at hv; exact hct v hv
    · rw [h] at hv
      by_cases htf : t = f
      · subst htf
        simp at hv
        rw [hbf] at hbt
        rw [← hv]; exact Option.some.inj hbt
      · rw [Function.update_noteq htf] at hv; exact hct v hv
  obtain ⟨c2, calls2, gets2, hh, hc2, _⟩ :=
    GetBalance_ok { db := s.db, cache := c1 } t bt hbt hct1
  have hg' : walletService.GetBalance s (TransferEnv.ok now).readFrom f = _ := hg
  have hh' : walletService.GetBalance { db := s.db, cache := c1 } (TransferEnv.ok now).readTo t
      = _ := hh
  have hr : walletRepository.Transfer s.db (TransferEnv.ok now).tx f t a = _ :=
    Transfer_commit s.db (TransferTxEnv.ok now) f t a bf bt rfl rfl rfl rfl rfl hbf hbt
  have hlt : ¬ bf < a := not_lt.mpr ha
  have hoff : ∀ k, k ≠ f → k ≠ t → c2 k = s.cache k := by
    intro k hkf hkt
    have h1 : c1 k = s.cache k := by
      rcases hc1 with h | h <;> rw [h]
      exact Function.update_noteq hkf _ _
    have h2 : c2 k = c1 k := by
      rcases hc2 with h | h <;> rw [h]
      exact Function.update_noteq hkt _ _
    rw [h2, h1]
  refine ⟨(calls1 ++ calls2) ++ [.beginTx, .updateBalance .sub a f, .updateBalance .add a t,
    .insertTransaction (some f) (some t) a "transfer", .commit],
    (gets1 ++ gets2) ++ [.set f (bf - a), .set t ((if t = f then bf - a else bt) + a)], ?_⟩
  simp only [walletService.Transfer, hg', hlt, if_false, hh', walletService.transferCommit, hr]
  simp [TransferEnv.ok, cacheSet, TransferTxEnv.ok]
  exact update_update_congr c2 s.cache f t _ _ hoff

theorem balanceOf_committedDB (db : DB) (now : Nat) (u a k : Int) (q : BalanceQuery)
    (ty : String) :
    balanceOf (committedDB db now u a q ty) k =
      if k = u then (balanceOf db k).map (fun b => q.eval b a) else balanceOf db k :=
  balanceOf_update q a k u db _

theorem balanceOf_transferredDB (db : DB) (now : Nat) (f t a k : Int) :
    balanceOf (transferredDB db now f t a) k =
      if k = t then
        (if k = f then (balanceOf db k).map (fun b => b - a + a)
          else (balanceOf db k).map (fun b => b + a))
      else if k = f then (balanceOf db k).map (fun b => b - a) else balanceOf db k := by
  have h1 := balanceOf_update .add a k t
    { wallets := updateWallets .sub a f db.wallets, transactions := db.transactions }
    (db.transactions ++ [newTransactionRow db.transactions now (some f) (some t) a "transfer"])
  have h2 := balanceOf_update .sub a k f db db.transactions
  have h0 : balanceOf (transferredDB db now f t a) k = balanceOf
      { wallets := updateWallets .add a t (updateWallets .sub a f db.wallets),
        transactions := db.transactions ++
          [newTransactionRow db.transactions now (some f) (some t) a "transfer"] } k := rfl
  rw [h0, h1, h2]
  by_cases ht : k = t
  · subst ht
    by_cases hf : k = f
    · subst hf
      cases balanceOf db k <;> simp [BalanceQuery.eval]
    · simp [hf, BalanceQuery.eval]
  · by_cases hf : k = f
    · subst hf
      simp [ht, BalanceQuery.eval]
    · simp [ht, hf]

theorem emptyCache_consistent (db : DB) : CacheConsistent db emptyCache := by
  intro u v h
  simp [emptyCache] at h

/-- The ways a service `Deposit` can end, for any behaviour of store and cache. -/
theorem svcDeposit_cases (s : World) (env : DepositEnv) (u a : Int) :
    (∃ b, balanceOf s.db u = some b ∧
      (walletService.Deposit s env u a).db = committedDB s.db env.tx.now u a .add "deposit" ∧
      ((env.cacheSetErr = none ∧ (walletService.Deposit s env u a).err = none ∧
          (walletService.Deposit s env u a).cache =
            Function.update s.cache u (some (.number (b + a)))) ∨
        (env.cacheSetErr ≠ none ∧ (walletService.Deposit s env u a).err ≠ none ∧
          (walletService.Deposit s env u a).cache = s.cache))) ∨
    ((walletService.Deposit s env u a).db = s.db ∧
      (walletService.Deposit s env u a).cache = s.cache ∧
      (walletService.Deposit s env u a).err ≠ none) := by
  rcases handleTransaction_cases s.db env.tx u a .add "deposit" with
    ⟨b, hb, _, _, _, _, heq⟩ | ⟨herr, _, hdb, _⟩
  · left
    refine ⟨b, hb, ?_⟩
    simp only [walletService.Deposit, walletRepository.Deposit, heq]
    rcases hset : env.cacheSetErr with _ | e <;> simp [cacheSet, BalanceQuery.eval]
  · right
    obtain ⟨e, he⟩ := Option.ne_none_iff_exists'.mp herr
    simp only [walletService.Deposit, walletRepository.Deposit, he]
    refine ⟨hdb, ?_, ?_⟩ <;> simp

/-- The ways a service `Withdraw` can end, for any behaviour of store and
cache; `GetBalance` is the balance read it starts with. -/
theorem svcWithdraw_cases (s : World) (env : WithdrawEnv) (u a : Int) :
    (∃ b, balanceOf s.db u = some b ∧
      (walletService.GetBalance s env.read u).err = none ∧
      a ≤ (walletService.GetBalance s env.read u).value ∧
      (walletService.Withdraw s env u a).db = committedDB s.db env.tx.now u a .sub "withdraw" ∧
      ((env.cacheSetErr = none ∧ (walletService.Withdraw s env u a).err = none ∧
          (walletService.Withdraw s env u a).cache =
            Function.update (walletService.GetBalance s env.read u).cache u
              (some (.number (b - a)))) ∨
        (env.cacheSetErr ≠ none ∧ (walletService.Withdraw s env u a).err ≠ none ∧
          (walletService.Withdraw s env u a).cache =
            (walletService.GetBalance s env.read u).cache))) ∨
    ((walletService.Withdraw s env u a).db = s.db ∧
      (walletService.Withdraw s env u a).cache = (walletService.GetBalance s env.read u).cache ∧
      (walletService.Withdraw s env u a).err ≠ none) := by
  have hgdb := GetBalance_db s env.read u
  rcases hg : (walletService.GetBalance s env.read u).err with _ | e
  · by_cases hlt : (walletService.GetBalance s env.read u).value < a
    · right
      simp only [walletService.Withdraw, hg, hlt, if_true]
      refine ⟨hgdb, ?_, ?_⟩ <;> simp
    · rcases handleTransaction_cases s.db env.tx u a .sub "withdraw" with
        ⟨b, hb, _, _, _, _, heq⟩ | ⟨herr, _, hdb, _⟩
      · left
        refine ⟨b, hb, rfl, not_lt.mp hlt, ?_⟩
        simp only [walletService.Withdraw, hg, hlt, if_false, walletRepository.Withdraw, hgdb, heq]
        rcases hset : env.cacheSetErr with _ | e <;> simp [cacheSet, BalanceQuery.eval]
      · right
        obtain ⟨e, he⟩ := Option.ne_none_iff_exists'.mp herr
        simp only [walletService.Withdraw, hg, hlt, if_false, walletRepository.Withdraw, hgdb, he]
        refine ⟨hdb, ?_, ?_⟩ <;> simp
  · right
    simp only [walletService.Withdraw, hg]
    refine ⟨hgdb, ?_, ?_⟩ <;> simp

/-- The ways a service `Transfer` can end, for any behaviour of store and
cache. `g` is its first balance read, `h` the second one. -/
theorem svcTransfer_cases (s : World) (env : TransferEnv) (f t a : Int)
    (g h : SvcResult Int) (hg : g = walletService.GetBalance s env.readFrom f)
    (hh : h = walletService.GetBalance { db := s.db, cache := g.cache } env.readTo t) :
    (∃ bf bt, balanceOf s.db f = some bf ∧ balanceOf s.db t = some bt ∧
      g.err = none ∧ a ≤ g.value ∧ h.err = none ∧
      (walletService.Transfer s env f t a).db = transferredDB s.db env.tx.now f t a ∧
      ((env.setFromErr ≠ none ∧ (walletService.Transfer s env f t a).err ≠ none ∧
          (walletService.Transfer s env f t a).cache = h.cache) ∨
        (env.setFromErr = none ∧ env.setToErr ≠ none ∧
          (walletService.Transfer s env f t a).err ≠ none ∧
          (walletService.Transfer s env f t a).cache =
            Function.update h.cache f (some (.number (bf - a)))) ∨
        (env.setFromErr = none ∧ env.setToErr = none ∧
          (walletService.Transfer s env f t a).err = none ∧
          (walletService.Transfer s env f t a).cache =
            Function.update (Function.update h.cache f (some (.number (bf - a)))) t
              (some (.number ((if t = f then bf - a else bt) + a)))))) ∨
    ((walletService.Transfer s env f t a).db = s.db ∧
      (walletService.Transfer s env f t a).err ≠ none ∧
      ((walletService.Transfer s env f t a).cache = g.cache ∨
        (walletService.Transfer s env f t a).cache = h.cache)) := by
  have hgdb : g.db = s.db := by rw [hg]; exact GetBalance_db s env.readFrom f
  have hhdb : h.db = s.db := by rw [hh]; exact GetBalance_db _ env.readTo t
  have hh' : walletService.GetBalance { db := g.db, cache := g.cache } env.readTo t = h := by
    rw [hgdb, hh]
  rcases hge : g.err with _ | e
  · by_cases hlt : g.value < a
    · right
      simp only [walletService.Transfer, ← hg, hge, hlt, if_true]
      refine ⟨hgdb, ?_, ?_⟩ <;> simp
    · rcases hhe : h.err with _ | e
      · rcases Transfer_cases s.db env.tx f t a with ⟨bf, bt, hbf, hbt, heq⟩ | ⟨herr, _, hdb, _⟩
        · left
          refine ⟨bf, bt, hbf, hbt, rfl, not_lt.mp hlt, rfl, ?_⟩
          simp only [walletService.Transfer, ← hg, hge, hlt, if_false, hh', hhe,
            walletService.transferCommit, hhdb, heq]
          rcases hsf : env.setFromErr with _ | e1 <;> rcases hst : env.setToErr with _ | e2 <;>
            simp [cacheSet]
        · right
          obtain ⟨e, he⟩ := Option.ne_none_iff_exists'.mp herr
          simp only [walletService.Transfer, ← hg, hge, hlt, if_false, hh', hhe,
            walletService.transferCommit, hhdb, he]
          refine ⟨hdb, ?_, ?_⟩ <;> simp
      · right
        simp only [walletService.Transfer, ← hg, hge, hlt, if_false, hh', hhe]
        refine ⟨hhdb, ?_, ?_⟩ <;> simp
  · right
    simp only [walletService.Transfer, ← hg, hge]
    refine ⟨hgdb, ?_, ?_⟩ <;> simp

theorem CacheBelow_GetBalance (s : World) (env : GetBalanceEnv) (u : Int)
    (h : CacheBelow s.db s.cache) :
    CacheBelow s.db (walletService.GetBalance s env u).cache := by
  rcases GetBalance_cases s env u with ⟨v, _, _, heq⟩ | ⟨_, _, hc, _⟩ | ⟨b, hb, _, _, _, heq⟩
  · rw [heq]; exact h
  · rw [hc]; exact h
  · rw [heq]
    intro k v b' hk hb'
    by_cases hku : k = u
    · subst hku
      simp at hk
      rw [hb] at hb'
      rw [← hk, Option.some.inj hb']
    · simp only [Function.update_noteq hku] at hk
      exact h k v b' hk hb'

theorem GetBalance_value_le (s : World) (env : GetBalanceEnv) (u b : Int)
    (h : CacheBelow s.db s.cache) (hb : balanceOf s.db u = some b)
    (herr : (walletService.GetBalance s env u).err = none) :
    (walletService.GetBalance s env u).value ≤ b := by
  rcases GetBalance_cases s env u with ⟨v, _, hv, heq⟩ | ⟨he, _, _, _⟩ | ⟨b', hb', _, _, _, heq⟩
  · rw [heq]; exact h u v b hv hb
  · exact absurd herr he
  · rw [heq]
    rw [hb] at hb'
    exact le_of_eq (Option.some.inj hb').symm

/-- A deposit of a positive amount keeps balances non-negative and the cache
below the store. -/
theorem deposit_preserves (s : World) (env : DepositEnv) (u a : Int) (ha : 0 < a)
    (hn : BalancesNonNegative s.db) (hc : CacheBelow s.db s.cache) :
    BalancesNonNegative (walletService.Deposit s env u a).db ∧
    CacheBelow (walletService.Deposit s env u a).db (walletService.Deposit s env u a).cache := by
  rcases svcDeposit_cases s env u a with ⟨b, hb, hdb, hcase⟩ | ⟨hdb, hcache, _⟩
  · have hbal : ∀ k x, balanceOf (walletService.Deposit s env u a).db k = some x →
        ∃ y, balanceOf s.db k = some y ∧ y ≤ x ∧ (k = u → x = b + a) := by
      intro k x hx
      rw [hdb, balanceOf_committedDB] at hx
      by_cases hku : k = u
      · subst hku
        simp [hb, BalanceQuery.eval] at hx
        exact ⟨b, hb, by omega, fun _ => hx.symm⟩
      · simp [hku] at hx
        exact ⟨x, hx, le_refl _, fun h => absurd h hku⟩
    constructor
    · intro k x hx
      obtain ⟨y, hy, hle, _⟩ := hbal k x hx
      have := hn k y hy
      omega
    · intro k v x hv hx
      obtain ⟨y, hy, hle, hku⟩ := hbal k x hx
      rcases hcase with ⟨_, _, hcache⟩ | ⟨_, _, hcache⟩
      · rw [hcache] at hv
        by_cases hk : k = u
        · subst hk
          simp at hv
          have := hku rfl
          omega
        · rw [Function.update_noteq hk] at hv
          have := hc k v y hv hy
          omega
      · rw [hcache] at hv
        have := hc k v y hv hy
        omega
  · rw [hdb, hcache]
    exact ⟨hn, hc⟩

/-- A withdrawal whose cache write does not fail keeps balances non-negative
and the cache below the store. -/
theorem withdraw_preserves (s : World) (env : WithdrawEnv) (u a : Int)
    (hset : env.cacheSetErr = none)
    (hn : BalancesNonNegative s.db) (hc : CacheBelow s.db s.cache) :
    BalancesNonNegative (walletService.Withdraw s env u a).db ∧
    CacheBelow (walletService.Withdraw s env u a).db (walletService.Withdraw s env u a).cache := by
  have hcg := CacheBelow_GetBalance s env.read u hc
  rcases svcWithdraw_cases s env u a with ⟨b, hb, hgerr, hle, hdb, hcase⟩ | ⟨hdb, hcache, _⟩
  · have hvb := GetBalance_value_le s env.read u b hc hb hgerr
    have hbal : ∀ k x, balanceOf (walletService.Withdraw s env u a).db k = some x →
        (k = u ∧ x = b - a) ∨ (k ≠ u ∧ balanceOf s.db k = some x) := by
      intro k x hx
      rw [hdb, balanceOf_committedDB] at hx
      by_cases hku : k = u
      · subst hku
        simp [hb, BalanceQuery.eval] at hx
        exact Or.inl ⟨rfl, hx.symm⟩
      · simp [hku] at hx
        exact Or.inr ⟨hku, hx⟩
    rcases hcase with ⟨_, _, hcache⟩ | ⟨hne, _, _⟩
    · constructor
      · intro k x hx
        rcases hbal k x hx with ⟨_, hxe⟩ | ⟨_, hxo⟩
        · omega
        · exact hn k x hxo
      · intro k v x hv hx
        rw [hcache] at hv
        rcases hbal k x hx with ⟨hk, hxe⟩ | ⟨hk, hxo⟩
        · subst hk
          simp at hv
          omega
        · rw [Function.update_noteq hk] at hv
          exact hcg k v x hv hxo
    · exact absurd hset hne
  · rw [hdb, hcache]
    exact ⟨hn, hcg⟩

/-- A transfer of a positive amount whose cache write for the sender does not
fail keeps balances non-negative and the cache below the store. -/
theorem transfer_preserves (s : World) (env : TransferEnv) (f t a : Int) (ha : 0 < a)
    (hset : env.setFromErr = none)
    (hn : BalancesNonNegative s.db) (hc : CacheBelow s.db s.cache) :
    BalancesNonNegative (walletService.Transfer s env f t a).db ∧
    CacheBelow (walletService.Transfer s env f t a).db
      (walletService.Transfer s env f t a).cache := by
  have hcg := CacheBelow_GetBalance s env.readFrom f hc
  have hch := CacheBelow_GetBalance
    { db := s.db, cache := (walletService.GetBalance s env.readFrom f).cache } env.readTo t hcg
  rcases svcTransfer_cases s env f t a _ _ rfl rfl with
    ⟨bf, bt, hbf, hbt, hgerr, hle, _, hdb, hcase⟩ | ⟨hdb, _, hcache⟩
  · have hvb := GetBalance_value_le s env.readFrom f bf hc hbf hgerr
    have hbal : ∀ k x, balanceOf (walletService.Transfer s env f t a).db k = some x →
        ∃ y, balanceOf s.db k = some y ∧
          ((k = t ∧ k = f ∧ x = y ∧ y = bf) ∨ (k = t ∧ k ≠ f ∧ x = y + a ∧ y = bt) ∨
            (k ≠ t ∧ k = f ∧ x = y - a ∧ y = bf) ∨ (k ≠ t ∧ k ≠ f ∧ x = y)) := by
      intro k x hx
      rw [hdb, balanceOf_transferredDB] at hx
      by_cases hkt : k = t <;> by_cases hkf : k = f
      · subst hkt
        subst hkf
        simp [hbf] at hx
        exact ⟨bf, hbf, Or.inl ⟨rfl, rfl, hx.symm, rfl⟩⟩
      · subst hkt
        simp [hkf, hbt] at hx
        exact ⟨bt, hbt, Or.inr (Or.inl ⟨rfl, hkf, hx.symm, rfl⟩)⟩
      · subst hkf
        simp [hkt, hbf] at hx
        exact ⟨bf, hbf, Or.inr (Or.inr (Or.inl ⟨hkt, rfl, hx.symm, rfl⟩))⟩
      · simp [hkt, hkf] at hx
        exact ⟨x, hx, Or.inr (Or.inr (Or.inr ⟨hkt, hkf, rfl⟩))⟩
    constructor
    · intro k x hx
      obtain ⟨y, hy, hcases⟩ := hbal k x hx
      have := hn k y hy
      rcases hcases with ⟨_, _, h1, _⟩ | ⟨_, _, h1, _⟩ | ⟨_, _, h1, h2⟩ | ⟨_, _, h1⟩ <;> omega
    · intro k v x hv hx
      obtain ⟨y, hy, hcases⟩ := hbal k x hx
      rcases hcase with ⟨hne, _, _⟩ | ⟨_, _, _, hcache⟩ | ⟨_, _, _, hcache⟩
      · exact absurd hset hne
      · rw [hcache] at hv
        by_cases hkf : k = f
        · subst hkf
          simp at hv
          rcases hcases with ⟨_, _, h1, h2⟩ | ⟨_, h0, _, _⟩ | ⟨_, _, h1, h2⟩ | ⟨_, h0, _⟩
          · omega
          · exact absurd rfl h0
          · omega
          · exact absurd rfl h0
        · rw [Function.update_noteq hkf] at hv
          have := hch k v y hv hy
          rcases hcases with ⟨_, h0, _, _⟩ | ⟨_, _, h1, _⟩ | ⟨_, h0, _, _⟩ | ⟨_, _, h1⟩
          · exact absurd h0 hkf
          · omega
          · exact absurd h0 hkf
          · omega
      · rw [hcache] at hv
        by_cases hkt : k = t
        · subst hkt
          simp at hv
          rcases hcases with ⟨_, h0, h1, h2⟩ | ⟨_, h0, h1, h2⟩ | ⟨h0, _, _, _⟩ | ⟨h0, _, _⟩
          · subst h0
            simp at hv
            omega
          · simp [h0] at hv
            omega
          · exact absurd rfl h0
          · exact absurd rfl h0
        · rw [Function.update_noteq hkt] at hv
          by_cases hkf : k = f
          · subst hkf
            simp at hv
            rcases hcases with ⟨h0, _, _, _⟩ | ⟨h0, _, _, _⟩ | ⟨_, _, h1, h2⟩ | ⟨_, h0, _⟩
            · exact absurd h0 hkt
            · exact absurd h0 hkt
            · omega
            · exact absurd rfl h0
          · rw [Function.update_noteq hkf] at hv
            have := hch k v y hv hy
            rcases hcases with ⟨h0, _, _, _⟩ | ⟨h0, _, _, _⟩ | ⟨_, h0, _, _⟩ | ⟨_, _, h1⟩
            · exact absurd h0 hkt
            · exact absurd h0 hkt
            · exact absurd h0 hkf
            · omega
  · rw [hdb]
    rcases hcache with hcache | hcache <;> rw [hcache]
    · exact ⟨hn, hcg⟩
    · exact ⟨hn, hch⟩

theorem keys_updateWallets (q : BalanceQuery) (a u : Int) (ws : List WalletRow) :
    (updateWallets q a u ws).map (fun w => w.user_id) = ws.map (fun w => w.user_id) := by
  induction ws with
  | nil => rfl
  | cons w ws ih =>
    rw [updateWallets_cons, List.map_cons, List.map_cons, ih]
    by_cases h : w.user_id = u <;> simp [h]

theorem mem_of_balanceOf (db : DB) (u b : Int) (h : balanceOf db u = some b) :
    ∃ w ∈ db.wallets, w.user_id = u ∧ w.balance = b := by
  unfold balanceOf at h
  generalize db.wallets = ws at h
  induction ws with
  | nil => simp [selectBalance] at h
  | cons w ws ih =>
    rw [selectBalance_cons] at h
    by_cases hw : w.user_id = u
    · simp [hw] at h
      exact ⟨w, List.mem_cons_self _ _, hw, h⟩
    · simp [hw] at h
      obtain ⟨w', hmem, h1, h2⟩ := ih h
      exact ⟨w', List.mem_cons_of_mem _ hmem, h1, h2⟩

theorem balanceOf_of_mem (db : DB) (w : WalletRow) (hk : KeyUnique db) (hw : w ∈ db.wallets) :
    balanceOf db w.user_id = some w.balance := by
  unfold balanceOf
  unfold KeyUnique at hk
  generalize db.wallets = ws at hk hw
  induction ws with
  | nil => simp at hw
  | cons x ws ih =>
    rw [List.map_cons, List.nodup_cons] at hk
    rw [selectBalance_cons]
    rcases List.mem_cons.mp hw with h | h
    · subst h
      simp
    · have hne : x.user_id ≠ w.user_id := by
        intro heq
        apply hk.1
        rw [heq]
        exact List.mem_map_of_mem _ h
      simp [hne]
      exact ih hk.2 h

/-- With unique keys, an update of an existing wallet changes the sum of the
balances by the amount the statement adds. -/
theorem sum_updateWallets (q : BalanceQuery) (a u : Int) (ws : List WalletRow)
    (hk : (ws.map fun w => w.user_id).Nodup) (hu : u ∈ ws.map fun w => w.user_id) :
    ((updateWallets q a u ws).map fun w => w.balance).sum =
      (ws.map fun w => w.balance).sum + q.eval 0 a := by
  induction ws with
  | nil => simp at hu
  | cons w ws ih =>
    rw [List.map_cons, List.nodup_cons] at hk
    rw [updateWallets_cons, List.map_cons, List.sum_cons, List.map_cons, List.sum_cons]
    by_cases hw : w.user_id = u
    · have hnot : u ∉ ws.map fun w => w.user_id := hw ▸ hk.1
      have hsame : updateWallets q a u ws = ws := by
        unfold updateWallets
        conv_rhs => rw [← List.map_id ws]
        apply List.map_congr_left
        intro x hx
        have : x.user_id ≠ u := fun h => hnot (h ▸ List.mem_map_of_mem _ hx)
        simp [this]
      rw [hsame]
      simp only [hw, if_true]
      cases q <;> simp [BalanceQuery.eval] <;> ring
    · have hu' : u ∈ ws.map fun w => w.user_id := by
        rw [List.map_cons, List.mem_cons] at hu
        rcases hu with h | h
        · exact absurd h.symm hw
        · exact h
      rw [ih hk.2 hu']
      simp only [hw, if_false]
      ring

theorem totalBalance_committedDB (db : DB) (now : Nat) (u a b : Int) (q : BalanceQuery)
    (ty : String) (hk : KeyUnique db) (hb : balanceOf db u = some b) :
    totalBalance (committedDB db now u a q ty) = totalBalance db + q.eval 0 a := by
  obtain ⟨w, hw, hwu, _⟩ := mem_of_balanceOf db u b hb
  have hu : u ∈ db.wallets.map fun w => w.user_id := hwu ▸ List.mem_map_of_mem _ hw
  exact sum_updateWallets q a u db.wallets hk hu

theorem totalBalance_transferredDB (db : DB) (now : Nat) (f t a bf bt : Int)
    (hk : KeyUnique db) (hbf : balanceOf db f = some bf) (hbt : balanceOf db t = some bt) :
    totalBalance (transferredDB db now f t a) = totalBalance db := by
  obtain ⟨w, hw, hwu, _⟩ := mem_of_balanceOf db f bf hbf
  have hf : f ∈ db.wallets.map fun w => w.user_id := hwu ▸ List.mem_map_of_mem _ hw
  obtain ⟨w', hw', hwu', _⟩ := mem_of_balanceOf db t bt hbt
  have ht : t ∈ db.wallets.map fun w => w.user_id := hwu' ▸ List.mem_map_of_mem _ hw'
  have h1 := sum_updateWallets .sub a f db.wallets hk hf
  have hk2 : ((updateWallets .sub a f db.wallets).map fun w => w.user_id).Nodup := by
    rw [keys_updateWallets]; exact hk
  have ht2 : t ∈ (updateWallets .sub a f db.wallets).map fun w => w.user_id := by
    rw [keys_updateWallets]; exact ht
  have h2 := sum_updateWallets .add a t _ hk2 ht2
  unfold totalBalance transferredDB
  simp only []
  rw [h2, h1]
  simp [BalanceQuery.eval]

theorem repoHistory_db (db : DB) (env : HistoryEnv) (u : Int) :
    (walletRepository.GetTransactionHistory db env u).db = db := by
  unfold walletRepository.GetTransactionHistory
  repeat' split
  all_goals rfl

theorem svcHistory_state (s : World) (env : HistoryEnv) (u : Int) :
    (walletService.GetTransactionHistory s env u).db = s.db ∧
    (walletService.GetTransactionHistory s env u).cache = s.cache := by
  simp only [walletService.GetTransactionHistory]
  split <;> exact ⟨repoHistory_db _ _ _, rfl⟩

theorem keys_committedDB (db : DB) (now : Nat) (u a : Int) (q : BalanceQuery) (ty : String) :
    KeyUnique (committedDB db now u a q ty) ↔ KeyUnique db := by
  unfold KeyUnique committedDB
  simp only [keys_updateWallets]

theorem keys_transferredDB (db : DB) (now : Nat) (f t a : Int) :
    KeyUnique (transferredDB db now f t a) ↔ KeyUnique db := by
  unfold KeyUnique transferredDB
  simp only [keys_updateWallets]

/-- No call changes which users have a wallet row, so keys stay unique. -/
theorem exec_keyUnique (s : World) (op : Op) (hk : KeyUnique s.db) :
    KeyUnique (op.exec s).1.db := by
  cases op with
  | deposit env u a =>
    show KeyUnique (walletService.Deposit s env u a).db
    rcases svcDeposit_cases s env u a with ⟨_, _, hdb, _⟩ | ⟨hdb, _, _⟩ <;> rw [hdb]
    · exact (keys_committedDB _ _ _ _ _ _).mpr hk
    · exact hk
  | withdraw env u a =>
    show KeyUnique (walletService.Withdraw s env u a).db
    rcases svcWithdraw_cases s env u a with ⟨_, _, _, _, hdb, _⟩ | ⟨hdb, _, _⟩ <;> rw [hdb]
    · exact (keys_committedDB _ _ _ _ _ _).mpr hk
    · exact hk
  | transfer env f t a =>
    show KeyUnique (walletService.Transfer s env f t a).db
    rcases svcTransfer_cases s env f t a _ _ rfl rfl with
      ⟨_, _, _, _, _, _, _, hdb, _⟩ | ⟨hdb, _, _⟩ <;> rw [hdb]
    · exact (keys_transferredDB _ _ _ _ _).mpr hk
    · exact hk
  | getBalance env u =>
    show KeyUnique (walletService.GetBalance s env u).db
    rw [GetBalance_db]; exact hk
  | getTransactionHistory env u =>
    show KeyUnique (walletService.GetTransactionHistory s env u).db
    rw [(svcHistory_state s env u).1]; exact hk

/-- One call with a positive amount, whose cache write after a debit does not
fail, keeps balances non-negative and the cache below the store. -/
theorem exec_preserves (s : World) (op : Op) (hpos : op.positive) (hw : op.debitWriteOk)
    (hn : BalancesNonNegative s.db) (hc : CacheBelow s.db s.cache) :
    BalancesNonNegative (op.exec s).1.db ∧ CacheBelow (op.exec s).1.db (op.exec s).1.cache := by
  cases op with
  | deposit env u a => exact deposit_preserves s env u a hpos hn hc
  | withdraw env u a => exact withdraw_preserves s env u a hw hn hc
  | transfer env f t a => exact transfer_preserves s env f t a hpos hw hn hc
  | getBalance env u =>
    show BalancesNonNegative (walletService.GetBalance s env u).db ∧
      CacheBelow (walletService.GetBalance s env u).db (walletService.GetBalance s env u).cache
    rw [GetBalance_db]
    exact ⟨hn, CacheBelow_GetBalance s env u hc⟩
  | getTransactionHistory env u =>
    show BalancesNonNegative (walletService.GetTransactionHistory s env u).db ∧
      CacheBelow (walletService.GetTransactionHistory s env u).db
        (walletService.GetTransactionHistory s env u).cache
    rw [(svcHistory_state s env u).1, (svcHistory_state s env u).2]
    exact ⟨hn, hc⟩

theorem run_preserves (ops : List Op) (s : World)
    (hops : ∀ op ∈ ops, op.positive ∧ op.debitWriteOk)
    (hn : BalancesNonNegative s.db) (hc : CacheBelow s.db s.cache) :
    BalancesNonNegative (run s ops).db := by
  induction ops generalizing s with
  | nil => exact hn
  | cons op ops ih =>
    have h := hops op (List.mem_cons_self _ _)
    obtain ⟨hn', hc'⟩ := exec_preserves s op h.1 h.2 hn hc
    exact ih (op.exec s).1 (fun o ho => hops o (List.mem_cons_of_mem _ ho)) hn' hc'

theorem run_keyUnique (ops : List Op) (s : World) (hk : KeyUnique s.db) :
    KeyUnique (run s ops).db := by
  induction ops generalizing s with
  | nil => exact hk
  | cons op ops ih => exact ih (op.exec s).1 (exec_keyUnique s op hk)

/-- One call in which no cache call fails changes the sum of the balances by
its contribution. -/
theorem exec_totalBalance (s : World) (op : Op) (hk : KeyUnique s.db) (hc : op.noCacheFault) :
    totalBalance (op.exec s).1.db = totalBalance s.db + op.net s := by
  cases op with
  | deposit env u a =>
    show totalBalance (walletService.Deposit s env u a).db = totalBalance s.db +
      (if (walletService.Deposit s env u a).err.isNone then a else 0)
    rcases svcDeposit_cases s env u a with ⟨b, hb, hdb, hcase⟩ | ⟨hdb, _, herr⟩
    · rcases hcase with ⟨_, herr, _⟩ | ⟨hne, _, _⟩
      · rw [hdb, herr, totalBalance_committedDB _ _ _ _ _ _ _ hk hb]
        simp [BalanceQuery.eval]
      · exact absurd hc hne
    · obtain ⟨e, he⟩ := Option.ne_none_iff_exists'.mp herr
      rw [hdb, he]; simp
  | withdraw env u a =>
    show totalBalance (walletService.Withdraw s env u a).db = totalBalance s.db +
      (if (walletService.Withdraw s env u a).err.isNone then -a else 0)
    rcases svcWithdraw_cases s env u a with ⟨b, hb, _, _, hdb, hcase⟩ | ⟨hdb, _, herr⟩
    · rcases hcase with ⟨_, herr, _⟩ | ⟨hne, _, _⟩
      · rw [hdb, herr, totalBalance_committedDB _ _ _ _ _ _ _ hk hb]
        simp [BalanceQuery.eval]
      · exact absurd hc.2.2 hne
    · obtain ⟨e, he⟩ := Option.ne_none_iff_exists'.mp herr
      rw [hdb, he]; simp
  | transfer env f t a =>
    show totalBalance (walletService.Transfer s env f t a).db = totalBalance s.db + 0
    rcases svcTransfer_cases s env f t a _ _ rfl rfl with
      ⟨bf, bt, hbf, hbt, _, _, _, hdb, _⟩ | ⟨hdb, _, _⟩
    · rw [hdb, totalBalance_transferredDB _ _ _ _ _ _ _ hk hbf hbt]; simp
    · rw [hdb]; simp
  | getBalance env u =>
    show totalBalance (walletService.GetBalance s env u).db = totalBalance s.db + 0
    rw [GetBalance_db]; simp
  | getTransactionHistory env u =>
    show totalBalance (walletService.GetTransactionHistory s env u).db = totalBalance s.db + 0
    rw [(svcHistory_state s env u).1]; simp

theorem handleTransaction_appends (db : DB) (env : TxEnv) (u a : Int) (q : BalanceQuery)
    (ty : String) :
    AppendsOneRecord (walletRepository.handleTransaction db env u a q ty) db (some u) none a
      ty := by
  rcases handleTransaction_cases db env u a q ty with
    ⟨b, _, _, _, _, _, heq⟩ | ⟨herr, _, hdb, hlast⟩
  · rw [heq]
    refine ⟨by simp, fun _ => ⟨_, rfl, rfl, rfl, rfl, rfl⟩, fun h => absurd rfl h⟩
  · exact ⟨⟨fun h => absurd h herr, fun h => absurd h hlast⟩, fun h => absurd h herr,
      fun _ => by rw [hdb]⟩

theorem repoTransfer_appends (db : DB) (env : TransferTxEnv) (f t a : Int) :
    AppendsOneRecord (walletRepository.Transfer db env f t a) db (some f) (some t) a
      "transfer" := by
  rcases Transfer_cases db env f t a with ⟨bf, bt, _, _, heq⟩ | ⟨herr, _, hdb, hlast⟩
  · rw [heq]
    refine ⟨by simp, fun _ => ⟨_, rfl, rfl, rfl, rfl, rfl⟩, fun h => absurd rfl h⟩
  · exact ⟨⟨fun h => absurd h herr, fun h => absurd h hlast⟩, fun h => absurd h herr,
      fun _ => by rw [hdb]⟩

theorem svcDeposit_db (s : World) (env : DepositEnv) (u a : Int) :
    (walletService.Deposit s env u a).db = (walletRepository.Deposit s.db env.tx u a).db := by
  simp only [walletService.Deposit]
  split
  · rfl
  · split <;> rfl

theorem svcWithdraw_db (s : World) (env : WithdrawEnv) (u a : Int) :
    (walletService.Withdraw s env u a).db = s.db ∨
    (walletService.Withdraw s env u a).db = (walletRepository.Withdraw s.db env.tx u a).db := by
  have hg := GetBalance_db s env.read u
  simp only [walletService.Withdraw]
  split
  · exact Or.inl hg
  · split
    · exact Or.inl hg
    · rw [hg]
      right
      split
      · rfl
      · split <;> rfl

theorem svcTransfer_db (s : World) (env : TransferEnv) (f t a : Int) :
    (walletService.Transfer s env f t a).db = s.db ∨
    (walletService.Transfer s env f t a).db =
      (walletRepository.Transfer s.db env.tx f t a).db := by
  have hg := GetBalance_db s env.readFrom f
  have hh : (walletService.GetBalance
      { db := s.db, cache := (walletService.GetBalance s env.readFrom f).cache }
      env.readTo t).db = s.db := GetBalance_db _ env.readTo t
  simp only [walletService.Transfer, walletService.transferCommit, hg, hh]
  split
  · exact Or.inl rfl
  · split
    · exact Or.inl rfl
    · split
      · left; rfl
      · right
        split
        · rfl
        · split
          · rfl
          · split <;> rfl

theorem Is_self (e : GoError) : e.Is e = true := by
  cases e <;> simp [GoError.Is]

theorem Is_Errorf (format : String) (args : List Int) (cause target : GoError)
    (h : cause.Is target = true) : (Errorf format args cause).Is target = true := by
  simp [Errorf, GoError.Is, h]

/-- A `handleTransaction` that returns a nil error has committed. -/
theorem handleTransaction_of_ok (db : DB) (env : TxEnv) (u a : Int) (q : BalanceQuery)
    (ty : String) (h : (walletRepository.handleTransaction db env u a q ty).err = none) :
    ∃ b, balanceOf db u = some b ∧
      walletRepository.handleTransaction db env u a q ty =
        { value := q.eval b a, err := none, db := committedDB db env.now u a q ty,
          calls := [.beginTx, .updateBalance q a u, .insertTransaction (some u) none a ty,
            .commit] } := by
  rcases handleTransaction_cases db env u a q ty with ⟨b, hb, _, _, _, _, heq⟩ | ⟨herr, _⟩
  · exact ⟨b, hb, heq⟩
  · exact absurd h herr

/-- A repository `Transfer` that returns a nil error has committed. -/
theorem Transfer_of_ok (db : DB) (env : TransferTxEnv) (f t a : Int)
    (h : (walletRepository.Transfer db env f t a).err = none) :
    ∃ bf bt, balanceOf db f = some bf ∧ balanceOf db t = some bt ∧
      walletRepository.Transfer db env f t a =
        { value := (bf - a, (if t = f then bf - a else bt) + a), err := none,
          db := transferredDB db env.now f t a,
          calls := [.beginTx, .updateBalance .sub a f, .updateBalance .add a t,
            .insertTransaction (some f) (some t) a "transfer", .commit] } := by
  rcases Transfer_cases db env f t a with ⟨bf, bt, hbf, hbt, heq⟩ | ⟨herr, _⟩
  · exact ⟨bf, bt, hbf, hbt, heq⟩
  · exact absurd h herr

/-- Every error of `GetBalance` is built by `fmt.Errorf`. -/
theorem GetBalance_err_wrapped (s : World) (env : GetBalanceEnv) (u : Int) (e : GoError)
    (h : (walletService.GetBalance s env u).err = some e) :
    ∃ format args cause, e = .wrapped format args cause := by
  have hfb : ∀ e, (walletService.getBalanceFallback s env u).err = some e →
      ∃ format args cause, e = .wrapped format args cause := by
    intro e he
    simp only [walletService.getBalanceFallback] at he
    split at he
    · simp only [Errorf, Option.some.injEq] at he
      exact ⟨_, _, _, he.symm⟩
    · split at he
      · simp only [Errorf, Option.some.injEq] at he
        exact ⟨_, _, _, he.symm⟩
      · simp at he
  unfold walletService.GetBalance at h
  split at h
  · split at h
    · simp at h
    · exact hfb e h
  · exact hfb e h

/-- The `Withdraw` is rejected for insufficient funds exactly when its balance
read succeeds with a value below the amount. -/
theorem Withdraw_insufficient_iff (s : World) (env : WithdrawEnv) (u a : Int) :
    (walletService.Withdraw s env u a).err = some .insufficientFunds ↔
      (walletService.GetBalance s env.read u).err = none ∧
        (walletService.GetBalance s env.read u).value < a := by
  rcases hg : (walletService.GetBalance s env.read u).err with _ | e
  · by_cases hlt : (walletService.GetBalance s env.read u).value < a
    · simp [walletService.Withdraw, hg, hlt]
    · simp only [walletService.Withdraw, hg, hlt, if_false]
      split
      · simp [Errorf]
      · split <;> simp [Errorf]
  · obtain ⟨f, args, c, he⟩ := GetBalance_err_wrapped s env.read u e hg
    simp [walletService.Withdraw, hg, he]

theorem selectBalance_nil_of_absent (db : DB) (u : Int) (h : balanceOf db u = none) :
    selectBalance u db.wallets = [] := by
  unfold balanceOf at h
  cases hs : selectBalance u db.wallets with
  | nil => rfl
  | cons x xs => rw [hs] at h; simp at h

/-- The fallback of `GetBalance` for an existing account, when the store
answers the query: the result depends on the cache write only. -/
theorem getBalanceFallback_present (s : World) (env : GetBalanceEnv) (u b : Int)
    (hsel : env.selectErr = none) (hb : balanceOf s.db u = some b) :
    walletService.getBalanceFallback s env u =
      match env.cacheSetErr with
      | none =>
        { value := b, err := none, db := s.db,
          cache := Function.update s.cache u (some (.number b)),
          storeCalls := [.selectBalance u], cacheCalls := [.get u, .set u b] }
      | some e =>
        { value := 0, db := s.db, cache := s.cache, storeCalls := [.selectBalance u],
          cacheCalls := [.get u, .set u b],
          err := some (Errorf "failed to update redis for user %d: %w" [u] e) } := by
  rcases hset : env.cacheSetErr with _ | e <;>
    simp [walletService.getBalanceFallback, hsel, repoGetBalance_ok _ _ _ hb, cacheSet, hset]

/-- A balance read of a user with neither wallet row nor cached number fails
and changes nothing. -/
theorem GetBalance_absent (s : World) (env : GetBalanceEnv) (u : Int)
    (hb : balanceOf s.db u = none) (hc : ∀ v, s.cache u ≠ some (.number v)) :
    (walletService.GetBalance s env u).err ≠ none ∧
    (walletService.GetBalance s env u).cache = s.cache := by
  rcases GetBalance_cases s env u with ⟨v, _, hv, _⟩ | ⟨herr, _, hcache, _⟩ | ⟨b, hb', _⟩
  · exact absurd hv (hc v)
  · exact ⟨herr, hcache⟩
  · rw [hb] at hb'; simp at hb'

theorem repoGetBalance_calls (db : DB) (fault : Option GoError) (u : Int) :
    (walletRepository.GetBalance db fault u).calls = [.selectBalance u] := by
  unfold walletRepository.GetBalance
  split <;> rfl

theorem getBalanceFallback_storeCalls (s : World) (env : GetBalanceEnv) (u : Int) :
    (walletService.getBalanceFallback s env u).storeCalls = [.selectBalance u] := by
  simp only [walletService.getBalanceFallback]
  split
  · exact repoGetBalance_calls _ _ _
  · split <;> exact repoGetBalance_calls _ _ _

/-- A balance read makes no store call or exactly the balance query. -/
theorem GetBalance_storeCalls (s : World) (env : GetBalanceEnv) (u : Int) :
    (walletService.GetBalance s env u).storeCalls = [] ∨
    (walletService.GetBalance s env u).storeCalls = [.selectBalance u] := by
  unfold walletService.GetBalance
  split
  · split
    · exact Or.inl rfl
    · exact Or.inr (getBalanceFallback_storeCalls s env u)
  · exact Or.inr (getBalanceFallback_storeCalls s env u)

theorem handleTransaction_failure (db : DB) (env : TxEnv) (u a : Int) (q : BalanceQuery)
    (ty : String) (e : GoError) (h : txFailure db env u = some e) :
    ∃ r, (walletRepository.handleTransaction db env u a q ty).err = some r ∧ r.Is e = true := by
  unfold txFailure balanceOf at h
  have hscan := scanBalance_update q a u db.wallets
  rcases env with ⟨be, ue, ie, ce, now⟩
  cases hsel : (selectBalance u db.wallets).head? <;> rw [hsel] at hscan <;>
    simp only [] at hscan <;>
    cases be <;> cases ue <;> cases ie <;> cases ce <;>
    simp_all [walletRepository.handleTransaction, BeginTx, Tx.queryRowScan,
      walletRepository.LogTransaction, Tx.execInsert, Tx.commit,
      deferredRollback, rollback, Errorf, GoError.Is, Is_self]

theorem Transfer_failure (db : DB) (env : TransferTxEnv) (f t a : Int) (e : GoError)
    (h : transferFailure db env f t = some e) :
    ∃ r, (walletRepository.Transfer db env f t a).err = some r ∧ r.Is e = true := by
  unfold transferFailure balanceOf at h
  have h1 := scanBalance_update .sub a f db.wallets
  have h2 := scanBalance_update .add a t (updateWallets .sub a f db.wallets)
  rw [head_selectBalance_update] at h2
  rcases env with ⟨be, fe, te, ie, ce, now⟩
  rcases be with _ | be
  swap
  · simp_all [walletRepository.Transfer, BeginTx, Errorf, GoError.Is, Is_self]
  rcases fe with _ | fe
  swap
  · simp_all [walletRepository.Transfer, BeginTx, Tx.queryRowScan, deferredRollback, rollback,
      Errorf, GoError.Is, Is_self]
  rcases hsf : (selectBalance f db.wallets).head? with _ | bf
  · rw [hsf] at h1
    simp_all [walletRepository.Transfer, BeginTx, Tx.queryRowScan, deferredRollback, rollback,
      Errorf, GoError.Is, Is_self]
  rw [hsf] at h1
  simp only [] at h1
  rcases te with _ | te
  swap
  · simp_all [walletRepository.Transfer, BeginTx, Tx.queryRowScan, deferredRollback, rollback,
      Errorf, GoError.Is, Is_self]
  rcases hst : (selectBalance t db.wallets).head? with _ | bt
  · rw [hst] at h2
    by_cases htf : t = f
    · subst htf
      rw [hsf] at hst
      simp at hst
    · simp only [htf, if_false] at h2
      simp_all [walletRepository.Transfer, BeginTx, Tx.queryRowScan, deferredRollback,
        rollback, Errorf, GoError.Is, Is_self]
  rw [hst] at h2
  have h2' : ∃ x, scanBalance none (selectBalance t
      (updateWallets .add a t (updateWallets .sub a f db.wallets))) = .ok x := by
    by_cases htf : t = f
    · simp only [htf, if_true, Option.map_some'] at h2
      rw [htf]
      exact ⟨_, h2⟩
    · simp only [htf, if_false] at h2
      exact ⟨_, h2⟩
  obtain ⟨x, hx⟩ := h2'
  clear h2
  rcases ie with _ | ie
  swap
  · simp_all [walletRepository.Transfer, BeginTx, Tx.queryRowScan, deferredRollback, rollback,
      walletRepository.LogTransaction, Tx.execInsert, Errorf, GoError.Is, Is_self]
  rcases ce with _ | ce
  · simp_all
  · simp_all [walletRepository.Transfer, BeginTx, Tx.queryRowScan, deferredRollback, rollback,
      walletRepository.LogTransaction, Tx.execInsert, Tx.commit, Errorf, GoError.Is, Is_self]

theorem repoGetBalance_failure (db : DB) (fault : Option GoError) (u : Int) (e : GoError)
    (h : selectFailure db fault u = some e) :
    (walletRepository.GetBalance db fault u).err =
      some (Errorf "failed to query database for user %d: %w" [u] e) := by
  unfold selectFailure at h
  rcases fault with _ | e'
  · by_cases hb : balanceOf db u = none
    · simp [hb] at h
      subst h
      simp [walletRepository.GetBalance, scanBalance, selectBalance_nil_of_absent db u hb]
    · simp [hb] at h
  · simp at h
    subst h
    simp [walletRepository.GetBalance, scanBalance]

theorem scanTransaction_error (r : TransactionRow)
    (h : (r.from_user_id.isNone || r.to_user_id.isNone) = true) :
    scanTransaction r = .error .scanNull := by
  rcases r with ⟨id, src, dst, amount, ty, ts⟩
  cases src <;> cases dst <;> simp_all [scanTransaction]

theorem scanTransaction_ok (r : TransactionRow)
    (h : (r.from_user_id.isNone || r.to_user_id.isNone) = false) :
    ∃ t, scanTransaction r = .ok t := by
  rcases r with ⟨id, src, dst, amount, ty, ts⟩
  cases src <;> cases dst <;> simp_all [scanTransaction]

/-- The scan loop fails on the first row with a NULL user id, and only then. -/
theorem scanAll_cases (u : Int) (rows : List TransactionRow) :
    (rows.any (fun r => r.from_user_id.isNone || r.to_user_id.isNone) = true ∧
      walletRepository.scanAll u rows =
        .error (Errorf "failed to scan certain transaction for user %d: %w" [u] .scanNull)) ∨
    (rows.any (fun r => r.from_user_id.isNone || r.to_user_id.isNone) = false ∧
      ∃ txs, walletRepository.scanAll u rows = .ok txs) := by
  induction rows with
  | nil => right; exact ⟨rfl, [], rfl⟩
  | cons r rows ih =>
    cases hr : (r.from_user_id.isNone || r.to_user_id.isNone)
    · obtain ⟨t, ht⟩ := scanTransaction_ok r hr
      rcases ih with ⟨hany, herr⟩ | ⟨hany, txs, hok⟩
      · left
        refine ⟨by simp only [List.any_cons, hr, hany, Bool.false_or], ?_⟩
        simp [walletRepository.scanAll, ht, herr]
      · right
        refine ⟨by simp only [List.any_cons, hr, hany, Bool.false_or], t :: txs, ?_⟩
        simp [walletRepository.scanAll, ht, hok]
    · left
      refine ⟨by simp only [List.any_cons, hr, Bool.true_or], ?_⟩
      simp [walletRepository.scanAll, scanTransaction_error r hr]

theorem repoHistory_failure (db : DB) (env : HistoryEnv) (u : Int) (e : GoError)
    (h : historyFailure db env u = some e) :
    ∃ r, (walletRepository.GetTransactionHistory db env u).err = some r ∧ r.Is e = true := by
  unfold historyFailure at h
  rcases hq : env.queryErr with _ | q
  · rw [hq] at h
    simp only [] at h
    rcases scanAll_cases u (selectTransactions u db.transactions) with
      ⟨hany, herr⟩ | ⟨hany, txs, hok⟩
    · rw [hany] at h
      simp at h
      subst h
      refine ⟨Errorf "failed to scan certain transaction for user %d: %w" [u] .scanNull, ?_,
        Is_Errorf _ _ _ _ (Is_self _)⟩
      simp [walletRepository.GetTransactionHistory, hq, herr]
    · rw [hany] at h
      simp at h
      refine ⟨Errorf "error arises during rows intertation for user %d: %w" [u] e, ?_,
        Is_Errorf _ _ _ _ (Is_self e)⟩
      simp [walletRepository.GetTransactionHistory, hq, hok, h]
  · rw [hq] at h
    simp at h
    subst h
    refine ⟨Errorf "failed to query database for user %d: %w" [u] q, ?_,
      Is_Errorf _ _ _ _ (Is_self _)⟩
    simp [walletRepository.GetTransactionHistory, hq]

/-- A balance read that reaches the store and whose query fails returns an
error that wraps the query's error. -/
theorem GetBalance_failure (s : World) (env : GetBalanceEnv) (u : Int) (e : GoError)
    (hcall : (walletService.GetBalance s env u).storeCalls ≠ [])
    (h : selectFailure s.db env.selectErr u = some e) :
    ∃ r, (walletService.GetBalance s env u).err = some r ∧ r.Is e = true := by
  have hfb : walletService.GetBalance s env u = walletService.getBalanceFallback s env u := by
    rcases GetBalance_cases s env u with ⟨v, _, _, heq⟩ | ⟨_, _, _, hmiss⟩ | ⟨_, _, _, _, hmiss, _⟩
    · rw [heq] at hcall
      exact absurd rfl hcall
    · exact GetBalance_miss s env u hmiss
    · exact GetBalance_miss s env u hmiss
  rw [hfb]
  refine ⟨Errorf "failed to get balance to get balance for user %d: %w" [u]
    (Errorf "failed to query database for user %d: %w" [u] e), ?_,
    Is_Errorf _ _ _ _ (Is_Errorf _ _ _ _ (Is_self e))⟩
  simp only [walletService.getBalanceFallback, repoGetBalance_failure s.db env.selectErr u e h]

theorem mem_selectTransactions (u : Int) (rows : List TransactionRow) (r : TransactionRow) :
    r ∈ selectTransactions u rows ↔
      r ∈ rows ∧ (r.from_user_id = some u ∨ r.to_user_id = some u) := by
  unfold selectTransactions
  rw [(List.perm_insertionSort _ _).mem_iff, List.mem_filter]
  simp

/-- The calls of a service `GetBalance` all concern the user it reads. -/
theorem GetBalance_calls_of (s : World) (env : GetBalanceEnv) (u : Int) :
    (∀ c ∈ (walletService.GetBalance s env u).storeCalls, c = .selectBalance u) ∧
    (∀ c ∈ (walletService.GetBalance s env u).cacheCalls,
      c = .get u ∨ ∃ v, c = .set u v) := by
  constructor
  · intro c hc
    rcases GetBalance_storeCalls s env u with h | h <;> rw [h] at hc <;> simp at hc
    exact hc
  · intro c hc
    unfold walletService.GetBalance walletService.getBalanceFallback at hc
    simp only [] at hc
    split at hc
    · split at hc
      · simp at hc; exact Or.inl hc
      · split at hc
        · simp at hc; exact Or.inl hc
        · split at hc <;> simp at hc <;> rcases hc with h | h <;> simp [h]
    · split at hc
      · simp at hc; exact Or.inl hc
      · split at hc <;> simp at hc <;> rcases hc with h | h <;> simp [h]

/-- A `Withdraw` rejected for insufficient funds leaves the database as it was
and the cache as its balance read left it. -/
theorem svcWithdraw_rejected (s : World) (env : WithdrawEnv) (u a : Int)
    (h : (walletService.Withdraw s env u a).err = some .insufficientFunds) :
    (walletService.Withdraw s env u a).db = s.db ∧
    (walletService.Withdraw s env u a).cache = (walletService.GetBalance s env.read u).cache ∧
    (walletService.Withdraw s env u a).value = 0 := by
  obtain ⟨hread, hlt⟩ := (Withdraw_insufficient_iff s env u a).mp h
  have hdb := GetBalance_db s env.read u
  simp only [walletService.Withdraw, hread, hlt, if_true]
  exact ⟨hdb, trivial, trivial⟩

/-- A balance read changes at most the cache entry of the user it reads. -/
theorem GetBalance_cache_frame (s : World) (env : GetBalanceEnv) (u k : Int) (hk : k ≠ u) :
    (walletService.GetBalance s env u).cache k = s.cache k := by
  rcases GetBalance_cases s env u with ⟨v, _, _, heq⟩ | ⟨_, _, hc, _⟩ | ⟨b, _, _, _, _, heq⟩
  · rw [heq]
  · rw [hc]
  · rw [heq]
    exact Function.update_noteq hk _ _

/-- A service `Deposit` leaves other users alone and keeps the transaction
records it found. -/
theorem svcDeposit_frame (s : World) (env : DepositEnv) (u a : Int) :
    (∀ k, k ≠ u → balanceOf (walletService.Deposit s env u a).db k = balanceOf s.db k ∧
      (walletService.Deposit s env u a).cache k = s.cache k) ∧
    ∃ added, (walletService.Deposit s env u a).db.transactions = s.db.transactions ++ added := by
  rcases svcDeposit_cases s env u a with ⟨b, _, hdb, hcase⟩ | ⟨hdb, hc, _⟩
  · refine ⟨fun k hk => ⟨?_, ?_⟩, ⟨_, by rw [hdb]; rfl⟩⟩
    · rw [hdb, balanceOf_committedDB]; simp [hk]
    · rcases hcase with ⟨_, _, hc⟩ | ⟨_, _, hc⟩ <;> rw [hc]
      exact Function.update_noteq hk _ _
  · exact ⟨fun k _ => ⟨by rw [hdb], by rw [hc]⟩, ⟨[], by rw [hdb]; simp⟩⟩

/-- A service `Withdraw` leaves other users alone and keeps the transaction
records it found. -/
theorem svcWithdraw_frame (s : World) (env : WithdrawEnv) (u a : Int) :
    (∀ k, k ≠ u → balanceOf (walletService.Withdraw s env u a).db k = balanceOf s.db k ∧
      (walletService.Withdraw s env u a).cache k = s.cache k) ∧
    ∃ added, (walletService.Withdraw s env u a).db.transactions = s.db.transactions ++ added := by
  rcases svcWithdraw_cases s env u a with ⟨b, _, _, _, hdb, hcase⟩ | ⟨hdb, hc, _⟩
  · refine ⟨fun k hk => ⟨?_, ?_⟩, ⟨_, by rw [hdb]; rfl⟩⟩
    · rw [hdb, balanceOf_committedDB]; simp [hk]
    · rcases hcase with ⟨_, _, hc⟩ | ⟨_, _, hc⟩ <;> rw [hc]
      · rw [Function.update_noteq hk]; exact GetBalance_cache_frame s env.read u k hk
      · exact GetBalance_cache_frame s env.read u k hk
  · exact ⟨fun k hk => ⟨by rw [hdb], by rw [hc]; exact GetBalance_cache_frame s env.read u k hk⟩,
      ⟨[], by rw [hdb]; simp⟩⟩

/-- A service `Transfer` leaves users other than sender and recipient alone
and keeps the transaction records it found. -/
theorem svcTransfer_frame (s : World) (env : TransferEnv) (f t a : Int) :
    (∀ k, k ≠ f → k ≠ t →
      balanceOf (walletService.Transfer s env f t a).db k = balanceOf s.db k ∧
      (walletService.Transfer s env f t a).cache k = s.cache k) ∧
    ∃ added, (walletService.Transfer s env f t a).db.transactions =
      s.db.transactions ++ added := by
  have hg : ∀ k, k ≠ f → (walletService.GetBalance s env.readFrom f).cache k = s.cache k :=
    fun k hk => GetBalance_cache_frame s env.readFrom f k hk
  have hh : ∀ k, k ≠ f → k ≠ t → (walletService.GetBalance
      { db := s.db, cache := (walletService.GetBalance s env.readFrom f).cache }
      env.readTo t).cache k = s.cache k := by
    intro k hkf hkt
    rw [GetBalance_cache_frame _ env.readTo t k hkt]
    exact hg k hkf
  rcases svcTransfer_cases s env f t a _ _ rfl rfl with
    ⟨bf, bt, _, _, _, _, _, hdb, hcase⟩ | ⟨hdb, _, hc⟩
  · refine ⟨fun k hkf hkt => ⟨?_, ?_⟩, ⟨_, by rw [hdb]; rfl⟩⟩
    · rw [hdb, balanceOf_transferredDB]; simp [hkf, hkt]
    · rcases hcase with ⟨_, _, hc⟩ | ⟨_, _, _, hc⟩ | ⟨_, _, _, hc⟩ <;> rw [hc]
      · exact hh k hkf hkt
      · rw [Function.update_noteq hkf]; exact hh k hkf hkt
      · rw [Function.update_noteq hkt, Function.update_noteq hkf]; exact hh k hkf hkt
  · refine ⟨fun k hkf hkt => ⟨by rw [hdb], ?_⟩, ⟨[], by rw [hdb]; simp⟩⟩
    rcases hc with hc | hc <;> rw [hc]
    · exact hg k hkf
    · exact hh k hkf hkt

/-- The rows the history query yields come newest first. -/
theorem selectTransactions_sorted (u : Int) (rows : List TransactionRow) :
    (selectTransactions u rows).Pairwise (fun a b => b.timestamp ≤ a.timestamp) := by
  haveI : IsTotal TransactionRow (fun a b => b.timestamp ≤ a.timestamp) :=
    ⟨fun a b => le_total b.timestamp a.timestamp⟩
  haveI : IsTrans TransactionRow (fun a b => b.timestamp ≤ a.timestamp) :=
    ⟨fun a b c hab hbc => le_trans hbc hab⟩
  exact List.sorted_insertionSort _ _

/-- A scanned row keeps its timestamp. -/
theorem scanTransaction_timestamp (r : TransactionRow) (t : Transaction)
    (h : scanTransaction r = .ok t) : t.Timestamp = r.timestamp := by
  rcases r with ⟨id, src, dst, amount, ty, ts⟩
  cases src <;> cases dst <;> simp [scanTransaction] at h
  rw [← h]

/-- A scan loop that succeeds returns one record per row, in the order of the
rows and with their timestamps. -/
theorem scanAll_timestamps (u : Int) (rows : List TransactionRow) (txs : List Transaction)
    (h : walletRepository.scanAll u rows = .ok txs) :
    txs.map (fun t => t.Timestamp) = rows.map (fun r => r.timestamp) := by
  induction rows generalizing txs with
  | nil =>
    simp [walletRepository.scanAll] at h
    simp [← h]
  | cons r rows ih =>
    simp only [walletRepository.scanAll] at h
    split at h
    · simp at h
    · rename_i t ht
      split at h
      · simp at h
      · rename_i ts hts
        simp at h
        rw [← h]
        simp [scanTransaction_timestamp r t ht, ih ts hts]

/-- A successful history query of the repository returns the scanned rows of
the SELECT. -/
theorem repoHistory_ok (db : DB) (env : HistoryEnv) (u : Int)
    (h : (walletRepository.GetTransactionHistory db env u).err = none) :
    walletRepository.scanAll u (selectTransactions u db.transactions) =
      .ok (walletRepository.GetTransactionHistory db env u).value := by
  unfold walletRepository.GetTransactionHistory at h ⊢
  rcases hq : env.queryErr with _ | q
  · rcases hs : walletRepository.scanAll u (selectTransactions u db.transactions) with e | txs
    · simp [hq, hs] at h
    · rcases hr : env.rowsErr with _ | e
      · simp
      · simp [hq, hs, hr] at h
  · simp [hq] at h

/-- The service returns the history of the repository when it succeeds. -/
theorem svcHistory_ok (s : World) (env : HistoryEnv) (u : Int)
    (h : (walletService.GetTransactionHistory s env u).err = none) :
    (walletRepository.GetTransactionHistory s.db env u).err = none ∧
    (walletService.GetTransactionHistory s env u).value =
      (walletRepository.GetTransactionHistory s.db env u).value := by
  simp only [walletService.GetTransactionHistory] at h ⊢
  split at h
  · simp at h
  · rename_i hr
    simp [hr]

/-- The history query selects nothing for a user no record names. -/
theorem selectTransactions_nil (u : Int) (rows : List TransactionRow)
    (h : ∀ r ∈ rows, r.from_user_id ≠ some u ∧ r.to_user_id ≠ some u) :
    selectTransactions u rows = [] := by
  apply List.eq_nil_iff_forall_not_mem.mpr
  intro r hr
  obtain ⟨hmem, hu⟩ := (mem_selectTransactions u rows r).mp hr
  rcases hu with hu | hu
  · exact (h r hmem).1 hu
  · exact (h r hmem).2 hu

/-! ## Amounts as exact numbers and as `float64` -/

/-- With amounts treated as exact numbers, the definitions with conversions
are the definitions of the first sections. -/
theorem Rounded_exact_repository (db : DB) :
    (∀ env u a q ty, Rounded.walletRepository.handleTransaction Numbers.exact db env u a q ty =
      walletRepository.handleTransaction db env u a q ty) ∧
    (∀ env f t a, Rounded.walletRepository.Transfer Numbers.exact db env f t a =
      walletRepository.Transfer db env f t a) ∧
    (∀ fault u, Rounded.walletRepository.GetBalance Numbers.exact db fault u =
      walletRepository.GetBalance db fault u) :=
  ⟨fun _ _ _ _ _ => rfl, fun _ _ _ _ => rfl, fun _ _ => rfl⟩

theorem Rounded_exact_service (s : World) :
    (∀ env u, Rounded.walletService.GetBalance Numbers.exact s env u =
      walletService.GetBalance s env u) ∧
    (∀ env u a, Rounded.walletService.Deposit Numbers.exact s env u a =
      walletService.Deposit s env u a) ∧
    (∀ env u a, Rounded.walletService.Withdraw Numbers.exact s env u a =
      walletService.Withdraw s env u a) ∧
    (∀ env f t a, Rounded.walletService.Transfer Numbers.exact s env f t a =
      walletService.Transfer s env f t a) :=
  ⟨fun _ _ => rfl, fun _ _ _ => rfl, fun _ _ _ => rfl, fun _ _ _ _ => rfl⟩

/-- A cache all of whose entries are store balances is consistent with the
store. -/
theorem consistent_of_exact (db : DB) (cache : Cache) (h : CacheExact db cache) :
    CacheConsistent db cache := by
  intro u v hv
  obtain ⟨v', hv', hb⟩ := h u (.number v) hv
  rw [CacheValue.number.inj hv']
  exact hb

/-- In a cache all of whose entries are store balances, the entry of an
account is its balance. -/
theorem entry_of_exact (db : DB) (cache : Cache) (u b : Int) (h : CacheExact db cache)
    (hb : balanceOf db u = some b) : ∀ v, cache u = some (.number v) → v = b := by
  intro v hv
  have := consistent_of_exact db cache h u v hv
  rw [hb] at this
  exact (Option.some.inj this).symm

theorem warmWorld_exact : CacheExact warmWorld.db warmWorld.cache := by
  intro u c h
  by_cases hu : u = 1
  · subst hu
    simp [warmWorld] at h
    exact ⟨100, h.symm, by decide⟩
  · simp [warmWorld, Function.update_noteq hu, emptyCache] at h

/-- Whenever the column keeps the new balance of every row of the user, the
UPDATE with Go's numbers is the exact one. -/
theorem Rounded_updateWallets (n : Numbers) (q : BalanceQuery) (a u : Int)
    (ws : List WalletRow) (h : ∀ x ∈ selectBalance u ws, n.Keeps (q.eval x a)) :
    Rounded.updateWallets n q a u ws = updateWallets q a u ws := by
  unfold Rounded.updateWallets updateWallets
  apply List.map_congr_left
  intro w hw
  by_cases hu : w.user_id = u
  · have hmem : w.balance ∈ selectBalance u ws := by
      unfold selectBalance
      exact List.mem_map.mpr ⟨w, List.mem_filter.mpr ⟨hw, by simp [hu]⟩, rfl⟩
    simp [hu, (h w.balance hmem).2]
  · simp [hu]

theorem Rounded_queryRowScan (n : Numbers) (tx : Tx) (fault : Option GoError)
    (q : BalanceQuery) (a u : Int)
    (h : ∀ x ∈ selectBalance u tx.work.wallets, n.Keeps (q.eval x a)) :
    Rounded.queryRowScan n tx fault q a u = tx.queryRowScan fault q a u := by
  unfold Rounded.queryRowScan Tx.queryRowScan
  rcases fault with _ | e
  · simp only [Rounded_updateWallets n q a u _ h]
    have hscan : Rounded.scanBalance n none
        (selectBalance u (updateWallets q a u tx.work.wallets)) =
        scanBalance none (selectBalance u (updateWallets q a u tx.work.wallets)) := by
      rw [selectBalance_updateWallets]
      simp only [if_true]
      rcases hs : selectBalance u tx.work.wallets with _ | ⟨x, rest⟩
      · rfl
      · have hx := (h x (by rw [hs]; exact List.mem_cons_self _ _)).1
        simp [Rounded.scanBalance, scanBalance, hx]
    rw [hscan]
  · rfl

/-- Whenever Go's `float64` and the column keep the new balance of the user,
`handleTransaction` with Go's numbers is the exact one. -/
theorem Rounded_handleTransaction (n : Numbers) (db : DB) (env : TxEnv) (u a : Int)
    (q : BalanceQuery) (ty : String)
    (h : ∀ x ∈ selectBalance u db.wallets, n.Keeps (q.eval x a)) :
    Rounded.walletRepository.handleTransaction n db env u a q ty =
      walletRepository.handleTransaction db env u a q ty := by
  unfold Rounded.walletRepository.handleTransaction walletRepository.handleTransaction
  rcases hb : env.beginErr with _ | e
  · simp only [BeginTx]
    rw [Rounded_queryRowScan n _ env.updateErr q a u h]
  · rfl

theorem Rounded_repoTransfer (n : Numbers) (db : DB) (env : TransferTxEnv) (f t a : Int)
    (hf : ∀ x ∈ selectBalance f db.wallets, n.Keeps (x - a))
    (ht : ∀ x ∈ selectBalance t (updateWallets .sub a f db.wallets), n.Keeps (x + a)) :
    Rounded.walletRepository.Transfer n db env f t a =
      walletRepository.Transfer db env f t a := by
  unfold Rounded.walletRepository.Transfer walletRepository.Transfer
  rcases hb : env.beginErr with _ | e
  · simp only [BeginTx]
    rw [Rounded_queryRowScan n _ env.updateFromErr .sub a f hf]
    rcases hu : env.updateFromErr with _ | e
    · have h2 : Rounded.queryRowScan n
          (Tx.queryRowScan { base := db, work := db, calls := [.beginTx] } none .sub a f).1
          env.updateToErr .add a t =
          (Tx.queryRowScan { base := db, work := db, calls := [.beginTx] } none .sub a
            f).1.queryRowScan env.updateToErr .add a t :=
        Rounded_queryRowScan n _ env.updateToErr .add a t ht
      rcases hs : scanBalance none (selectBalance f (updateWallets .sub a f db.wallets)) with
        e | b
      · simp [Tx.queryRowScan, hs]
      · simp only [Tx.queryRowScan, hs] at h2 ⊢
        rw [h2]
    · simp [Tx.queryRowScan]
  · rfl

theorem Rounded_repoGetBalance (n : Numbers) (db : DB) (fault : Option GoError) (u : Int)
    (h : ∀ x ∈ selectBalance u db.wallets, n.float64 x = x) :
    Rounded.walletRepository.GetBalance n db fault u = walletRepository.GetBalance db fault u := by
  unfold Rounded.walletRepository.GetBalance walletRepository.GetBalance
  have hscan : Rounded.scanBalance n fault (selectBalance u db.wallets) =
      scanBalance fault (selectBalance u db.wallets) := by
    rcases fault with _ | e
    · rcases hs : selectBalance u db.wallets with _ | ⟨x, rest⟩
      · rfl
      · have hx := h x (by rw [hs]; exact List.mem_cons_self _ _)
        simp [Rounded.scanBalance, scanBalance, hx]
    · rfl
  rw [hscan]

/-- Whenever Go's `float64` keeps the cached and the stored balance of the
user, the balance read with Go's numbers is the exact one. -/
theorem Rounded_GetBalance (n : Numbers) (s : World) (env : GetBalanceEnv) (u : Int)
    (hc : ∀ v, s.cache u = some (.number v) → n.float64 v = v)
    (hs : ∀ x ∈ selectBalance u s.db.wallets, n.float64 x = x) :
    Rounded.walletService.GetBalance n s env u = walletService.GetBalance s env u := by
  have hfb : Rounded.walletService.getBalanceFallback n s env u =
      walletService.getBalanceFallback s env u := by
    unfold Rounded.walletService.getBalanceFallback walletService.getBalanceFallback
    rw [Rounded_repoGetBalance n s.db env.selectErr u hs]
  unfold Rounded.walletService.GetBalance walletService.GetBalance
  rw [hfb]
  rcases hg : cacheGet s.cache env.cacheGetErr u with e | c
  · rfl
  · cases c with
    | number v =>
      have hv : s.cache u = some (.number v) := by
        unfold cacheGet at hg
        rcases he : env.cacheGetErr with _ | e
        · rw [he] at hg
          rcases hcu : s.cache u with _ | c
          · simp [hcu] at hg
          · simp [hcu] at hg
            rw [hg]
        · simp [he] at hg
      simp [Rounded.ParseFloat, ParseFloat, hc v hv]
    | malformed => rfl

/-- Whenever Go's `float64` and the column keep the new balance of the user,
`Deposit` with Go's numbers is the exact one. -/
theorem Rounded_Deposit (n : Numbers) (s : World) (env : DepositEnv) (u a : Int)
    (h : ∀ x ∈ selectBalance u s.db.wallets, n.Keeps (x + a)) :
    Rounded.walletService.Deposit n s env u a = walletService.Deposit s env u a := by
  unfold Rounded.walletService.Deposit walletService.Deposit
    Rounded.walletRepository.Deposit walletRepository.Deposit
  rw [Rounded_handleTransaction n s.db env.tx u a .add "deposit" h]

/-- Whenever Go's `float64` keeps the balance that is read and, with the
column, the new balance of the user, `Withdraw` with Go's numbers is the exact
one. -/
theorem Rounded_Withdraw (n : Numbers) (s : World) (env : WithdrawEnv) (u a : Int)
    (hc : ∀ v, s.cache u = some (.number v) → n.float64 v = v)
    (hs : ∀ x ∈ selectBalance u s.db.wallets, n.float64 x = x)
    (h : ∀ x ∈ selectBalance u s.db.wallets, n.Keeps (x - a)) :
    Rounded.walletService.Withdraw n s env u a = walletService.Withdraw s env u a := by
  unfold Rounded.walletService.Withdraw walletService.Withdraw
    Rounded.walletRepository.Withdraw walletRepository.Withdraw
  rw [Rounded_GetBalance n s env.read u hc hs]
  have hdb := GetBalance_db s env.read u
  simp only [hdb, Rounded_handleTransaction n s.db env.tx u a .sub "withdraw" h]

/-- Whenever Go's `float64` keeps the balances that are read and, with the
column, the new balances of both users, `Transfer` with Go's numbers is the
exact one. -/
theorem Rounded_Transfer (n : Numbers) (s : World) (env : TransferEnv) (f t a : Int)
    (hcf : ∀ v, s.cache f = some (.number v) → n.float64 v = v)
    (hsf : ∀ x ∈ selectBalance f s.db.wallets, n.float64 x = x)
    (hct : ∀ v, s.cache t = some (.number v) → n.float64 v = v)
    (hst : ∀ x ∈ selectBalance t s.db.wallets, n.float64 x = x)
    (hf : ∀ x ∈ selectBalance f s.db.wallets, n.Keeps (x - a))
    (ht : ∀ x ∈ selectBalance t (updateWallets .sub a f s.db.wallets), n.Keeps (x + a)) :
    Rounded.walletService.Transfer n s env f t a = walletService.Transfer s env f t a := by
  unfold Rounded.walletService.Transfer walletService.Transfer
    Rounded.walletService.transferCommit walletService.transferCommit
  rw [Rounded_GetBalance n s env.readFrom f hcf hsf]
  have hdb := GetBalance_db s env.readFrom f
  have hct' : ∀ v, (walletService.GetBalance s env.readFrom f).cache t = some (.number v) →
      n.float64 v = v := by
    intro v hv
    rcases GetBalance_cases s env.readFrom f with ⟨_, _, _, heq⟩ | ⟨_, _, hc, _⟩ |
        ⟨b, hb, _, _, _, heq⟩
    · rw [heq] at hv; exact hct v hv
    · rw [hc] at hv; exact hct v hv
    · rw [heq] at hv
      by_cases htf : t = f
      · subst htf
        simp at hv
        subst hv
        exact hsf b (by
          unfold balanceOf at hb
          exact List.mem_of_mem_head? hb)
      · simp only [Function.update_noteq htf] at hv
        exact hct v hv
  have hdb2 : (walletService.GetBalance
      { db := s.db, cache := (walletService.GetBalance s env.readFrom f).cache } env.readTo
      t).db = s.db := GetBalance_db _ env.readTo t
  have hread := Rounded_GetBalance n
    { db := s.db, cache := (walletService.GetBalance s env.readFrom f).cache } env.readTo t
    hct' hst
  simp only [hdb, hread, hdb2, Rounded_repoTransfer n s.db env.tx f t a hf ht]

/-! ## The claims -/

/-- C1, as amended. In sequential execution, from a store whose balances are
all non-negative (each wallet row having its own user id) and an empty cache,
after any finite sequence of `Deposit`, `Withdraw`, `Transfer`, `GetBalance`
(and `GetTransactionHistory`) calls with positive amounts, in which store
calls, cache reads and cache writes may fail, except the cache write that
follows a committed debit (the write of `Withdraw`, the write for
`fromUserID` of `Transfer`), every store balance is still non-negative. -/
theorem balances_stay_nonnegative (s : World) (ops : List Op)
    (hkey : KeyUnique s.db) (hnonneg : NonNegative s.db) (hcache : s.cache = emptyCache)
    (hops : ∀ op ∈ ops, op.positive ∧ op.debitWriteOk) :
    NonNegative (run s ops).db := by
  have hn : BalancesNonNegative s.db := by
    intro u b hb
    obtain ⟨w, hw, _, hwb⟩ := mem_of_balanceOf s.db u b hb
    exact hwb ▸ hnonneg w hw
  have hc : CacheBelow s.db s.cache := by
    intro u v b hv _
    rw [hcache] at hv
    simp [emptyCache] at hv
  intro w hw
  exact run_preserves ops s hops hn hc w.user_id w.balance
    (balanceOf_of_mem _ w (run_keyUnique ops s hkey) hw)

/-- C1, as stated, fails: account 1 holds 100 and the cache is empty. A first
`Withdraw(1, 100)` commits (store balance 0) but its cache write fails, which
leaves the entry 100 that its balance read had filled in. The second
`Withdraw(1, 100)` passes the check against the stale entry and commits: the
store balance of account 1 is -100. -/
theorem balances_stay_nonnegative_counterexample :
    NonNegative sampleWorld.db ∧ sampleWorld.cache = emptyCache ∧
    (∀ op ∈ staleCacheCalls, op.positive) ∧
    balanceOf (run sampleWorld staleCacheCalls).db 1 = some (-100) ∧
    ¬ NonNegative (run sampleWorld staleCacheCalls).db := by
  refine ⟨by decide, rfl, ?_, by decide, by decide⟩
  intro op hop
  simp only [staleCacheCalls, List.mem_cons, List.mem_singleton, List.not_mem_nil,
    or_false] at hop
  rcases hop with h | h <;> subst h <;> simp [Op.positive]

theorem balances_stay_nonnegative_witness :
    KeyUnique sampleWorld.db ∧ NonNegative sampleWorld.db ∧ sampleWorld.cache = emptyCache ∧
    NonNegative (run sampleWorld sampleCalls).db :=
  ⟨by decide, by decide, rfl,
    balances_stay_nonnegative sampleWorld sampleCalls (by decide) (by decide) rfl (by
      intro op hop
      simp only [sampleCalls, List.mem_cons, List.mem_singleton, List.not_mem_nil,
        or_false] at hop
      rcases hop with h | h | h | h | h <;> subst h <;>
        simp [Op.positive, Op.debitWriteOk, WithdrawEnv.ok, TransferEnv.ok])⟩

/-- C3, as stated, fails: `Deposit(1, -5)` on an account holding 100, with no
failure, is not rejected. It runs a store transaction, returns a nil error,
lowers the store balance to 95 and appends a transaction record. -/
theorem nonpositive_amount_counterexample :
    (-5 : Int) ≤ 0 ∧ balanceOf sampleWorld.db 1 = some 100 ∧
    (walletService.Deposit sampleWorld (DepositEnv.ok 0) 1 (-5)).err = none ∧
    (walletService.Deposit sampleWorld (DepositEnv.ok 0) 1 (-5)).storeCalls ≠ [] ∧
    balanceOf (walletService.Deposit sampleWorld (DepositEnv.ok 0) 1 (-5)).db 1 = some 95 ∧
    (walletService.Deposit sampleWorld (DepositEnv.ok 0) 1 (-5)).db.transactions ≠
      sampleWorld.db.transactions := by
  decide

/-- C3, as amended. The engine does not look at the sign of the amount and has
no `InvalidAmount` error. With amounts treated as exact numbers: for every
amount `a ≤ 0`, distinct existing accounts `u` and `v` with store balances
`b ≥ 0` and `t`, a cache consistent with the store (every entry is the store
balance of its user) and no store or cache failure, `Deposit(u, a)`,
`Withdraw(u, a)` and `Transfer(u, v, a)` each succeed like any other call:
they return `b + a`, `b - a` and `(b - a, t + a)`, commit these balances to
the store and append their transaction record. -/
theorem nonpositive_amount_is_processed (s : World) (now : Nat) (u v a b t : Int)
    (ha : a ≤ 0) (hne : u ≠ v)
    (hb : balanceOf s.db u = some b) (ht : balanceOf s.db v = some t) (hb0 : 0 ≤ b)
    (hcache : CacheExact s.db s.cache) :
    ((walletService.Deposit s (DepositEnv.ok now) u a).err = none ∧
      (walletService.Deposit s (DepositEnv.ok now) u a).value = b + a ∧
      balanceOf (walletService.Deposit s (DepositEnv.ok now) u a).db u = some (b + a) ∧
      (walletService.Deposit s (DepositEnv.ok now) u a).db.transactions =
        s.db.transactions ++
          [newTransactionRow s.db.transactions now (some u) none a "deposit"]) ∧
    ((walletService.Withdraw s (WithdrawEnv.ok now) u a).err = none ∧
      (walletService.Withdraw s (WithdrawEnv.ok now) u a).value = b - a ∧
      balanceOf (walletService.Withdraw s (WithdrawEnv.ok now) u a).db u = some (b - a) ∧
      (walletService.Withdraw s (WithdrawEnv.ok now) u a).db.transactions =
        s.db.transactions ++
          [newTransactionRow s.db.transactions now (some u) none a "withdraw"]) ∧
    ((walletService.Transfer s (TransferEnv.ok now) u v a).err = none ∧
      (walletService.Transfer s (TransferEnv.ok now) u v a).value = (b - a, t + a) ∧
      balanceOf (walletService.Transfer s (TransferEnv.ok now) u v a).db u = some (b - a) ∧
      balanceOf (walletService.Transfer s (TransferEnv.ok now) u v a).db v = some (t + a) ∧
      (walletService.Transfer s (TransferEnv.ok now) u v a).db.transactions =
        s.db.transactions ++
          [newTransactionRow s.db.transactions now (some u) (some v) a "transfer"]) := by
  have hcu := entry_of_exact s.db s.cache u b hcache hb
  have hcv := entry_of_exact s.db s.cache v t hcache ht
  have hab : a ≤ b := le_trans ha hb0
  have hne' : ¬ v = u := fun h => hne h.symm
  obtain ⟨_, _, hw⟩ := svcWithdraw_commit s now u a b hb hcu hab
  obtain ⟨_, _, htr⟩ := svcTransfer_commit s now u v a b t hb ht hcu hcv hab
  rw [svcDeposit_commit s now u a b hb, hw, htr]
  refine ⟨⟨rfl, rfl, ?_, rfl⟩, ⟨rfl, rfl, ?_, rfl⟩, ⟨rfl, ?_, ?_, ?_, rfl⟩⟩ <;>
    simp [balanceOf_committedDB, balanceOf_transferredDB, hb, ht, hne, hne', BalanceQuery.eval]

theorem nonpositive_amount_is_processed_witness :
    (-5 : Int) ≤ 0 ∧ (1 : Int) ≠ 2 ∧ balanceOf warmWorld.db 1 = some 100 ∧
    balanceOf warmWorld.db 2 = some 5 ∧ (0 : Int) ≤ 100 ∧
    CacheExact warmWorld.db warmWorld.cache ∧
    (walletService.Withdraw warmWorld (WithdrawEnv.ok 0) 1 (-5)).value = 100 - (-5) :=
  ⟨by decide, by decide, by decide, by decide, by decide, warmWorld_exact,
    (nonpositive_amount_is_processed warmWorld 0 1 2 (-5) 100 5 (by decide) (by decide)
      (by decide) (by decide) (by decide) warmWorld_exact).2.1.2.1⟩

/-- C4. With one wallet row per user id: for every finite sequence of
`Deposit`, `Withdraw` and `Transfer` calls (reads may be interleaved) executed
sequentially with no cache failure, store calls failing at will, the sum of all
store balances afterwards is the sum before plus the amounts of the deposits
that succeeded minus the amounts of the withdrawals that succeeded; transfers
(failed ones and self-transfers included) and failed calls contribute zero. -/
theorem total_balance_changes_by_net_flow (s : World) (ops : List Op)
    (hkey : KeyUnique s.db) (hops : ∀ op ∈ ops, op.noCacheFault) :
    totalBalance (run s ops).db = totalBalance s.db + netFlow s ops := by
  induction ops generalizing s with
  | nil => simp [run, netFlow]
  | cons op ops ih =>
    have h1 := exec_totalBalance s op hkey (hops op (List.mem_cons_self _ _))
    have h2 := ih (op.exec s).1 (exec_keyUnique s op hkey)
      (fun o ho => hops o (List.mem_cons_of_mem _ ho))
    simp only [run, netFlow]
    rw [h2, h1]
    ring

theorem total_balance_changes_by_net_flow_witness :
    KeyUnique sampleWorld.db ∧
    totalBalance (run sampleWorld sampleCalls).db =
      totalBalance sampleWorld.db + netFlow sampleWorld sampleCalls ∧
    netFlow sampleWorld sampleCalls = 40 - 5 :=
  ⟨by decide,
    total_balance_changes_by_net_flow sampleWorld sampleCalls (by decide) (by
      intro op hop
      simp only [sampleCalls, List.mem_cons, List.mem_singleton, List.not_mem_nil,
        or_false] at hop
      rcases hop with h | h | h | h | h <;> subst h <;>
        simp [Op.noCacheFault, DepositEnv.ok, WithdrawEnv.ok, TransferEnv.ok,
          GetBalanceEnv.ok]),
    by decide⟩

/-- C5. Repository `Deposit` and `Withdraw` (`handleTransaction`): when the
transaction has begun and a later step fails (the balance UPDATE, by a driver
error or because the user has no wallet row; the INSERT of the transaction
record; the commit), the method returns balance 0 with a non-nil error, its
last store call is the rollback, and the database is as before the call: the
balance is unchanged and no transaction record was added. -/
theorem repository_failure_after_begin_rolls_back (db : DB) (env : TxEnv) (userID amount : Int)
    (hbegin : env.beginErr = none)
    (hfail : env.updateErr ≠ none ∨ balanceOf db userID = none ∨ env.insertErr ≠ none ∨
      env.commitErr ≠ none) :
    ((walletRepository.Deposit db env userID amount).err ≠ none ∧
      (walletRepository.Deposit db env userID amount).value = 0 ∧
      (walletRepository.Deposit db env userID amount).calls.getLast? = some .rollback ∧
      (walletRepository.Deposit db env userID amount).db = db) ∧
    ((walletRepository.Withdraw db env userID amount).err ≠ none ∧
      (walletRepository.Withdraw db env userID amount).value = 0 ∧
      (walletRepository.Withdraw db env userID amount).calls.getLast? = some .rollback ∧
      (walletRepository.Withdraw db env userID amount).db = db) := by
  have h : env.beginErr ≠ none ∨ env.updateErr ≠ none ∨ env.insertErr ≠ none ∨
      env.commitErr ≠ none ∨ balanceOf db userID = none := by tauto
  constructor
  · obtain ⟨h1, h2, h3, _, h5⟩ := handleTransaction_abort db env userID amount .add "deposit" h
    exact ⟨h1, h2, h5 hbegin, h3⟩
  · obtain ⟨h1, h2, h3, _, h5⟩ := handleTransaction_abort db env userID amount .sub "withdraw" h
    exact ⟨h1, h2, h5 hbegin, h3⟩

theorem repository_failure_after_begin_rolls_back_witness :
    commitFails.beginErr = none ∧
    (commitFails.updateErr ≠ none ∨ balanceOf sampleDB 1 = none ∨ commitFails.insertErr ≠ none ∨
      commitFails.commitErr ≠ none) ∧
    (walletRepository.Deposit sampleDB commitFails 1 30).db = sampleDB ∧
    (walletRepository.Withdraw sampleDB commitFails 1 30).value = 0 :=
  ⟨rfl, by decide,
    (repository_failure_after_begin_rolls_back sampleDB commitFails 1 30 rfl (by decide)).1.2.2.2,
    (repository_failure_after_begin_rolls_back sampleDB commitFails 1 30 rfl (by decide)).2.2.1⟩

/-- C6. Repository `Transfer`: when the transaction has begun and a later step
fails (the debit of `fromUserID`, the credit of `toUserID`, in particular when
`toUserID` has no wallet row although the debit succeeded, the INSERT of the
transaction record, or the commit), the method returns a non-nil error, its
last store call is the rollback, the balances of both accounts are as before
and no transaction record was added. -/
theorem repository_transfer_failure_rolls_back (db : DB) (env : TransferTxEnv)
    (fromUserID toUserID amount : Int)
    (hbegin : env.beginErr = none)
    (hfail : env.updateFromErr ≠ none ∨ balanceOf db fromUserID = none ∨
      env.updateToErr ≠ none ∨ balanceOf db toUserID = none ∨ env.insertErr ≠ none ∨
      env.commitErr ≠ none) :
    (walletRepository.Transfer db env fromUserID toUserID amount).err ≠ none ∧
    (walletRepository.Transfer db env fromUserID toUserID amount).calls.getLast? =
      some .rollback ∧
    balanceOf (walletRepository.Transfer db env fromUserID toUserID amount).db fromUserID =
      balanceOf db fromUserID ∧
    balanceOf (walletRepository.Transfer db env fromUserID toUserID amount).db toUserID =
      balanceOf db toUserID ∧
    (walletRepository.Transfer db env fromUserID toUserID amount).db.wallets = db.wallets ∧
    (walletRepository.Transfer db env fromUserID toUserID amount).db.transactions =
      db.transactions := by
  have h : env.beginErr ≠ none ∨ env.updateFromErr ≠ none ∨ env.updateToErr ≠ none ∨
      env.insertErr ≠ none ∨ env.commitErr ≠ none ∨ balanceOf db fromUserID = none ∨
      balanceOf db toUserID = none := by tauto
  obtain ⟨h1, _, h3, _, h5⟩ := Transfer_abort db env fromUserID toUserID amount h
  refine ⟨h1, h5 hbegin, ?_, ?_, ?_, ?_⟩ <;> rw [h3]

theorem repository_transfer_failure_rolls_back_witness :
    (TransferTxEnv.ok 3).beginErr = none ∧ balanceOf sampleDB 999 = none ∧
    balanceOf (walletRepository.Transfer sampleDB (TransferTxEnv.ok 3) 1 999 30).db 1 =
      balanceOf sampleDB 1 :=
  ⟨rfl, by decide,
    (repository_transfer_failure_rolls_back sampleDB (TransferTxEnv.ok 3) 1 999 30 rfl
      (Or.inr (Or.inr (Or.inr (Or.inl (by decide)))))).2.2.1⟩

/-- C7. A repository `Deposit`, `Withdraw` or `Transfer` reports success
exactly when its transaction committed, and then it appended exactly one
transaction record: the amount is the requested one, the kind is `deposit`,
`withdraw` or `transfer`; for a deposit and a withdrawal the source is the
affected user and the destination is absent, for a transfer the source is
`fromUserID` and the destination `toUserID`. A call that did not commit
appends nothing, the reads `GetBalance` and `GetTransactionHistory` leave the
database as it is, and the service changes the database only through the one
repository call of `Deposit`, `Withdraw` or `Transfer`. -/
theorem one_record_per_committed_mutation (db : DB) (cache : Cache) :
    (∀ env u a, AppendsOneRecord (walletRepository.Deposit db env u a) db (some u) none a
      "deposit") ∧
    (∀ env u a, AppendsOneRecord (walletRepository.Withdraw db env u a) db (some u) none a
      "withdraw") ∧
    (∀ env f t a, AppendsOneRecord (walletRepository.Transfer db env f t a) db (some f)
      (some t) a "transfer") ∧
    (∀ fault u, (walletRepository.GetBalance db fault u).db = db) ∧
    (∀ env u, (walletRepository.GetTransactionHistory db env u).db = db) ∧
    (∀ env u a, (walletService.Deposit { db := db, cache := cache } env u a).db =
      (walletRepository.Deposit db env.tx u a).db) ∧
    (∀ env u a, (walletService.Withdraw { db := db, cache := cache } env u a).db = db ∨
      (walletService.Withdraw { db := db, cache := cache } env u a).db =
        (walletRepository.Withdraw db env.tx u a).db) ∧
    (∀ env f t a, (walletService.Transfer { db := db, cache := cache } env f t a).db = db ∨
      (walletService.Transfer { db := db, cache := cache } env f t a).db =
        (walletRepository.Transfer db env.tx f t a).db) ∧
    (∀ env u, (walletService.GetBalance { db := db, cache := cache } env u).db = db) ∧
    (∀ env u, (walletService.GetTransactionHistory { db := db, cache := cache } env u).db =
      db) :=
  ⟨fun env u a => handleTransaction_appends db env u a .add "deposit",
    fun env u a => handleTransaction_appends db env u a .sub "withdraw",
    fun env f t a => repoTransfer_appends db env f t a,
    fun fault u => repoGetBalance_db db fault u,
    fun env u => repoHistory_db db env u,
    fun env u a => svcDeposit_db _ env u a,
    fun env u a => svcWithdraw_db _ env u a,
    fun env f t a => svcTransfer_db _ env f t a,
    fun env u => GetBalance_db _ env u,
    fun env u => (svcHistory_state _ env u).1⟩

/-- C8, as stated, fails on Go's numbers: account 1 holds `2^53`, which is a
`float64`, and so is the amount 1. With no failure, `Deposit(1, 1)` returns
`2^53` and sets the cache entry to `2^53`, not to `2^53 + 1`: the new balance
is scanned into a `float64`, which cannot hold `2^53 + 1`. This is so whether
the store keeps balances exactly or as `float64`. -/
theorem deposit_adds_amount_counterexample :
    balanceOf largeWorld.db 1 = some 9007199254740992 ∧
    (Rounded.walletService.Deposit Numbers.numericColumn largeWorld (DepositEnv.ok 0) 1
      1).err = none ∧
    (Rounded.walletService.Deposit Numbers.numericColumn largeWorld (DepositEnv.ok 0) 1
      1).value = 9007199254740992 ∧
    (Rounded.walletService.Deposit Numbers.numericColumn largeWorld (DepositEnv.ok 0) 1
      1).cache 1 = some (.number 9007199254740992) ∧
    (Rounded.walletService.Deposit Numbers.doubleColumn largeWorld (DepositEnv.ok 0) 1
      1).err = none ∧
    (Rounded.walletService.Deposit Numbers.doubleColumn largeWorld (DepositEnv.ok 0) 1
      1).value = 9007199254740992 ∧
    (Rounded.walletService.Deposit Numbers.doubleColumn largeWorld (DepositEnv.ok 0) 1
      1).cache 1 = some (.number 9007199254740992) ∧
    balanceOf (Rounded.walletService.Deposit Numbers.doubleColumn largeWorld (DepositEnv.ok 0)
      1 1).db 1 = some 9007199254740992 ∧
    (9007199254740992 : Int) ≠ 9007199254740992 + 1 := by
  decide

/-- C8, as amended. With amounts treated as exact numbers: for an existing
account `userID` with store balance `b` and any amount, when neither store nor
cache fails, `Deposit` returns `b + amount` with a nil error, the store balance and the cache entry of the account become
`b + amount`, whatever the cache held before; the only store calls are those
of the one transaction and the only cache call is the write: no balance is
read. -/
theorem deposit_adds_amount (s : World) (now : Nat) (userID amount b : Int)
    (hb : balanceOf s.db userID = some b) :
    (walletService.Deposit s (DepositEnv.ok now) userID amount).err = none ∧
    (walletService.Deposit s (DepositEnv.ok now) userID amount).value = b + amount ∧
    balanceOf (walletService.Deposit s (DepositEnv.ok now) userID amount).db userID =
      some (b + amount) ∧
    (walletService.Deposit s (DepositEnv.ok now) userID amount).cache userID =
      some (.number (b + amount)) ∧
    (walletService.Deposit s (DepositEnv.ok now) userID amount).storeCalls =
      [.beginTx, .updateBalance .add amount userID,
        .insertTransaction (some userID) none amount "deposit", .commit] ∧
    (walletService.Deposit s (DepositEnv.ok now) userID amount).cacheCalls =
      [.set userID (b + amount)] := by
  rw [svcDeposit_commit s now userID amount b hb]
  simp [balanceOf_committedDB, hb, BalanceQuery.eval]

theorem deposit_adds_amount_witness :
    balanceOf sampleWorld.db 1 = some 100 ∧
    (walletService.Deposit sampleWorld (DepositEnv.ok 0) 1 25).value = 100 + 25 :=
  ⟨by decide, (deposit_adds_amount sampleWorld 0 1 25 100 (by decide)).2.1⟩

/-- C9, as stated, fails on Go's numbers: account 2 holds `2^53 + 2`, which is
a `float64`, the cache is empty and `GetBalance` reads `2^53 + 2`. With no
failure, `Withdraw(2, 1)` returns `2^53` and sets the cache entry to `2^53`,
not to `2^53 + 1`, which no `float64` holds. This is so whether the store
keeps balances exactly or as `float64`. -/
theorem withdraw_subtracts_amount_counterexample :
    largeWorld.cache = emptyCache ∧
    (Rounded.walletService.GetBalance Numbers.numericColumn largeWorld GetBalanceEnv.ok
      2).value = 9007199254740994 ∧
    (Rounded.walletService.GetBalance Numbers.doubleColumn largeWorld GetBalanceEnv.ok
      2).value = 9007199254740994 ∧
    (0 : Int) < 1 ∧ (1 : Int) ≤ 9007199254740994 ∧
    (Rounded.walletService.Withdraw Numbers.numericColumn largeWorld (WithdrawEnv.ok 0) 2
      1).err = none ∧
    (Rounded.walletService.Withdraw Numbers.numericColumn largeWorld (WithdrawEnv.ok 0) 2
      1).value = 9007199254740992 ∧
    (Rounded.walletService.Withdraw Numbers.numericColumn largeWorld (WithdrawEnv.ok 0) 2
      1).cache 2 = some (.number 9007199254740992) ∧
    (Rounded.walletService.Withdraw Numbers.doubleColumn largeWorld (WithdrawEnv.ok 0) 2
      1).err = none ∧
    (Rounded.walletService.Withdraw Numbers.doubleColumn largeWorld (WithdrawEnv.ok 0) 2
      1).value = 9007199254740992 ∧
    (Rounded.walletService.Withdraw Numbers.doubleColumn largeWorld (WithdrawEnv.ok 0) 2
      1).cache 2 = some (.number 9007199254740992) ∧
    balanceOf (Rounded.walletService.Withdraw Numbers.doubleColumn largeWorld
      (WithdrawEnv.ok 0) 2 1).db 2 = some 9007199254740992 ∧
    (9007199254740992 : Int) ≠ 9007199254740994 - 1 :=
  ⟨rfl, by decide, by decide, by decide, by decide, by decide, by decide, by decide, by decide,
    by decide, by decide, by decide, by decide⟩

/-- C9, as amended. With amounts treated as exact numbers: for an existing
account `userID` with store balance `b`, a cache that is consistent with the
store (every entry is the store balance of its user) and an amount `a ≤ b` (in
particular `0 < a ≤ b`, `a = b` included), when neither store nor cache fails: `GetBalance` reads `b`,
and `Withdraw` returns `b - a` with a nil error; the store balance and the
cache entry of the account become `b - a`. -/
theorem withdraw_subtracts_amount (s : World) (now : Nat) (userID amount b : Int)
    (hb : balanceOf s.db userID = some b) (hcache : CacheExact s.db s.cache)
    (ha : amount ≤ b) :
    (walletService.GetBalance s GetBalanceEnv.ok userID).err = none ∧
    (walletService.GetBalance s GetBalanceEnv.ok userID).value = b ∧
    (walletService.Withdraw s (WithdrawEnv.ok now) userID amount).err = none ∧
    (walletService.Withdraw s (WithdrawEnv.ok now) userID amount).value = b - amount ∧
    balanceOf (walletService.Withdraw s (WithdrawEnv.ok now) userID amount).db userID =
      some (b - amount) ∧
    (walletService.Withdraw s (WithdrawEnv.ok now) userID amount).cache userID =
      some (.number (b - amount)) := by
  have hc := entry_of_exact s.db s.cache userID b hcache hb
  obtain ⟨_, _, _, hg, _, _⟩ := GetBalance_ok s userID b hb hc
  obtain ⟨_, _, hw⟩ := svcWithdraw_commit s now userID amount b hb hc ha
  rw [hg, hw]
  simp [balanceOf_committedDB, hb, BalanceQuery.eval]

theorem withdraw_subtracts_amount_witness :
    balanceOf warmWorld.db 1 = some 100 ∧ CacheExact warmWorld.db warmWorld.cache ∧
    (100 : Int) ≤ 100 ∧
    (walletService.Withdraw warmWorld (WithdrawEnv.ok 0) 1 100).value = 100 - 100 :=
  ⟨by decide, warmWorld_exact, by decide,
    (withdraw_subtracts_amount warmWorld 0 1 100 100 (by decide) warmWorld_exact
      (by decide)).2.2.2.1⟩

/-- C10, as stated, fails on Go's numbers: accounts 2 and 1 hold `2^53 + 2`
and `2^53`, both of them `float64`, and the cache is empty. With no failure,
`Transfer(2, 1, 1)` returns `(2^53, 2^53)` and sets both cache entries to
`2^53`, not to `2^53 + 1`, which no `float64` holds. This is so whether the
store keeps balances exactly or as `float64`. -/
theorem transfer_moves_amount_counterexample :
    (2 : Int) ≠ 1 ∧ largeWorld.cache = emptyCache ∧
    balanceOf largeWorld.db 2 = some 9007199254740994 ∧
    balanceOf largeWorld.db 1 = some 9007199254740992 ∧
    (0 : Int) < 1 ∧ (1 : Int) ≤ 9007199254740994 ∧
    (Rounded.walletService.Transfer Numbers.numericColumn largeWorld (TransferEnv.ok 0) 2 1
      1).err = none ∧
    (Rounded.walletService.Transfer Numbers.numericColumn largeWorld (TransferEnv.ok 0) 2 1
      1).value = (9007199254740992, 9007199254740992) ∧
    (Rounded.walletService.Transfer Numbers.doubleColumn largeWorld (TransferEnv.ok 0) 2 1
      1).err = none ∧
    (Rounded.walletService.Transfer Numbers.doubleColumn largeWorld (TransferEnv.ok 0) 2 1
      1).value = (9007199254740992, 9007199254740992) ∧
    (Rounded.walletService.Transfer Numbers.doubleColumn largeWorld (TransferEnv.ok 0) 2 1
      1).cache 2 = some (.number 9007199254740992) ∧
    (Rounded.walletService.Transfer Numbers.doubleColumn largeWorld (TransferEnv.ok 0) 2 1
      1).cache 1 = some (.number 9007199254740992) ∧
    ((9007199254740992, 9007199254740992) : Int × Int) ≠
      (9007199254740994 - 1, 9007199254740992 + 1) :=
  ⟨by decide, rfl, by decide, by decide, by decide, by decide, by decide, by decide, by decide,
    by decide, by decide, by decide, by decide⟩

/-- C10, as amended. With amounts treated as exact numbers: for two distinct
existing accounts with store balances `f` and `t`, a cache that is consistent
with the store (every entry is the store balance of its user) and an amount
`a ≤ f` (in particular `0 < a ≤ f`), when neither store nor cache fails: `Transfer` returns
`(f - a, t + a)` with a nil error, the store balances become `f - a` and
`t + a`, and the cache entries of both accounts are set to these balances. -/
theorem transfer_moves_amount (s : World) (now : Nat) (fromUserID toUserID amount f t : Int)
    (hne : fromUserID ≠ toUserID)
    (hf : balanceOf s.db fromUserID = some f) (ht : balanceOf s.db toUserID = some t)
    (hcache : CacheExact s.db s.cache) (ha : amount ≤ f) :
    (walletService.Transfer s (TransferEnv.ok now) fromUserID toUserID amount).err = none ∧
    (walletService.Transfer s (TransferEnv.ok now) fromUserID toUserID amount).value =
      (f - amount, t + amount) ∧
    balanceOf (walletService.Transfer s (TransferEnv.ok now) fromUserID toUserID amount).db
      fromUserID = some (f - amount) ∧
    balanceOf (walletService.Transfer s (TransferEnv.ok now) fromUserID toUserID amount).db
      toUserID = some (t + amount) ∧
    (walletService.Transfer s (TransferEnv.ok now) fromUserID toUserID amount).cache
      fromUserID = some (.number (f - amount)) ∧
    (walletService.Transfer s (TransferEnv.ok now) fromUserID toUserID amount).cache
      toUserID = some (.number (t + amount)) := by
  have hcf := entry_of_exact s.db s.cache fromUserID f hcache hf
  have hct := entry_of_exact s.db s.cache toUserID t hcache ht
  obtain ⟨_, _, hw⟩ := svcTransfer_commit s now fromUserID toUserID amount f t hf ht hcf hct ha
  have hne' : ¬ toUserID = fromUserID := fun h => hne h.symm
  rw [hw]
  simp [balanceOf_transferredDB, hf, ht, hne, hne', Function.update_noteq hne]

theorem transfer_moves_amount_witness :
    (1 : Int) ≠ 2 ∧ balanceOf warmWorld.db 1 = some 100 ∧ balanceOf warmWorld.db 2 = some 5 ∧
    CacheExact warmWorld.db warmWorld.cache ∧ (30 : Int) ≤ 100 ∧
    (walletService.Transfer warmWorld (TransferEnv.ok 0) 1 2 30).value = (100 - 30, 5 + 30) :=
  ⟨by decide, by decide, by decide, warmWorld_exact, by decide,
    (transfer_moves_amount warmWorld 0 1 2 30 100 5 (by decide) (by decide) (by decide)
      warmWorld_exact (by decide)).2.1⟩

/-- C11. When the store mutation of `Deposit`, `Withdraw` or `Transfer` commits
(the repository call returns a nil error) and a write-through cache write that
follows fails with `e` (for `Transfer`: the write for `fromUserID`, or the
write for `toUserID` after the first succeeded), the operation returns an
error wrapping `e` with zero balance(s), and the store keeps what the
repository committed: the post-mutation balances and the appended transaction
record. -/
theorem cache_write_failure_keeps_commit (s : World) (e : GoError) :
    (∀ env u a, (walletRepository.Deposit s.db env.tx u a).err = none →
      env.cacheSetErr = some e →
      (walletService.Deposit s env u a).err =
        some (Errorf "failed to update redis for user %d: %w" [u] e) ∧
      (walletService.Deposit s env u a).value = 0 ∧
      (walletService.Deposit s env u a).db = (walletRepository.Deposit s.db env.tx u a).db ∧
      (∃ b, balanceOf s.db u = some b ∧
        balanceOf (walletService.Deposit s env u a).db u = some (b + a)) ∧
      (walletService.Deposit s env u a).db.transactions = s.db.transactions ++
        [newTransactionRow s.db.transactions env.tx.now (some u) none a "deposit"]) ∧
    (∀ env u a, (walletService.GetBalance s env.read u).err = none →
      a ≤ (walletService.GetBalance s env.read u).value →
      (walletRepository.Withdraw s.db env.tx u a).err = none →
      env.cacheSetErr = some e →
      (walletService.Withdraw s env u a).err =
        some (Errorf "failed to update redis for user %d: %w" [u] e) ∧
      (walletService.Withdraw s env u a).value = 0 ∧
      (walletService.Withdraw s env u a).db = (walletRepository.Withdraw s.db env.tx u a).db ∧
      (∃ b, balanceOf s.db u = some b ∧
        balanceOf (walletService.Withdraw s env u a).db u = some (b - a)) ∧
      (walletService.Withdraw s env u a).db.transactions = s.db.transactions ++
        [newTransactionRow s.db.transactions env.tx.now (some u) none a "withdraw"]) ∧
    (∀ env f t a, (walletService.GetBalance s env.readFrom f).err = none →
      a ≤ (walletService.GetBalance s env.readFrom f).value →
      (walletService.GetBalance
        { db := s.db, cache := (walletService.GetBalance s env.readFrom f).cache }
        env.readTo t).err = none →
      (walletRepository.Transfer s.db env.tx f t a).err = none →
      (env.setFromErr = some e ∨ (env.setFromErr = none ∧ env.setToErr = some e)) →
      (walletService.Transfer s env f t a).err =
        some (Errorf "failed to update redis: %w" [] e) ∧
      (walletService.Transfer s env f t a).value = (0, 0) ∧
      (walletService.Transfer s env f t a).db =
        (walletRepository.Transfer s.db env.tx f t a).db ∧
      (∃ bf bt, balanceOf s.db f = some bf ∧ balanceOf s.db t = some bt ∧
        (f ≠ t →
          balanceOf (walletService.Transfer s env f t a).db f = some (bf - a) ∧
          balanceOf (walletService.Transfer s env f t a).db t = some (bt + a))) ∧
      (walletService.Transfer s env f t a).db.transactions = s.db.transactions ++
        [newTransactionRow s.db.transactions env.tx.now (some f) (some t) a "transfer"]) := by
  refine ⟨?_, ?_, ?_⟩
  · intro env u a hcommit hset
    obtain ⟨b, hb, heq⟩ := handleTransaction_of_ok _ _ _ _ _ _ hcommit
    have hbal : balanceOf (committedDB s.db env.tx.now u a .add "deposit") u = some (b + a) := by
      simp [balanceOf_committedDB, hb, BalanceQuery.eval]
    simp only [walletService.Deposit, walletRepository.Deposit, heq, cacheSet, hset]
    refine ⟨?_, ?_, ?_, ⟨b, hb, ?_⟩, ?_⟩ <;> trivial
  · intro env u a hg hle hcommit hset
    obtain ⟨b, hb, heq⟩ := handleTransaction_of_ok _ _ _ _ _ _ hcommit
    have hbal : balanceOf (committedDB s.db env.tx.now u a .sub "withdraw") u = some (b - a) := by
      simp [balanceOf_committedDB, hb, BalanceQuery.eval]
    have hlt : ¬ (walletService.GetBalance s env.read u).value < a := not_lt.mpr hle
    simp only [walletService.Withdraw, hg, hlt, if_false, walletRepository.Withdraw,
      GetBalance_db, heq, cacheSet, hset]
    refine ⟨?_, ?_, ?_, ⟨b, hb, ?_⟩, ?_⟩ <;> trivial
  · intro env f t a hg hle hh hcommit hset
    obtain ⟨bf, bt, hbf, hbt, heq⟩ := Transfer_of_ok _ _ _ _ _ hcommit
    have hbal : f ≠ t → balanceOf (transferredDB s.db env.tx.now f t a) f = some (bf - a) ∧
        balanceOf (transferredDB s.db env.tx.now f t a) t = some (bt + a) := by
      intro hne
      have hne' : ¬ t = f := fun h => hne h.symm
      constructor
      · simp [balanceOf_transferredDB, hbf, hne]
      · simp [balanceOf_transferredDB, hbt, hne']
    have hlt : ¬ (walletService.GetBalance s env.readFrom f).value < a := not_lt.mpr hle
    have hgdb := GetBalance_db s env.readFrom f
    have hhdb : (walletService.GetBalance
        { db := s.db, cache := (walletService.GetBalance s env.readFrom f).cache }
        env.readTo t).db = s.db := GetBalance_db _ env.readTo t
    simp only [walletService.Transfer, hg, hlt, if_false, hgdb, hh,
      walletService.transferCommit, hhdb, heq]
    rcases hset with h1 | ⟨h1, h2⟩
    · simp only [cacheSet, h1]
      refine ⟨?_, ?_, ?_, ⟨bf, bt, hbf, hbt, ?_⟩, ?_⟩ <;> trivial
    · simp only [cacheSet, h1, h2]
      refine ⟨?_, ?_, ?_, ⟨bf, bt, hbf, hbt, ?_⟩, ?_⟩ <;> trivial

theorem cache_write_failure_keeps_commit_witness :
    (walletRepository.Deposit sampleWorld.db (DepositEnv.ok 0).tx 1 25).err = none ∧
    depositCacheWriteFails.cacheSetErr = some (.driver 1) ∧
    (walletService.Deposit sampleWorld depositCacheWriteFails 1 25).value = 0 :=
  ⟨by decide, rfl,
    ((cache_write_failure_keeps_commit sampleWorld (.driver 1)).1
      depositCacheWriteFails 1 25 (by decide) rfl).2.1⟩

/-- C13, as stated, fails: account 1 holds 100 in the store, its cache entry
says 50, and user 999 has neither account nor cache entry. With no failure,
`Transfer(1, 999, 80)` is rejected with `InsufficientFunds`, not with
`RecipientNotFound`: the funds check reads the cached 50, and it comes before
the recipient lookup. -/
theorem transfer_to_missing_recipient_counterexample :
    balanceOf staleLowWorld.db 1 = some 100 ∧ (80 : Int) ≤ 100 ∧
    balanceOf staleLowWorld.db 999 = none ∧ staleLowWorld.cache 999 = none ∧
    (walletService.Transfer staleLowWorld (TransferEnv.ok 0) 1 999 80).err =
      some .insufficientFunds ∧
    (walletService.Transfer staleLowWorld (TransferEnv.ok 0) 1 999 80).err ≠
      some .recipientNotFound := by
  decide

/-- C13, as amended. For an existing account `fromUserID` with store balance
`b` at least the amount whose cache entry is absent or equal to `b`, and a
`toUserID` with no account in the store and no cache entry, when the balance
read of `fromUserID` does not fail: `Transfer` fails with the
`RecipientNotFound` error and zero balances, calls the store only to read
balances, and leaves the database unchanged (the balance of `fromUserID`, all
other balances and the transaction records). -/
theorem transfer_to_missing_recipient (s : World) (env : TransferEnv)
    (fromUserID toUserID amount b : Int)
    (hb : balanceOf s.db fromUserID = some b)
    (hcache : s.cache fromUserID = none ∨ s.cache fromUserID = some (.number b))
    (ha : amount ≤ b)
    (hto : balanceOf s.db toUserID = none) (htoCache : s.cache toUserID = none)
    (hread : env.readFrom = GetBalanceEnv.ok) :
    (walletService.Transfer s env fromUserID toUserID amount).err = some .recipientNotFound ∧
    (walletService.Transfer s env fromUserID toUserID amount).value = (0, 0) ∧
    (∀ c ∈ (walletService.Transfer s env fromUserID toUserID amount).storeCalls,
      c = .selectBalance fromUserID ∨ c = .selectBalance toUserID) ∧
    (walletService.Transfer s env fromUserID toUserID amount).db = s.db := by
  have hc : ∀ v, s.cache fromUserID = some (.number v) → v = b := by
    intro v hv
    rcases hcache with h | h <;> rw [h] at hv
    · simp at hv
    · simp at hv; exact hv.symm
  have hne : toUserID ≠ fromUserID := by
    intro h
    rw [h, hb] at hto
    simp at hto
  obtain ⟨c1, calls1, gets1, hg, hc1, hcalls1⟩ := GetBalance_ok s fromUserID b hb hc
  rw [← hread] at hg
  have hc1to : ∀ v, c1 toUserID ≠ some (.number v) := by
    intro v hv
    rcases hc1 with h | h <;> rw [h] at hv
    · rw [htoCache] at hv; simp at hv
    · rw [Function.update_noteq hne, htoCache] at hv; simp at hv
  obtain ⟨herr, _⟩ := GetBalance_absent { db := s.db, cache := c1 } env.readTo toUserID hto hc1to
  obtain ⟨e, he⟩ := Option.ne_none_iff_exists'.mp herr
  have hdb2 := GetBalance_db { db := s.db, cache := c1 } env.readTo toUserID
  have hcalls2 := GetBalance_storeCalls { db := s.db, cache := c1 } env.readTo toUserID
  have hlt : ¬ b < amount := not_lt.mpr ha
  simp only [walletService.Transfer, hg, hlt, if_false, he]
  refine ⟨trivial, trivial, ?_, hdb2⟩
  intro c hc
  rcases List.mem_append.mp hc with h | h
  · left
    rcases hcalls1 with h1 | h1 <;> rw [h1] at h <;> simp at h
    exact h
  · right
    rcases hcalls2 with h2 | h2 <;> rw [h2] at h <;> simp at h
    exact h

theorem transfer_to_missing_recipient_witness :
    balanceOf sampleWorld.db 1 = some 100 ∧
    (sampleWorld.cache 1 = none ∨ sampleWorld.cache 1 = some (.number 100)) ∧
    (80 : Int) ≤ 100 ∧ balanceOf sampleWorld.db 999 = none ∧ sampleWorld.cache 999 = none ∧
    (walletService.Transfer sampleWorld (TransferEnv.ok 0) 1 999 80).err =
      some .recipientNotFound :=
  ⟨by decide, Or.inl rfl, by decide, by decide, rfl,
    (transfer_to_missing_recipient sampleWorld (TransferEnv.ok 0) 1 999 80 100 (by decide)
      (Or.inl rfl) (by decide) (by decide) rfl rfl).1⟩

/-- C14, as stated, fails: user 999 has no account. During
`Transfer(1, 999, 30)`, with no driver failure, the balance query for 999 is
made and fails with `sql.ErrNoRows`; `Transfer` returns `RecipientNotFound`,
which does not wrap that error. -/
theorem store_error_is_wrapped_counterexample :
    StoreCall.selectBalance 999 ∈
      (walletService.Transfer sampleWorld (TransferEnv.ok 0) 1 999 30).storeCalls ∧
    selectFailure sampleWorld.db (TransferEnv.ok 0).readTo.selectErr 999 = some .errNoRows ∧
    (walletService.Transfer sampleWorld (TransferEnv.ok 0) 1 999 30).err =
      some .recipientNotFound ∧
    GoError.recipientNotFound.Is .errNoRows = false := by
  decide

/-- C14, as amended. Whenever a store call made during `Deposit`, `Withdraw`,
`Transfer`, `GetBalance` or `GetTransactionHistory` fails with error `e`, the
operation returns an error that wraps `e` (`errors.Is`), except for the
recipient lookup of `Transfer`: when the balance query for `toUserID` finds no
account, `Transfer` returns `RecipientNotFound`. The store calls meant are
`BeginTx`, the balance UPDATE, the INSERT and the commit of the repository
transaction that follows a passed funds check, the balance query of a balance
read that reaches the store, and the query, row scans and row iteration of the
history (not the deferred `Rollback` and `rows.Close`, whose errors are not
returned). -/
theorem store_error_is_wrapped (s : World) (e : GoError) :
    (∀ env u a, txFailure s.db env.tx u = some e →
      ∃ r, (walletService.Deposit s env u a).err = some r ∧ r.Is e = true) ∧
    (∀ env u a, (walletService.GetBalance s env.read u).storeCalls ≠ [] →
      selectFailure s.db env.read.selectErr u = some e →
      ∃ r, (walletService.Withdraw s env u a).err = some r ∧ r.Is e = true) ∧
    (∀ env u a, (walletService.GetBalance s env.read u).err = none →
      a ≤ (walletService.GetBalance s env.read u).value →
      txFailure s.db env.tx u = some e →
      ∃ r, (walletService.Withdraw s env u a).err = some r ∧ r.Is e = true) ∧
    (∀ env f t a, (walletService.GetBalance s env.readFrom f).storeCalls ≠ [] →
      selectFailure s.db env.readFrom.selectErr f = some e →
      ∃ r, (walletService.Transfer s env f t a).err = some r ∧ r.Is e = true) ∧
    (∀ env f t a, (walletService.GetBalance s env.readFrom f).err = none →
      a ≤ (walletService.GetBalance s env.readFrom f).value →
      (walletService.GetBalance
        { db := s.db, cache := (walletService.GetBalance s env.readFrom f).cache }
        env.readTo t).storeCalls ≠ [] →
      env.readTo.selectErr = none → balanceOf s.db t = none →
      (walletService.Transfer s env f t a).err = some .recipientNotFound) ∧
    (∀ env f t a, (walletService.GetBalance s env.readFrom f).err = none →
      a ≤ (walletService.GetBalance s env.readFrom f).value →
      (walletService.GetBalance
        { db := s.db, cache := (walletService.GetBalance s env.readFrom f).cache }
        env.readTo t).err = none →
      transferFailure s.db env.tx f t = some e →
      ∃ r, (walletService.Transfer s env f t a).err = some r ∧ r.Is e = true) ∧
    (∀ env u, (walletService.GetBalance s env u).storeCalls ≠ [] →
      selectFailure s.db env.selectErr u = some e →
      ∃ r, (walletService.GetBalance s env u).err = some r ∧ r.Is e = true) ∧
    (∀ env u, historyFailure s.db env u = some e →
      ∃ r, (walletService.GetTransactionHistory s env u).err = some r ∧ r.Is e = true) := by
  refine ⟨?_, ?_, ?_, ?_, ?_, ?_, ?_, ?_⟩
  · intro env u a h
    obtain ⟨r, hr, his⟩ := handleTransaction_failure s.db env.tx u a .add "deposit" e h
    refine ⟨Errorf "failed to deposit to database for user %d: %w" [u] r, ?_,
      Is_Errorf _ _ _ _ his⟩
    simp only [walletService.Deposit, walletRepository.Deposit, hr]
  · intro env u a hcall h
    obtain ⟨r, hr, his⟩ := GetBalance_failure s env.read u e hcall h
    exact ⟨r, by simp only [walletService.Withdraw, hr], his⟩
  · intro env u a hg hle h
    obtain ⟨r, hr, his⟩ := handleTransaction_failure s.db env.tx u a .sub "withdraw" e h
    have hlt : ¬ (walletService.GetBalance s env.read u).value < a := not_lt.mpr hle
    refine ⟨Errorf "failed to update database for user %d: %w" [u] r, ?_,
      Is_Errorf _ _ _ _ his⟩
    simp only [walletService.Withdraw, hg, hlt, if_false, walletRepository.Withdraw,
      GetBalance_db, hr]
  · intro env f t a hcall h
    obtain ⟨r, hr, his⟩ := GetBalance_failure s env.readFrom f e hcall h
    exact ⟨r, by simp only [walletService.Transfer, hr], his⟩
  · intro env f t a hg hle hcall hsel hto
    have hsf : selectFailure s.db env.readTo.selectErr t = some .errNoRows := by
      simp [selectFailure, hsel, hto]
    obtain ⟨r, hr, _⟩ := GetBalance_failure
      { db := s.db, cache := (walletService.GetBalance s env.readFrom f).cache } env.readTo t
      .errNoRows hcall hsf
    have hlt : ¬ (walletService.GetBalance s env.readFrom f).value < a := not_lt.mpr hle
    simp only [walletService.Transfer, hg, hlt, if_false, GetBalance_db, hr]
  · intro env f t a hg hle hh h
    obtain ⟨r, hr, his⟩ := Transfer_failure s.db env.tx f t a e h
    have hlt : ¬ (walletService.GetBalance s env.readFrom f).value < a := not_lt.mpr hle
    have hhdb : (walletService.GetBalance
        { db := s.db, cache := (walletService.GetBalance s env.readFrom f).cache }
        env.readTo t).db = s.db := GetBalance_db _ env.readTo t
    refine ⟨Errorf "failed to update database: %w" [] r, ?_, Is_Errorf _ _ _ _ his⟩
    simp only [walletService.Transfer, hg, hlt, if_false, GetBalance_db, hh,
      walletService.transferCommit, hhdb, hr]
  · intro env u hcall h
    exact GetBalance_failure s env u e hcall h
  · intro env u h
    obtain ⟨r, hr, his⟩ := repoHistory_failure s.db env u e h
    refine ⟨Errorf "failed to get transaction history for user %d: %w" [u] r, ?_,
      Is_Errorf _ _ _ _ his⟩
    simp only [walletService.GetTransactionHistory, hr]

theorem store_error_is_wrapped_witness :
    txFailure sampleWorld.db commitFails 1 = some (.driver 1) ∧
    ∃ r, (walletService.Deposit sampleWorld { tx := commitFails, cacheSetErr := none }
      1 25).err = some r ∧ r.Is (.driver 1) = true :=
  ⟨by decide,
    (store_error_is_wrapped sampleWorld (.driver 1)).1
      { tx := commitFails, cacheSetErr := none } 1 25 (by decide)⟩

/-- C15. For a user `u` whose cache entry holds the balance `v`, when the cache
lookup answers: `GetBalance(u)` returns `v` with a nil error and makes no store
call, whatever the store contains and whether or not a store call would fail;
store and cache are left as they are. -/
theorem cached_balance_is_returned (s : World) (env : GetBalanceEnv) (u v : Int)
    (hget : env.cacheGetErr = none) (hcache : s.cache u = some (.number v)) :
    (walletService.GetBalance s env u).err = none ∧
    (walletService.GetBalance s env u).value = v ∧
    (walletService.GetBalance s env u).storeCalls = [] ∧
    (walletService.GetBalance s env u).cacheCalls = [.get u] ∧
    (walletService.GetBalance s env u).db = s.db ∧
    (walletService.GetBalance s env u).cache = s.cache := by
  rw [GetBalance_hit s env u v hget hcache]
  exact ⟨rfl, rfl, rfl, rfl, rfl, rfl⟩

theorem cached_balance_is_returned_witness :
    (GetBalanceEnv.ok).cacheGetErr = none ∧ staleLowWorld.cache 1 = some (.number 50) ∧
    (walletService.GetBalance staleLowWorld GetBalanceEnv.ok 1).value = 50 :=
  ⟨rfl, by decide,
    (cached_balance_is_returned staleLowWorld GetBalanceEnv.ok 1 50 rfl (by decide)).2.1⟩

/-- C17. For a user `u` with no cache entry and an existing store balance `b`:
if the store read succeeds and the cache write that follows fails with `e`,
`GetBalance(u)` returns an error wrapping `e` together with balance 0, not the
balance `b` it read; the store is unchanged (and so is the cache). -/
theorem cache_fill_failure_fails_read (s : World) (env : GetBalanceEnv) (u b : Int) (e : GoError)
    (hcache : s.cache u = none) (hb : balanceOf s.db u = some b)
    (hsel : env.selectErr = none) (hset : env.cacheSetErr = some e) :
    (walletService.GetBalance s env u).err =
      some (Errorf "failed to update redis for user %d: %w" [u] e) ∧
    (walletService.GetBalance s env u).value = 0 ∧
    (walletService.GetBalance s env u).storeCalls = [.selectBalance u] ∧
    (walletService.GetBalance s env u).cacheCalls = [.get u, .set u b] ∧
    (walletService.GetBalance s env u).db = s.db ∧
    (walletService.GetBalance s env u).cache = s.cache := by
  have hmiss : ∀ v, s.cache u ≠ some (.number v) := by
    intro v hv
    rw [hcache] at hv
    simp at hv
  rw [GetBalance_miss s env u (Or.inr hmiss), getBalanceFallback_present s env u b hsel hb, hset]
  exact ⟨rfl, rfl, rfl, rfl, rfl, rfl⟩

theorem cache_fill_failure_fails_read_witness :
    sampleWorld.cache 1 = none ∧ balanceOf sampleWorld.db 1 = some 100 ∧
    cacheFillFails.selectErr = none ∧ cacheFillFails.cacheSetErr = some (.driver 3) ∧
    (walletService.GetBalance sampleWorld cacheFillFails 1).value = 0 :=
  ⟨rfl, by decide, rfl, rfl,
    (cache_fill_failure_fails_read sampleWorld cacheFillFails 1 100 (.driver 3) rfl (by decide)
      rfl rfl).2.1⟩

/-- C20, on the code: whenever the store holds a record of user `u` whose
source or destination is absent (every deposit and withdrawal record has an
absent destination), `GetTransactionHistory(u)`, with no driver failure on the
query, does not return the records: the scan of the NULL column into the `int`
field fails, and the call returns no transaction and an error wrapping the
scan error. -/
theorem history_fails_on_absent_user_id (s : World) (env : HistoryEnv) (u : Int)
    (r : TransactionRow) (hq : env.queryErr = none) (hr : r ∈ s.db.transactions)
    (hu : r.from_user_id = some u ∨ r.to_user_id = some u)
    (hnull : r.from_user_id = none ∨ r.to_user_id = none) :
    (walletService.GetTransactionHistory s env u).value = [] ∧
    (walletService.GetTransactionHistory s env u).err =
      some (Errorf "failed to get transaction history for user %d: %w" [u]
        (Errorf "failed to scan certain transaction for user %d: %w" [u] .scanNull)) := by
  have hsel : r ∈ selectTransactions u s.db.transactions :=
    (mem_selectTransactions u _ r).mpr ⟨hr, hu⟩
  have hany : (selectTransactions u s.db.transactions).any
      (fun r => r.from_user_id.isNone || r.to_user_id.isNone) = true := by
    rw [List.any_eq_true]
    refine ⟨r, hsel, ?_⟩
    rcases hnull with h | h <;> simp [h]
  rcases scanAll_cases u (selectTransactions u s.db.transactions) with
    ⟨_, herr⟩ | ⟨hfalse, _⟩
  · simp [walletService.GetTransactionHistory, walletRepository.GetTransactionHistory, hq, herr]
  · rw [hany] at hfalse
    simp at hfalse

theorem history_fails_on_absent_user_id_witness :
    HistoryEnv.ok.queryErr = none ∧
    afterDeposit.db.transactions =
      [{ transaction_id := 1, from_user_id := some 1, to_user_id := none, amount := 25,
         transaction_type := "deposit", timestamp := 7 }] ∧
    (walletService.GetTransactionHistory afterDeposit HistoryEnv.ok 1).value = [] ∧
    (walletService.GetTransactionHistory afterDeposit HistoryEnv.ok 1).err =
      some (Errorf "failed to get transaction history for user %d: %w" [1]
        (Errorf "failed to scan certain transaction for user %d: %w" [1] .scanNull)) :=
  ⟨rfl, by decide,
    history_fails_on_absent_user_id afterDeposit HistoryEnv.ok 1
      { transaction_id := 1, from_user_id := some 1, to_user_id := none, amount := 25,
        transaction_type := "deposit", timestamp := 7 }
      rfl (by decide) (Or.inl rfl) (Or.inr rfl)⟩

/-- C21. The sequence returned by a successful `GetTransactionHistory(u)` is
ordered newest-first: for every adjacent pair of returned records the earlier
one in the sequence has a timestamp greater than or equal to the later one's,
and the same holds for every pair of records, adjacent or not. -/
theorem history_is_newest_first (s : World) (env : HistoryEnv) (u : Int)
    (hok : (walletService.GetTransactionHistory s env u).err = none) :
    (walletService.GetTransactionHistory s env u).value.Chain'
      (fun earlier later => later.Timestamp ≤ earlier.Timestamp) ∧
    (walletService.GetTransactionHistory s env u).value.Pairwise
      (fun earlier later => later.Timestamp ≤ earlier.Timestamp) := by
  obtain ⟨hrepo, hval⟩ := svcHistory_ok s env u hok
  have hscan := scanAll_timestamps u _ _ (repoHistory_ok s.db env u hrepo)
  have hsorted := selectTransactions_sorted u s.db.transactions
  have hpair : (walletService.GetTransactionHistory s env u).value.Pairwise
      (fun earlier later => later.Timestamp ≤ earlier.Timestamp) := by
    rw [hval]
    have h1 : ((walletRepository.GetTransactionHistory s.db env u).value.map
        (fun t => t.Timestamp)).Pairwise (fun a b => b ≤ a) := by
      rw [hscan, List.pairwise_map]
      exact hsorted
    rw [List.pairwise_map] at h1
    exact h1
  exact ⟨hpair.chain', hpair⟩

theorem history_is_newest_first_witness :
    (walletService.GetTransactionHistory afterTransfers HistoryEnv.ok 1).err = none ∧
    (walletService.GetTransactionHistory afterTransfers HistoryEnv.ok 1).value.map
      (fun t => t.Timestamp) = [9, 3] ∧
    (walletService.GetTransactionHistory afterTransfers HistoryEnv.ok 1).value.Chain'
      (fun earlier later => later.Timestamp ≤ earlier.Timestamp) :=
  ⟨by decide, by decide,
    (history_is_newest_first afterTransfers HistoryEnv.ok 1 (by decide)).1⟩

/-- C22, as stated, fails: user 999 has no account in the store. With no
failure, `GetTransactionHistory(999)` returns a nil error and an empty
history, after one query on the transaction records and none on the
accounts. -/
theorem history_of_missing_account_counterexample :
    balanceOf sampleWorld.db 999 = none ∧
    (walletService.GetTransactionHistory sampleWorld HistoryEnv.ok 999).err = none ∧
    (walletService.GetTransactionHistory sampleWorld HistoryEnv.ok 999).value = [] ∧
    (walletService.GetTransactionHistory sampleWorld HistoryEnv.ok 999).storeCalls =
      [.selectTransactions 999] := by
  decide

/-- C22, as amended. For every user id that no transaction record names as
source or destination, in particular one that has no account in the store,
`GetTransactionHistory`, when its store query does not fail, succeeds with an
empty history. Whether the user has an account plays no part: the only store
call is the query on the transaction records, and the returned history and
error are the same for any other content of the accounts table. -/
theorem history_of_missing_account (s : World) (env : HistoryEnv) (u : Int)
    (hq : env.queryErr = none) (hrows : env.rowsErr = none)
    (hrec : ∀ r ∈ s.db.transactions, r.from_user_id ≠ some u ∧ r.to_user_id ≠ some u) :
    (walletService.GetTransactionHistory s env u).err = none ∧
    (walletService.GetTransactionHistory s env u).value = [] ∧
    (walletService.GetTransactionHistory s env u).storeCalls = [.selectTransactions u] ∧
    ∀ wallets,
      (walletService.GetTransactionHistory
        { db := { wallets := wallets, transactions := s.db.transactions }, cache := s.cache }
        env u).err = (walletService.GetTransactionHistory s env u).err ∧
      (walletService.GetTransactionHistory
        { db := { wallets := wallets, transactions := s.db.transactions }, cache := s.cache }
        env u).value = (walletService.GetTransactionHistory s env u).value := by
  have hsel := selectTransactions_nil u s.db.transactions hrec
  simp [walletService.GetTransactionHistory, walletRepository.GetTransactionHistory, hq, hrows,
    hsel, walletRepository.scanAll]

theorem history_of_missing_account_witness :
    HistoryEnv.ok.queryErr = none ∧ HistoryEnv.ok.rowsErr = none ∧
    balanceOf afterTransfers.db 999 = none ∧
    (∀ r ∈ afterTransfers.db.transactions,
      r.from_user_id ≠ some 999 ∧ r.to_user_id ≠ some 999) ∧
    (walletService.GetTransactionHistory afterTransfers HistoryEnv.ok 999).err = none ∧
    (walletService.GetTransactionHistory afterTransfers HistoryEnv.ok 999).value = [] :=
  ⟨rfl, rfl, by decide, by decide,
    (history_of_missing_account afterTransfers HistoryEnv.ok 999 rfl rfl (by decide)).1,
    (history_of_missing_account afterTransfers HistoryEnv.ok 999 rfl rfl (by decide)).2.1⟩

/-- C23, as stated, fails on Go's numbers for `X = 2^60`, which is a
`float64`: starting from account 1 with balance 0, account 2 with balance
`2^60` and an empty cache, with no failure, after `Deposit(1, 100)` and
`Withdraw(1, 30)` the call `Transfer(1, 2, 70)` returns `(0, 2^60)`, not
`(0, 2^60 + 70)`: the `float64` numbers next to `2^60` are 256 apart. This is
so whether the store keeps balances exactly or as `float64`. -/
theorem scenario_deposit_withdraw_transfer_counterexample :
    balanceOf (scenarioWorld 1152921504606846976).db 1 = some 0 ∧
    balanceOf (scenarioWorld 1152921504606846976).db 2 = some 1152921504606846976 ∧
    (scenarioWorld 1152921504606846976).cache = emptyCache ∧
    (Rounded.scenarioTransfer Numbers.numericColumn 1152921504606846976).err = none ∧
    (Rounded.scenarioTransfer Numbers.numericColumn 1152921504606846976).value =
      (0, 1152921504606846976) ∧
    (Rounded.scenarioTransfer Numbers.doubleColumn 1152921504606846976).err = none ∧
    (Rounded.scenarioTransfer Numbers.doubleColumn 1152921504606846976).value =
      (0, 1152921504606846976) ∧
    ((0, 1152921504606846976) : Int × Int) ≠ (0, 1152921504606846976 + 70) :=
  ⟨by decide, by decide, rfl, by decide, by decide, by decide, by decide, by decide⟩

/-- C23, as amended. With amounts treated as exact numbers: starting from any
state in which account 1 has store balance 0, account 2 has store balance `X`
and the cache is empty, with no failures:
`Deposit(1, 100)` returns 100; then `Withdraw(1, 30)` returns 70; then
`Transfer(1, 2, 70)` returns `(0, X + 70)`; then `Withdraw(1, 1)` fails with
`InsufficientFunds`, and the store balance of account 1 remains 0. The numbers
`n1 .. n4` are the store's clock at the four calls. -/
theorem scenario_deposit_withdraw_transfer (s : World) (X : Int) (n1 n2 n3 n4 : Nat)
    (h1 : balanceOf s.db 1 = some 0) (h2 : balanceOf s.db 2 = some X)
    (hc : s.cache = emptyCache) :
    (walletService.Deposit s (DepositEnv.ok n1) 1 100).err = none ∧
    (walletService.Deposit s (DepositEnv.ok n1) 1 100).value = 100 ∧
    (walletService.Withdraw (run s [.deposit (DepositEnv.ok n1) 1 100])
      (WithdrawEnv.ok n2) 1 30).err = none ∧
    (walletService.Withdraw (run s [.deposit (DepositEnv.ok n1) 1 100])
      (WithdrawEnv.ok n2) 1 30).value = 70 ∧
    (walletService.Transfer
      (run s [.deposit (DepositEnv.ok n1) 1 100, .withdraw (WithdrawEnv.ok n2) 1 30])
      (TransferEnv.ok n3) 1 2 70).err = none ∧
    (walletService.Transfer
      (run s [.deposit (DepositEnv.ok n1) 1 100, .withdraw (WithdrawEnv.ok n2) 1 30])
      (TransferEnv.ok n3) 1 2 70).value = (0, X + 70) ∧
    (walletService.Withdraw
      (run s [.deposit (DepositEnv.ok n1) 1 100, .withdraw (WithdrawEnv.ok n2) 1 30,
        .transfer (TransferEnv.ok n3) 1 2 70])
      (WithdrawEnv.ok n4) 1 1).err = some .insufficientFunds ∧
    balanceOf
      (run s [.deposit (DepositEnv.ok n1) 1 100, .withdraw (WithdrawEnv.ok n2) 1 30,
        .transfer (TransferEnv.ok n3) 1 2 70, .withdraw (WithdrawEnv.ok n4) 1 1]).db 1 =
      some 0 := by
  -- the deposit
  have hd := svcDeposit_commit s n1 1 100 0 h1
  have hs1 : run s [.deposit (DepositEnv.ok n1) 1 100] =
      { db := committedDB s.db n1 1 100 .add "deposit",
        cache := Function.update emptyCache 1 (some (.number 100)) } := by
    simp [run, Op.exec, hd, hc]
  have hb1 : balanceOf (committedDB s.db n1 1 100 .add "deposit") 1 = some 100 := by
    simp [balanceOf_committedDB, h1, BalanceQuery.eval]
  have hx1 : balanceOf (committedDB s.db n1 1 100 .add "deposit") 2 = some X := by
    simp [balanceOf_committedDB, h2]
  -- the withdrawal
  obtain ⟨calls2, gets2, hw⟩ := svcWithdraw_commit
    { db := committedDB s.db n1 1 100 .add "deposit",
      cache := Function.update emptyCache 1 (some (.number 100)) } n2 1 30 100 hb1
    (by intro v hv; simp at hv; exact hv.symm) (by norm_num)
  have hs2 : run s [.deposit (DepositEnv.ok n1) 1 100, .withdraw (WithdrawEnv.ok n2) 1 30] =
      { db := committedDB (committedDB s.db n1 1 100 .add "deposit") n2 1 30 .sub "withdraw",
        cache := Function.update emptyCache 1 (some (.number 70)) } := by
    have : run s [.deposit (DepositEnv.ok n1) 1 100, .withdraw (WithdrawEnv.ok n2) 1 30] =
        run (run s [.deposit (DepositEnv.ok n1) 1 100]) [.withdraw (WithdrawEnv.ok n2) 1 30] :=
      rfl
    rw [this, hs1]
    simp [run, Op.exec, hw]
  have hb2 : balanceOf
      (committedDB (committedDB s.db n1 1 100 .add "deposit") n2 1 30 .sub "withdraw") 1 =
      some 70 := by
    simp [balanceOf_committedDB, hb1, BalanceQuery.eval]
  have hx2 : balanceOf
      (committedDB (committedDB s.db n1 1 100 .add "deposit") n2 1 30 .sub "withdraw") 2 =
      some X := by
    simp [balanceOf_committedDB, hx1]
  -- the transfer
  obtain ⟨calls3, gets3, ht⟩ := svcTransfer_commit
    { db := committedDB (committedDB s.db n1 1 100 .add "deposit") n2 1 30 .sub "withdraw",
      cache := Function.update emptyCache 1 (some (.number 70)) } n3 1 2 70 70 X hb2 hx2
    (by intro v hv; simp at hv; exact hv.symm)
    (by intro v hv; simp [emptyCache] at hv) (le_refl _)
  have hs3 : run s [.deposit (DepositEnv.ok n1) 1 100, .withdraw (WithdrawEnv.ok n2) 1 30,
      .transfer (TransferEnv.ok n3) 1 2 70] =
      { db := transferredDB
          (committedDB (committedDB s.db n1 1 100 .add "deposit") n2 1 30 .sub "withdraw")
          n3 1 2 70,
        cache := Function.update (Function.update (Function.update emptyCache 1
          (some (.number 70))) 1 (some (.number 0))) 2 (some (.number (X + 70))) } := by
    have : run s [.deposit (DepositEnv.ok n1) 1 100, .withdraw (WithdrawEnv.ok n2) 1 30,
        .transfer (TransferEnv.ok n3) 1 2 70] =
        run (run s [.deposit (DepositEnv.ok n1) 1 100, .withdraw (WithdrawEnv.ok n2) 1 30])
          [.transfer (TransferEnv.ok n3) 1 2 70] := rfl
    rw [this, hs2]
    simp [run, Op.exec, ht]
  have hb3 : balanceOf (transferredDB
      (committedDB (committedDB s.db n1 1 100 .add "deposit") n2 1 30 .sub "withdraw")
      n3 1 2 70) 1 = some 0 := by
    simp [balanceOf_transferredDB, hb2]
  -- the rejected withdrawal
  have hhit := GetBalance_hit
    { db := transferredDB
        (committedDB (committedDB s.db n1 1 100 .add "deposit") n2 1 30 .sub "withdraw")
        n3 1 2 70,
      cache := Function.update (Function.update (Function.update emptyCache 1
        (some (.number 70))) 1 (some (.number 0))) 2 (some (.number (X + 70))) }
    (WithdrawEnv.ok n4).read 1 0 rfl (by simp)
  have hrej := (Withdraw_insufficient_iff
    { db := transferredDB
        (committedDB (committedDB s.db n1 1 100 .add "deposit") n2 1 30 .sub "withdraw")
        n3 1 2 70,
      cache := Function.update (Function.update (Function.update emptyCache 1
        (some (.number 70))) 1 (some (.number 0))) 2 (some (.number (X + 70))) }
    (WithdrawEnv.ok n4) 1 1).mpr (by rw [hhit]; simp)
  have hs4 : (run s [.deposit (DepositEnv.ok n1) 1 100, .withdraw (WithdrawEnv.ok n2) 1 30,
      .transfer (TransferEnv.ok n3) 1 2 70, .withdraw (WithdrawEnv.ok n4) 1 1]).db =
      transferredDB
        (committedDB (committedDB s.db n1 1 100 .add "deposit") n2 1 30 .sub "withdraw")
        n3 1 2 70 := by
    have : run s [.deposit (DepositEnv.ok n1) 1 100, .withdraw (WithdrawEnv.ok n2) 1 30,
        .transfer (TransferEnv.ok n3) 1 2 70, .withdraw (WithdrawEnv.ok n4) 1 1] =
        run (run s [.deposit (DepositEnv.ok n1) 1 100, .withdraw (WithdrawEnv.ok n2) 1 30,
          .transfer (TransferEnv.ok n3) 1 2 70]) [.withdraw (WithdrawEnv.ok n4) 1 1] := rfl
    rw [this, hs3]
    exact (svcWithdraw_rejected _ _ _ _ hrej).1
  rw [hs1, hs2, hs3, hs4, hd, hw, ht]
  refine ⟨rfl, by simp, rfl, by simp, rfl, by simp, hrej, hb3⟩

theorem scenario_deposit_withdraw_transfer_witness :
    balanceOf (scenarioWorld 5).db 1 = some 0 ∧ balanceOf (scenarioWorld 5).db 2 = some 5 ∧
    (scenarioWorld 5).cache = emptyCache ∧
    (walletService.Transfer
      (run (scenarioWorld 5)
        [.deposit (DepositEnv.ok 1) 1 100, .withdraw (WithdrawEnv.ok 2) 1 30])
      (TransferEnv.ok 3) 1 2 70).value = (0, 5 + 70) :=
  ⟨by decide, by decide, rfl,
    (scenario_deposit_withdraw_transfer (scenarioWorld 5) 5 1 2 3 4 (by decide) (by decide)
      rfl).2.2.2.2.2.1⟩

/-- C24. When the store mutation of `Deposit`, `Withdraw` or `Transfer` fails
(the repository call the operation makes after its checks returns the error
`e`), the operation makes no cache call after it: the cache calls are those of
the balance reads that came before (none for `Deposit`), every cache entry is
what it was when the mutation started, and the returned error wraps `e`
(`errors.Is`). -/
theorem no_cache_write_after_failed_mutation (s : World) (e : GoError) :
    (∀ env u a, (walletRepository.Deposit s.db env.tx u a).err = some e →
      (walletService.Deposit s env u a).cacheCalls = [] ∧
      (walletService.Deposit s env u a).cache = s.cache ∧
      ∃ r, (walletService.Deposit s env u a).err = some r ∧ r.Is e = true) ∧
    (∀ env u a, (walletService.GetBalance s env.read u).err = none →
      a ≤ (walletService.GetBalance s env.read u).value →
      (walletRepository.Withdraw s.db env.tx u a).err = some e →
      (walletService.Withdraw s env u a).cacheCalls =
        (walletService.GetBalance s env.read u).cacheCalls ∧
      (walletService.Withdraw s env u a).cache = (walletService.GetBalance s env.read u).cache ∧
      ∃ r, (walletService.Withdraw s env u a).err = some r ∧ r.Is e = true) ∧
    (∀ env f t a, (walletService.GetBalance s env.readFrom f).err = none →
      a ≤ (walletService.GetBalance s env.readFrom f).value →
      (walletService.GetBalance
        { db := s.db, cache := (walletService.GetBalance s env.readFrom f).cache }
        env.readTo t).err = none →
      (walletRepository.Transfer s.db env.tx f t a).err = some e →
      (walletService.Transfer s env f t a).cacheCalls =
        (walletService.GetBalance s env.readFrom f).cacheCalls ++
          (walletService.GetBalance
            { db := s.db, cache := (walletService.GetBalance s env.readFrom f).cache }
            env.readTo t).cacheCalls ∧
      (walletService.Transfer s env f t a).cache =
        (walletService.GetBalance
          { db := s.db, cache := (walletService.GetBalance s env.readFrom f).cache }
          env.readTo t).cache ∧
      ∃ r, (walletService.Transfer s env f t a).err = some r ∧ r.Is e = true) := by
  refine ⟨?_, ?_, ?_⟩
  · intro env u a hfail
    simp only [walletService.Deposit, hfail]
    exact ⟨trivial, trivial, _, rfl, Is_Errorf _ _ _ _ (Is_self e)⟩
  · intro env u a hg hle hfail
    have hlt : ¬ (walletService.GetBalance s env.read u).value < a := not_lt.mpr hle
    have hdb := GetBalance_db s env.read u
    simp only [walletService.Withdraw, hg, hlt, if_false, hdb, hfail]
    exact ⟨trivial, trivial, _, rfl, Is_Errorf _ _ _ _ (Is_self e)⟩
  · intro env f t a hg hle hh hfail
    have hlt : ¬ (walletService.GetBalance s env.readFrom f).value < a := not_lt.mpr hle
    have hdb := GetBalance_db s env.readFrom f
    have hdb2 := GetBalance_db
      { db := s.db, cache := (walletService.GetBalance s env.readFrom f).cache } env.readTo t
    simp only [walletService.Transfer, hg, hlt, if_false, hdb, hh, walletService.transferCommit,
      hdb2, hfail]
    exact ⟨trivial, trivial, _, rfl, Is_Errorf _ _ _ _ (Is_self e)⟩

theorem no_cache_write_after_failed_mutation_witness :
    (walletService.GetBalance sampleWorld GetBalanceEnv.ok 1).err = none ∧
    25 ≤ (walletService.GetBalance sampleWorld GetBalanceEnv.ok 1).value ∧
    (walletRepository.Withdraw sampleWorld.db commitFails 1 25).err =
      some (Errorf "failed to commit transaction for user %d: %w" [1] (.driver 1)) ∧
    (walletService.Withdraw sampleWorld
      { read := GetBalanceEnv.ok, tx := commitFails, cacheSetErr := none } 1 25).cacheCalls =
      (walletService.GetBalance sampleWorld GetBalanceEnv.ok 1).cacheCalls :=
  ⟨by decide, by decide, by decide,
    ((no_cache_write_after_failed_mutation sampleWorld
      (Errorf "failed to commit transaction for user %d: %w" [1] (.driver 1))).2.1
      { read := GetBalanceEnv.ok, tx := commitFails, cacheSetErr := none } 1 25
      (by decide) (by decide) (by decide)).1⟩

/-- C26. In the HTTP handlers, with the endpoint stored in the context as the
routes do, and for any implementation of the service: when the service method
the handler calls (`Deposit`, `Withdraw`, `Transfer` or `GetBalance`) returns
an error `e`, whichever it is, the handler responds with status 500 and the
JSON body whose `error` field is the message `e.Error()`; when the path
`user_id` is not an integer, the deposit, withdraw and balance handlers
respond with status 400 and make no call to the service; when the service
method returns a nil error, the handler responds with status 200. -/
theorem handler_status_codes (Error : GoError → String) (c : endpoints.Context) (s : World)
    (ep : endpoints.Endpoint) (hep : c.endpoint = some ep) :
    (∀ u a e, c.user_id = some u → c.amount = some a →
      (ep.Svc.Deposit s u a).err = some e →
      endpoints.depositHandler Error c s =
        some { code := 500, body := .H [("error", .str (Error e))],
               world := { db := (ep.Svc.Deposit s u a).db, cache := (ep.Svc.Deposit s u a).cache },
               calls := [.Deposit u a] }) ∧
    (∀ u a e, c.user_id = some u → c.amount = some a →
      (ep.Svc.Withdraw s u a).err = some e →
      endpoints.withdrawHandler Error c s =
        some { code := 500, body := .H [("error", .str (Error e))],
               world := { db := (ep.Svc.Withdraw s u a).db,
                          cache := (ep.Svc.Withdraw s u a).cache },
               calls := [.Withdraw u a] }) ∧
    (∀ req e, c.transfer = some req →
      (ep.Svc.Transfer s req.FromUserID req.ToUserID req.Amount).err = some e →
      endpoints.transferHandler Error c s =
        some { code := 500, body := .H [("error", .str (Error e))],
               world :=
                 { db := (ep.Svc.Transfer s req.FromUserID req.ToUserID req.Amount).db,
                   cache := (ep.Svc.Transfer s req.FromUserID req.ToUserID req.Amount).cache },
               calls := [.Transfer req.FromUserID req.ToUserID req.Amount] }) ∧
    (∀ u e, c.user_id = some u → (ep.Svc.GetBalance s u).err = some e →
      endpoints.balanceHandler Error c s =
        some { code := 500, body := .H [("error", .str (Error e))],
               world := { db := (ep.Svc.GetBalance s u).db, cache := (ep.Svc.GetBalance s u).cache },
               calls := [.GetBalance u] }) ∧
    (c.user_id = none →
      endpoints.depositHandler Error c s =
        some { code := 400, body := .H [("error", .str "invalid user_id")], world := s,
               calls := [] } ∧
      endpoints.withdrawHandler Error c s =
        some { code := 400, body := .H [("error", .str "invalid user_id")], world := s,
               calls := [] } ∧
      endpoints.balanceHandler Error c s =
        some { code := 400, body := .H [("error", .str "invalid user_id")], world := s,
               calls := [] }) ∧
    (∀ u a, c.user_id = some u → c.amount = some a → (ep.Svc.Deposit s u a).err = none →
      endpoints.depositHandler Error c s =
        some { code := 200,
               body := .H [("status", .str "success"),
                 ("new_balance", .num (ep.Svc.Deposit s u a).value)],
               world := { db := (ep.Svc.Deposit s u a).db, cache := (ep.Svc.Deposit s u a).cache },
               calls := [.Deposit u a] }) ∧
    (∀ u a, c.user_id = some u → c.amount = some a → (ep.Svc.Withdraw s u a).err = none →
      endpoints.withdrawHandler Error c s =
        some { code := 200,
               body := .H [("status", .str "success"),
                 ("new_balance", .num (ep.Svc.Withdraw s u a).value)],
               world := { db := (ep.Svc.Withdraw s u a).db,
                          cache := (ep.Svc.Withdraw s u a).cache },
               calls := [.Withdraw u a] }) ∧
    (∀ req, c.transfer = some req →
      (ep.Svc.Transfer s req.FromUserID req.ToUserID req.Amount).err = none →
      endpoints.transferHandler Error c s =
        some { code := 200,
               body := .H [("status", .str "success"),
                 ("from_balance",
                   .num (ep.Svc.Transfer s req.FromUserID req.ToUserID req.Amount).value.1)],
               world :=
                 { db := (ep.Svc.Transfer s req.FromUserID req.ToUserID req.Amount).db,
                   cache := (ep.Svc.Transfer s req.FromUserID req.ToUserID req.Amount).cache },
               calls := [.Transfer req.FromUserID req.ToUserID req.Amount] }) ∧
    (∀ u, c.user_id = some u → (ep.Svc.GetBalance s u).err = none →
      endpoints.balanceHandler Error c s =
        some { code := 200, body := .H [("balance", .num (ep.Svc.GetBalance s u).value)],
               world := { db := (ep.Svc.GetBalance s u).db, cache := (ep.Svc.GetBalance s u).cache },
               calls := [.GetBalance u] }) := by
  refine ⟨?_, ?_, ?_, ?_, ?_, ?_, ?_, ?_, ?_⟩
  · intro u a e hu ha he
    simp [endpoints.depositHandler, endpoints.handleTransactionRequest, endpoints.epInstance,
      hep, hu, ha, he, endpoints.StatusInternalServerError]
  · intro u a e hu ha he
    simp [endpoints.withdrawHandler, endpoints.handleTransactionRequest, endpoints.epInstance,
      hep, hu, ha, he, endpoints.StatusInternalServerError]
  · intro req e hreq he
    simp [endpoints.transferHandler, endpoints.epInstance, hep, hreq, he,
      endpoints.StatusInternalServerError]
  · intro u e hu he
    simp [endpoints.balanceHandler, endpoints.epInstance, hep, hu, he,
      endpoints.StatusInternalServerError]
  · intro hu
    simp [endpoints.depositHandler, endpoints.withdrawHandler,
      endpoints.handleTransactionRequest, endpoints.balanceHandler, endpoints.epInstance, hep,
      hu, endpoints.StatusBadRequest]
  · intro u a hu ha he
    simp [endpoints.depositHandler, endpoints.handleTransactionRequest, endpoints.epInstance,
      hep, hu, ha, he, endpoints.StatusOK]
  · intro u a hu ha he
    simp [endpoints.withdrawHandler, endpoints.handleTransactionRequest, endpoints.epInstance,
      hep, hu, ha, he, endpoints.StatusOK]
  · intro req hreq he
    simp [endpoints.transferHandler, endpoints.epInstance, hep, hreq, he, endpoints.StatusOK]
  · intro u hu he
    simp [endpoints.balanceHandler, endpoints.epInstance, hep, hu, he, endpoints.StatusOK]

theorem handler_status_codes_witness :
    sampleContext.endpoint = some { Svc := sampleService } ∧
    sampleContext.user_id = some 1 ∧ sampleContext.amount = some 500 ∧
    (sampleService.Withdraw sampleWorld 1 500).err = some .insufficientFunds ∧
    endpoints.withdrawHandler factoryMessage sampleContext sampleWorld =
      some { code := 500, body := .H [("error", .str "insufficient funds")],
             world := { db := (sampleService.Withdraw sampleWorld 1 500).db,
                        cache := (sampleService.Withdraw sampleWorld 1 500).cache },
             calls := [.Withdraw 1 500] } ∧
    badPathContext.user_id = none ∧
    endpoints.balanceHandler factoryMessage badPathContext sampleWorld =
      some { code := 400, body := .H [("error", .str "invalid user_id")], world := sampleWorld,
             calls := [] } :=
  ⟨rfl, rfl, rfl, by decide,
    (handler_status_codes factoryMessage sampleContext sampleWorld { Svc := sampleService }
      rfl).2.1 1 500 .insufficientFunds rfl rfl (by decide),
    rfl,
    ((handler_status_codes factoryMessage badPathContext sampleWorld { Svc := sampleService }
      rfl).2.2.2.2.1 rfl).2.2⟩

/-- C28. Whenever the sender's balance as read by `GetBalance` is below the
amount, `Transfer` returns `InsufficientFunds`, whether or not the recipient
has an account; the calls it makes to store and cache are exactly those of
that one balance read, so every store call is the balance query for the sender
and every cache call is a lookup or fill of the sender's entry: there is no
second balance read for the recipient and no store mutation, and the database
is unchanged. -/
theorem transfer_checks_funds_before_recipient (s : World) (env : TransferEnv)
    (fromUserID toUserID amount : Int)
    (hread : (walletService.GetBalance s env.readFrom fromUserID).err = none)
    (hlow : (walletService.GetBalance s env.readFrom fromUserID).value < amount) :
    (walletService.Transfer s env fromUserID toUserID amount).err = some .insufficientFunds ∧
    (walletService.Transfer s env fromUserID toUserID amount).storeCalls =
      (walletService.GetBalance s env.readFrom fromUserID).storeCalls ∧
    (walletService.Transfer s env fromUserID toUserID amount).cacheCalls =
      (walletService.GetBalance s env.readFrom fromUserID).cacheCalls ∧
    (∀ c ∈ (walletService.Transfer s env fromUserID toUserID amount).storeCalls,
      c = .selectBalance fromUserID) ∧
    (∀ c ∈ (walletService.Transfer s env fromUserID toUserID amount).cacheCalls,
      c = .get fromUserID ∨ ∃ v, c = .set fromUserID v) ∧
    (walletService.Transfer s env fromUserID toUserID amount).db = s.db := by
  have hcalls := GetBalance_calls_of s env.readFrom fromUserID
  have hdb := GetBalance_db s env.readFrom fromUserID
  simp only [walletService.Transfer, hread, hlow, if_true]
  exact ⟨trivial, trivial, trivial, hcalls.1, hcalls.2, hdb⟩

theorem transfer_checks_funds_before_recipient_witness :
    (walletService.GetBalance sampleWorld (TransferEnv.ok 0).readFrom 1).err = none ∧
    (walletService.GetBalance sampleWorld (TransferEnv.ok 0).readFrom 1).value < 500 ∧
    balanceOf sampleWorld.db 999 = none ∧
    (walletService.Transfer sampleWorld (TransferEnv.ok 0) 1 999 500).err =
      some .insufficientFunds ∧
    (walletService.Transfer sampleWorld (TransferEnv.ok 0) 1 999 500).storeCalls =
      [.selectBalance 1] :=
  ⟨by decide, by decide, by decide,
    (transfer_checks_funds_before_recipient sampleWorld (TransferEnv.ok 0) 1 999 500
      (by decide) (by decide)).1, by decide⟩

/-- C29, as stated, fails: account 1 holds 100 in the store and its cache
entry says 50. With no failure, `Transfer(1, 1, 80)` is rejected with
`InsufficientFunds` although `0 < 80 ≤ 100`: it returns `(0, 0)`, not
`(100 - 80, 100)`, and appends no transaction record. -/
theorem self_transfer_counterexample :
    balanceOf staleLowWorld.db 1 = some 100 ∧ (0 : Int) < 80 ∧ (80 : Int) ≤ 100 ∧
    (walletService.Transfer staleLowWorld (TransferEnv.ok 0) 1 1 80).err =
      some .insufficientFunds ∧
    (walletService.Transfer staleLowWorld (TransferEnv.ok 0) 1 1 80).value ≠
      (100 - 80, 100) ∧
    (walletService.Transfer staleLowWorld (TransferEnv.ok 0) 1 1 80).db.transactions =
      staleLowWorld.db.transactions := by
  decide

/-- C29, as amended. With amounts treated as exact numbers: for an existing
account `u` with store balance `b` whose cache entry is absent or equal to
`b`, and an amount `a` with `0 < a ≤ b`, with no failures: `Transfer(u, u, a)` succeeds, leaves the store balance of
`u` equal to `b`, appends exactly one transfer record with source and
destination both `u`, leaves the cache entry of `u` equal to `b`, and returns
the pair `(b - a, b)`, whose first component is not the store balance of
`u`. -/
theorem self_transfer (s : World) (now : Nat) (u a b : Int)
    (hb : balanceOf s.db u = some b)
    (hcache : s.cache u = none ∨ s.cache u = some (.number b))
    (hpos : 0 < a) (ha : a ≤ b) :
    (walletService.Transfer s (TransferEnv.ok now) u u a).err = none ∧
    balanceOf (walletService.Transfer s (TransferEnv.ok now) u u a).db u = some b ∧
    (walletService.Transfer s (TransferEnv.ok now) u u a).db.transactions =
      s.db.transactions ++
        [newTransactionRow s.db.transactions now (some u) (some u) a "transfer"] ∧
    (walletService.Transfer s (TransferEnv.ok now) u u a).cache u = some (.number b) ∧
    (walletService.Transfer s (TransferEnv.ok now) u u a).value = (b - a, b) ∧
    balanceOf (walletService.Transfer s (TransferEnv.ok now) u u a).db u ≠
      some (walletService.Transfer s (TransferEnv.ok now) u u a).value.1 := by
  have hc : ∀ v, s.cache u = some (.number v) → v = b := by
    intro v hv
    rcases hcache with h | h <;> rw [h] at hv
    · simp at hv
    · simp at hv; exact hv.symm
  obtain ⟨calls, gets, heq⟩ := svcTransfer_commit s now u u a b b hb hb hc hc ha
  rw [heq]
  have hbal : balanceOf (transferredDB s.db now u u a) u = some b := by
    simp [balanceOf_transferredDB, hb]
  refine ⟨rfl, hbal, rfl, ?_, ?_, ?_⟩
  · simp
  · simp
  · simp only [hbal]
    simp
    omega

theorem self_transfer_witness :
    balanceOf sampleWorld.db 1 = some 100 ∧
    (sampleWorld.cache 1 = none ∨ sampleWorld.cache 1 = some (.number 100)) ∧
    (0 : Int) < 30 ∧ (30 : Int) ≤ 100 ∧
    (walletService.Transfer sampleWorld (TransferEnv.ok 0) 1 1 30).value = (100 - 30, 100) :=
  ⟨by decide, Or.inl rfl, by decide, by decide,
    (self_transfer sampleWorld 0 1 30 100 (by decide) (Or.inl rfl) (by decide)
      (by decide)).2.2.2.2.1⟩

/-- C30. Frame, for any behaviour of store and cache: `Deposit(u, a)` and
`Withdraw(u, a)` leave the store balance and the cache entry of every user
other than `u` unchanged; `Transfer(from, to, a)` leaves the store balance and
the cache entry of every user other than `from` and `to` unchanged;
`GetBalance(u)` leaves the whole database unchanged (every store balance and
every transaction record) and changes at most the cache entry of `u`; and
after any operation the transaction records start with the records that were
there before, unaltered and in the same order. -/
theorem frame_of_operations (s : World) :
    (∀ env u a k, k ≠ u →
      balanceOf (walletService.Deposit s env u a).db k = balanceOf s.db k ∧
      (walletService.Deposit s env u a).cache k = s.cache k) ∧
    (∀ env u a k, k ≠ u →
      balanceOf (walletService.Withdraw s env u a).db k = balanceOf s.db k ∧
      (walletService.Withdraw s env u a).cache k = s.cache k) ∧
    (∀ env f t a k, k ≠ f → k ≠ t →
      balanceOf (walletService.Transfer s env f t a).db k = balanceOf s.db k ∧
      (walletService.Transfer s env f t a).cache k = s.cache k) ∧
    (∀ env u, (walletService.GetBalance s env u).db = s.db ∧
      ∀ k, k ≠ u → (walletService.GetBalance s env u).cache k = s.cache k) ∧
    (∀ op : Op, ∃ added, (op.exec s).1.db.transactions = s.db.transactions ++ added) := by
  refine ⟨?_, ?_, ?_, ?_, ?_⟩
  · intro env u a k hk
    exact (svcDeposit_frame s env u a).1 k hk
  · intro env u a k hk
    exact (svcWithdraw_frame s env u a).1 k hk
  · intro env f t a k hkf hkt
    exact (svcTransfer_frame s env f t a).1 k hkf hkt
  · intro env u
    exact ⟨GetBalance_db s env u, fun k hk => GetBalance_cache_frame s env u k hk⟩
  · intro op
    cases op with
    | deposit env u a => exact (svcDeposit_frame s env u a).2
    | withdraw env u a => exact (svcWithdraw_frame s env u a).2
    | transfer env f t a => exact (svcTransfer_frame s env f t a).2
    | getBalance env u => exact ⟨[], by simp [Op.exec, GetBalance_db]⟩
    | getTransactionHistory env u =>
      exact ⟨[], by simp [Op.exec, (svcHistory_state s env u).1]⟩

theorem frame_of_operations_witness :
    (2 : Int) ≠ 1 ∧
    balanceOf (walletService.Withdraw sampleWorld (WithdrawEnv.ok 0) 1 30).db 2 =
      balanceOf sampleWorld.db 2 ∧
    (walletService.Withdraw sampleWorld (WithdrawEnv.ok 0) 1 30).cache 2 = sampleWorld.cache 2 :=
  ⟨by decide, (frame_of_operations sampleWorld).2.1 (WithdrawEnv.ok 0) 1 30 2 (by decide)⟩

end Wallet
